import Mathlib

/-
  Verification development for the mas_poc multi-agent platform.

  Shallow embedding of the core components:
  - the append-only Knowledge Base agent (firststage/agent/kbagent.py),
  - the correlation book (firststage/protocol/correlation.py),
  - the Coordinator's dispatcher, fallback selection and retry loop
    (firststage/agent/coordinator.py),
  - the Directory Facilitator catalog (firststage/agent/registry.py),
  - the ACL envelope and performative normalization
    (firststage/protocol/acl_messages.py).

  Strings are modelled at the ASCII level: Python str.upper/str.lower/str.strip
  are embedded as the corresponding ASCII character maps, and str.isdigit as
  the ASCII decimal-digit test.
-/

namespace MasPoc

/- ===== JSON values (the `content`/`value` payloads are JSON trees) ===== -/

inductive JVal where
  | null
  | bool (b : Bool)
  | num (n : Int)
  | str (s : String)
  | arr (elems : List JVal)
  | obj (fields : List (String × JVal))

/- ===== Small string helpers shared by several agents ===== -/

/- Python `s.split(":")` (no maxsplit), on the character list of the string. -/
def splitChar (sep : Char) : List Char → List (List Char)
  | [] => [[]]
  | c :: rest =>
    let r := splitChar sep rest
    if c = sep then [] :: r
    else
      match r with
      | s :: tl => (c :: s) :: tl
      | [] => [[c]]

/- Python `bare(jid) = str(jid).split("/")[0]` from kbagent.py / coordinator.py. -/
def bareJid (j : String) : String :=
  match splitChar '/' j.data with
  | s :: _ => String.mk s
  | [] => j

/- ASCII model of Python str.lower / str.upper (single characters). -/
def charLower (c : Char) : Char :=
  if 'A' ≤ c ∧ c ≤ 'Z' then Char.ofNat (c.toNat + 32) else c

def charUpper (c : Char) : Char :=
  if 'a' ≤ c ∧ c ≤ 'z' then Char.ofNat (c.toNat - 32) else c

def lowerStr (s : String) : String := String.mk (s.data.map charLower)

def upperStr (s : String) : String := String.mk (s.data.map charUpper)

/- Lexicographic code-point comparison, the order Python sorted() uses on
   strings (structural, unlike the iterator-based core String order). -/
def lexLe : List Char → List Char → Bool
  | [], _ => true
  | _ :: _, [] => false
  | a :: as, b :: bs => if a = b then lexLe as bs else decide (a < b)

def strLe (a b : String) : Prop := lexLe a.data b.data = true

instance : DecidableRel strLe := fun a b => instDecidableEqBool (lexLe a.data b.data) true

/- ASCII model of Python str.isdigit (nonempty, all decimal digits). -/
def pyIsDigit (s : String) : Bool :=
  !s.data.isEmpty && s.data.all Char.isDigit

/- Python int(...) on a decimal-digit string. -/
def digitsToNat (l : List Char) : Nat :=
  l.foldl (fun a c => a * 10 + (c.toNat - 48)) 0

/- ===== KB agent (firststage/agent/kbagent.py) ===== -/

/- One row of the kb_items table. -/
structure KBItem where
  key : String
  version : Nat
  etag : String
  content_type : String
  value : JVal
  tags : List String
  session_id : Option String
  created_at : Nat
  created_by : String
  deleted : Bool

/- KEY_RE: five colon-separated segments, each nonempty over [a-z0-9._-]. -/
def keySegChar (c : Char) : Bool :=
  c.isLower || c.isDigit || c = '.' || c = '_' || c = '-'

def keyValid (k : String) : Bool :=
  let parts := splitChar ':' k.data
  parts.length == 5 && parts.all (fun seg => !seg.isEmpty && seg.all keySegChar)

/- `key.split(":", 4)`: session id is the second segment when the first is
   "session" (KBCycle._handle_store). -/
def sessionIdOf (key : String) : Option String :=
  match splitChar ':' key.data with
  | p0 :: p1 :: _ => if String.mk p0 = "session" then some (String.mk p1) else none
  | _ => none

/- `if_match.startswith("v") and if_match[1:].isdigit()` (KBStorage.store). -/
def isVersionToken (s : String) : Bool :=
  match s.data with
  | 'v' :: rest => !rest.isEmpty && rest.all Char.isDigit
  | _ => false

def versionOfToken (s : String) : Nat :=
  match s.data with
  | _ :: rest => digitsToNat rest
  | [] => 0

/- SELECT COALESCE(MAX(version),0) FROM kb_items WHERE key=.. -/
def maxVersion (db : List KBItem) (key : String) : Nat :=
  (db.filter (fun r => r.key == key)).foldl (fun a r => max a r.version) 0

inductive StoreResult where
  | stored (version : Nat) (etag : String) (db : List KBItem)
  | conflict (reason : String)

/- KBStorage.store: append-only insert guarded by if_match.
   The "vN" branch compares against the current max version; the ETag branch
   runs SELECT 1 FROM kb_items WHERE key=.. AND etag::text=.. (any version).
   `if if_match:` is Python truthiness, so the empty string skips the check.
   The fresh uuid4 etag and now() are passed in as parameters. -/
def KBStorage.store (db : List KBItem) (key content_type : String) (value : JVal)
    (tags : List String) (session_id : Option String) (created_by : String)
    (if_match : Option String) (freshEtag : String) (now : Nat) : StoreResult :=
  let insert : StoreResult :=
    let version := maxVersion db key + 1
    let row : KBItem :=
      { key := key, version := version, etag := freshEtag,
        content_type := content_type, value := value, tags := tags,
        session_id := session_id, created_at := now,
        created_by := created_by, deleted := false }
    .stored version freshEtag (db ++ [row])
  match if_match with
  | none => insert
  | some tok =>
    if tok = "" then insert
    else if isVersionToken tok then
      let expected := versionOfToken tok
      let curV := maxVersion db key
      if curV ≠ expected then .conflict "Version mismatch" else insert
    else
      if (db.filter (fun r => r.key == key && r.etag == tok)).isEmpty then
        .conflict "ETag mismatch"
      else insert

/- ORDER BY version DESC LIMIT 1 over a filtered row set. -/
def latestRow (rows : List KBItem) : Option KBItem :=
  rows.foldl
    (fun acc r =>
      match acc with
      | none => some r
      | some b => if b.version < r.version then some r else some b)
    none

/- KBStorage.get: explicit version, as_of timestamp, or latest; never returns
   a deleted row.  `prefer` is accepted and ignored, as in the source. -/
def KBStorage.get (db : List KBItem) (key : String) (_prefer : Option String)
    (version : Option Int) (as_of : Option Nat) : Option KBItem :=
  match version with
  | some v =>
    (db.filter (fun r => r.key == key && ((r.version : Int) == v) && r.deleted == false)).head?
  | none =>
    match as_of with
    | some t =>
      latestRow (db.filter (fun r => r.key == key && r.created_at ≤ t && r.deleted == false))
    | none =>
      latestRow (db.filter (fun r => r.key == key && r.deleted == false))

/- The JSON `version` field of a GET payload: an integer, a string, or any
   other JSON value (null / list / object). -/
inductive VersionField where
  | vint (n : Int)
  | vstr (s : String)
  | vother
deriving DecidableEq, Repr

/- A parsed KB request body; fields are Options because the handlers apply
   p.get(...) defaults themselves. -/
structure KBPayload where
  conversation_id : Option String := none
  mtype : Option String := none
  key : Option String := none
  content_type : Option String := none
  value : JVal := .null
  tags : Option (List String) := none
  if_match : Option String := none
  version : Option VersionField := none
  as_of : Option Nat := none
  prefer : Option String := none

inductive KBReply where
  | informStored (key : String) (version : Nat) (etag : String)
  | informValue (key : String) (version : Nat) (etag : String) (value : JVal)
  | refuse (code reason : String)
  | failure (code reason : String)

/- KBCycle._handle_store (reply part; reasons are abbreviated constants). -/
def handleStore (p : KBPayload) (db : List KBItem) (allowedBare : String)
    (freshEtag : String) (now : Nat) : KBReply × List KBItem :=
  let key := p.key.getD ""
  if !keyValid key then
    (.failure "FAILURE.INVALID_KEY" "Key must have 5 segments and allowed chars", db)
  else
    match KBStorage.store db key (p.content_type.getD "application/json") p.value
        (p.tags.getD []) (sessionIdOf key) allowedBare p.if_match freshEtag now with
    | .stored v e db' => (.informStored key v e, db')
    | .conflict r => (.failure "FAILURE.CONFLICT" r, db)

/- vnum computation from KBCycle._handle_get:
   isinstance(version, int) / isinstance(version, str) and version.isdigit(). -/
def vnumOf (v : Option VersionField) : Option Int :=
  match v with
  | some (.vint n) => some n
  | some (.vstr s) => if pyIsDigit s then some (digitsToNat s.data) else none
  | some .vother => none
  | none => none

/- KBCycle._handle_get. -/
def handleGet (p : KBPayload) (db : List KBItem) : KBReply :=
  let key := p.key.getD ""
  if !keyValid key then
    .failure "FAILURE.INVALID_KEY" "Key must have 5 segments and allowed chars"
  else
    match KBStorage.get db key p.prefer (vnumOf p.version) p.as_of with
    | some row => .informValue key row.version row.etag row.value
    | none => .failure "FAILURE.NOT_FOUND" "No value for key"

/- An inbound message body: either not valid JSON, or a parsed payload. -/
inductive KBMsgBody where
  | invalid
  | parsed (p : KBPayload)

/- KBCycle.run: JSON parse first, then the Coordinator whitelist, then the
   STORE / GET dispatch.  `allowedBare` is the agent's whitelisted bare JID
   (already lowercased by KBAgent.__init__). -/
def kbRun (allowedBare : String) (sender : String) (body : KBMsgBody)
    (db : List KBItem) (freshEtag : String) (now : Nat) : KBReply × List KBItem :=
  match body with
  | .invalid => (.failure "FAILURE.INVALID_JSON" "Body is not valid JSON", db)
  | .parsed p =>
    let senderBare := lowerStr (bareJid sender)
    if senderBare ≠ allowedBare then
      (.refuse "REFUSE.UNAUTHORIZED" ("Only " ++ allowedBare), db)
    else
      match p.mtype with
      | some "STORE" => handleStore p db allowedBare freshEtag now
      | some "GET" => (handleGet p db, db)
      | t => (.refuse "REFUSE.UNSUPPORTED_TYPE" (t.getD "None"), db)

/- ===== Association-list helpers (Python dict, insertion-ordered) ===== -/

def alLookup {β : Type} : List (String × β) → String → Option β
  | [], _ => none
  | (k', v) :: rest, k => if k' = k then some v else alLookup rest k

/- dict[k] = v : update in place, append at the end when the key is new. -/
def alInsert {β : Type} : List (String × β) → String → β → List (String × β)
  | [], k, v => [(k, v)]
  | (k', v') :: rest, k, v =>
    if k' = k then (k, v) :: rest else (k', v') :: alInsert rest k v

/- dict.pop(k, None). -/
def alErase {β : Type} : List (String × β) → String → List (String × β)
  | [], _ => []
  | (k', v') :: rest, k => if k' = k then rest else (k', v') :: alErase rest k

/- ===== Correlation book (firststage/protocol/correlation.py) ===== -/

/- Performatives treated as acks. -/
def ACK_PFS : Finset String := {"AGREE"}

structure Expectation where
  allow_from : Finset String
  allow_pf : Finset String
  expires_at : Nat
  note : String
  consume_on : Option (Finset String) := none
deriving DecidableEq

abbrev CorrBook : Type := List (String × List (String × Expectation))

/- CorrBook.register: install an expectation for (conv_id, reply_with).
   Default policy: allow_pf ⊇ AGREE, INFORM implies consume_on = INFORM. -/
def CorrBook.register (book : CorrBook) (conv_id reply_with : String)
    (allow_from : List String) (allow_pf : List String) (ttl : Nat)
    (note : String) (now : Nat) : CorrBook :=
  let pf_set : Finset String := (allow_pf.map upperStr).toFinset
  let consume_on : Option (Finset String) :=
    if "AGREE" ∈ pf_set ∧ "INFORM" ∈ pf_set then some {"INFORM"} else none
  let exp : Expectation :=
    { allow_from := allow_from.toFinset, allow_pf := pf_set,
      expires_at := now + ttl, note := note, consume_on := consume_on }
  let bucket := (alLookup book conv_id).getD []
  alInsert book conv_id (alInsert bucket reply_with exp)

/- Store `bucket` back under `conv_id`, dropping it when empty (cleanup). -/
def CorrBook.putBucket (book : CorrBook) (conv_id : String)
    (bucket : List (String × Expectation)) : CorrBook :=
  if bucket.isEmpty then alErase book conv_id else alInsert book conv_id bucket

/- CorrBook.match_and_pop; `now` is the clock at the call.  Python truthiness:
   a missing or empty in_reply_to is the loose initial-frame mode, and an
   empty bucket behaves like a missing one. -/
def CorrBook.matchAndPop (book : CorrBook) (conv_id : String)
    (in_reply_to : Option String) (from_bare : Option String)
    (performative : Option String) (now : Nat) : Bool × CorrBook :=
  if in_reply_to = none ∨ in_reply_to = some "" then (true, book)
  else
    let irt := in_reply_to.getD ""
    match alLookup book conv_id with
    | none => (false, book)
    | some bucket =>
      if bucket.isEmpty then (false, book)
      else
        match alLookup bucket irt with
        | none => (false, book)
        | some exp =>
          if exp.expires_at < now then
            (false, CorrBook.putBucket book conv_id (alErase bucket irt))
          else if exp.allow_from ≠ ∅ ∧
              (from_bare = none ∨ from_bare = some "" ∨
                ¬ from_bare.getD "" ∈ exp.allow_from) then
            (false, book)
          else
            let pf := upperStr (performative.getD "")
            if exp.allow_pf ≠ ∅ ∧ pf ∉ exp.allow_pf then (false, book)
            else
              let should_consume : Bool :=
                match exp.consume_on with
                | some s => pf ∈ s
                | none => ¬ (1 < exp.allow_pf.card ∧ pf ∈ ACK_PFS)
              if should_consume then
                (true, CorrBook.putBucket book conv_id (alErase bucket irt))
              else (true, book)

/- Looking an expectation up across the two levels of the book. -/
def CorrBook.lookupExp (book : CorrBook) (conv_id reply_with : String) :
    Option Expectation :=
  (alLookup book conv_id).bind (fun bucket => alLookup bucket reply_with)

/- ===== Coordinator: candidates, fallback, retry (firststage/agent/coordinator.py) ===== -/

def NEED_CAP : String := "ASK_EXPERT"

structure Candidate where
  jid : String
  name : String
  description : String
  capabilities : List String
  skills : List String
  status : String
deriving DecidableEq, Repr

/- A raw DF reply item: a bare jid string, a profile dict, or anything else. -/
inductive RawCandidate where
  | jstr (s : String)
  | jdict (jid name description : Option String)
      (capabilities skills : Option (List String)) (status : Option String)
  | other

/- ServeConversation._normalize_candidates: one item. -/
def normalizeCandidate : RawCandidate → Option Candidate
  | .jstr s =>
    some { jid := s, name := s, description := "",
           capabilities := [NEED_CAP], skills := [], status := "online" }
  | .jdict jid name description capabilities skills status =>
    some { jid := jid.getD "", name := name.getD (jid.getD ""),
           description := description.getD "",
           capabilities := capabilities.getD [], skills := skills.getD [],
           status := status.getD "online" }
  | .other => none

/- ServeConversation._normalize_candidates: skip non-str/dict items, then
   drop entries whose jid is falsy. -/
def normalizeCandidates (raw : List RawCandidate) : List Candidate :=
  (raw.filterMap normalizeCandidate).filter (fun c => c.jid ≠ "")

/- Statuses the fallback treats as available. -/
def statusOkStrings : List String := ["online", "available", "ready"]

/- The deterministic fallback of ServeConversation.run (step 2), used when
   the Selector yields no valid choice; Python sorted(...) is embedded as a
   stable insertion sort.  sorted(...)[0] on an empty list would raise, hence
   the Option result. -/
def fallbackSelect (candidates : List Candidate) : Option String :=
  let avail := candidates.filter (fun c => lowerStr c.status ∈ statusOkStrings)
  let with_cap := avail.filter (fun c => NEED_CAP ∈ c.capabilities)
  let prefer :=
    if !with_cap.isEmpty then with_cap
    else if !avail.isEmpty then avail else candidates
  (List.insertionSort strLe (prefer.map (fun c => c.jid))).head?

/- ordered_try = [selected] + [c.jid for c in candidates if c.jid != selected]. -/
def orderedTry (selected : String) (candidates : List Candidate) : List String :=
  selected :: (candidates.filter (fun c => c.jid ≠ selected)).map (fun c => c.jid)

/- Python truthiness of an Optional[str] answer. -/
def truthyAnswer (a : Option String) : Option String :=
  match a with
  | some s => if s = "" then none else some s
  | none => none

/- The retry loop of ServeConversation.run (step 3): attempts are counted
   globally; a truthy answer breaks; reaching MAX_RETRIES breaks.  Returns
   the final truthy answer (if any) and the number of attempts made. -/
def retryLoop (ask : String → Option String) (maxRetries : Nat) :
    List String → Nat → Option String × Nat
  | [], attempts => (none, attempts)
  | j :: rest, attempts =>
    let attempts' := attempts + 1
    match truthyAnswer (ask j) with
    | some a => (some a, attempts')
    | none =>
      if maxRetries ≤ attempts' then (none, attempts')
      else retryLoop ask maxRetries rest attempts'

/- Step 4 of ServeConversation.run: the text sent to the Presenter. -/
def presenterText (answer : Option String) : String :=
  match answer with
  | some a => a
  | none => "Specjalista nie odpowiedział w czasie. Spróbuj ponownie."

/- Specification-side helper: first truthy answer along a try list. -/
def firstTruthy (ask : String → Option String) : List String → Option String
  | [] => none
  | j :: rest =>
    match truthyAnswer (ask j) with
    | some a => some a
    | none => firstTruthy ask rest

/- Specification-side helper (from the claim's wording): the preferred tier
   of the fallback cascade. -/
def claimTier (candidates : List Candidate) : List Candidate :=
  let good := candidates.filter
    (fun c => lowerStr c.status ∈ statusOkStrings ∧ NEED_CAP ∈ c.capabilities)
  if !good.isEmpty then good
  else
    let avail := candidates.filter (fun c => lowerStr c.status ∈ statusOkStrings)
    if !avail.isEmpty then avail else candidates

/- ===== Coordinator dispatcher (CoordinatorAgent.Dispatcher.run) ===== -/

/- Substring occurrence test (Python `tag in conv`). -/
def isInfixB (p : List Char) : List Char → Bool
  | [] => p.isEmpty
  | c :: rest => p.isPrefixOf (c :: rest) || isInfixB p rest

def hasKbTag (conv : String) : Bool :=
  isInfixB "-kbget-".data conv.data || isInfixB "-kbput-".data conv.data ||
    isInfixB "-kbframe".data conv.data

/- The fields the dispatcher reads from a parsed frame. -/
structure DispFrame where
  performative : Option String := none
  ctype : Option String := none
  conv : Option String := none
deriving DecidableEq, Repr

inductive DispOut where
  | droppedNonJson
  | kbRouted (conv : String)
  | kbDropped (conv : String)
  | spawned (conv : String)
  | userMsgIgnored (conv : String)
  | droppedNoConv
  | enqueued (conv : String)
  | droppedUnknownConv (conv : String)
deriving DecidableEq, Repr

/- One step of Dispatcher.run on an inbound message.  `queues` is the key set
   of conv_queues; `freshConv` stands for the generated sess-<now_ms> id.
   The input is none when the body was not valid JSON.  The observable effect
   is returned alongside the updated queue-key set. -/
def dispatchStep (queues : List String) (frame : Option DispFrame)
    (freshConv : String) : List String × DispOut :=
  match frame with
  | none => (queues, .droppedNonJson)
  | some f =>
    let typ := upperStr (f.ctype.getD "")
    let conv := f.conv.getD ""
    if conv ≠ "" ∧ hasKbTag conv then
      if conv ∈ queues then (queues, .kbRouted conv) else (queues, .kbDropped conv)
    else if f.performative = some "REQUEST" ∧ typ = "USER_MSG" then
      let conv' := if conv = "" then freshConv else conv
      if conv' ∉ queues then (queues ++ [conv'], .spawned conv')
      else (queues, .userMsgIgnored conv')
    else if conv = "" then (queues, .droppedNoConv)
    else if conv ∈ queues then (queues, .enqueued conv)
    else (queues, .droppedUnknownConv conv)

/- ===== Directory Facilitator (firststage/agent/registry.py) ===== -/

/- A catalog record; a Python dict, so missing keys are modelled by the
   defaults used at their read sites (capabilities := [], last_seen := 0). -/
structure DFRecord where
  jid : String
  name : String := ""
  vers : String := ""
  description : String := ""
  capabilities : List String := []
  status : String := ""
  last_seen : Nat := 0
deriving DecidableEq, Repr

/- An incoming REGISTER profile (fields are present-or-absent dict keys;
   `jid` was already checked for presence by the REGISTER handler). -/
structure RegProfile where
  jid : String
  name : Option String := none
  vers : Option String := none
  description : Option String := none
  capabilities : Option (List String) := none
deriving DecidableEq, Repr

/- Fields of a HEARTBEAT content dict copied by _touch (besides jid/type). -/
structure HBExtra where
  status : Option String := none
  capabilities : Option (List String) := none
  name : Option String := none
deriving DecidableEq, Repr

structure DFState where
  catalog : List (String × DFRecord) := []
  cap2jids : List (String × List String) := []
deriving DecidableEq, Repr

/- sorted(set(old) ∪ incoming) from _upsert_profile. -/
def sortedUnion (old inc : List String) : List String :=
  List.insertionSort strLe ((old ++ inc).dedup)

/- The cap2jids cleanup loop of _upsert_profile: drop `jid` from lists whose
   capability is no longer held, and drop any entry whose list is empty. -/
def cleanCapIndex (idx : List (String × List String)) (jid : String)
    (caps : List String) : List (String × List String) :=
  idx.filterMap (fun e =>
    let l' := if jid ∈ e.2 ∧ e.1 ∉ caps then e.2.erase jid else e.2
    if l'.isEmpty then none else some (e.1, l'))

/- One step of the cap2jids refresh loop of _upsert_profile:
   setdefault(c, []) followed by a guarded append of the jid. -/
def addCapStep (acc : List (String × List String)) (jid c : String) :
    List (String × List String) :=
  match alLookup acc c with
  | some lst => if jid ∈ lst then acc else alInsert acc c (lst ++ [jid])
  | none => acc ++ [(c, [jid])]

/- The cap2jids refresh loop of _upsert_profile. -/
def addCapIndex (idx : List (String × List String)) (jid : String)
    (caps : List String) : List (String × List String) :=
  caps.foldl (fun acc c => addCapStep acc jid c) idx

/- RegistryAgent._upsert_profile. -/
def upsertRecord (st : DFState) (p : RegProfile) (now : Nat) : DFState :=
  let jid := p.jid
  let record0 := (alLookup st.catalog jid).getD
    { jid := jid, name := jid, vers := "0.0.0", description := "",
      capabilities := [], status := "", last_seen := 0 }
  let caps :=
    match p.capabilities with
    | some inc => sortedUnion record0.capabilities (inc)
    | none => record0.capabilities
  let record : DFRecord :=
    { jid := jid,
      name := p.name.getD record0.name,
      vers := p.vers.getD record0.vers,
      description := p.description.getD record0.description,
      capabilities := caps,
      status := "online",
      last_seen := now }
  { catalog := alInsert st.catalog jid record,
    cap2jids := addCapIndex (cleanCapIndex st.cap2jids jid caps) jid caps }

/- RegistryAgent._touch: setdefault the record, refresh last_seen/status, and
   copy every extra field except jid/type — including `capabilities`. -/
def touchRecord (st : DFState) (jid : String) (extra : HBExtra) (now : Nat) :
    DFState :=
  let p0 := (alLookup st.catalog jid).getD { jid := jid }
  let p : DFRecord :=
    { p0 with
      last_seen := now,
      status := extra.status.getD "online",
      name := extra.name.getD p0.name,
      capabilities := extra.capabilities.getD p0.capabilities }
  { st with catalog := alInsert st.catalog jid p }

/- The cap2jids loop of RegistryAgent._remove: entries lose `jid`, and an
   entry emptied by that removal is dropped. -/
def removeCapIndex (idx : List (String × List String)) (jid : String) :
    List (String × List String) :=
  idx.filterMap (fun e =>
    if jid ∈ e.2 then
      let l' := e.2.erase jid
      if l'.isEmpty then none else some (e.1, l')
    else some e)

/- RegistryAgent._remove. -/
def removeRecord (st : DFState) (jid : String) : DFState :=
  if (alLookup st.catalog jid).isSome then
    { catalog := alErase st.catalog jid,
      cap2jids := removeCapIndex st.cap2jids jid }
  else st

/- One iteration of the RegistryAgent._gc loop for a snapshot item `e`. -/
def gcBody (now hb ttlMult : Nat) (acc : DFState) (e : String × DFRecord) :
    DFState :=
  let ttl := hb * ttlMult
  let delta := now - e.2.last_seen
  if ttl < delta then removeRecord acc e.1
  else if hb * 2 < delta then
    { acc with catalog := alInsert acc.catalog e.1 { e.2 with status := "offline" } }
  else acc

/- RegistryAgent._gc over a snapshot of the catalog items. -/
def gcStep (st : DFState) (now hb ttlMult : Nat) : DFState :=
  st.catalog.foldl (gcBody now hb ttlMult) st

/- RegistryAgent._public_profile. -/
def publicProfile (st : DFState) (jid : String) : DFRecord :=
  (alLookup st.catalog jid).getD { jid := jid }

/- DFBehaviour.run: _alive_profiles (catalog iteration order). -/
def aliveProfiles (st : DFState) (now hb : Nat) : List DFRecord :=
  st.catalog.filterMap (fun e =>
    if now - e.2.last_seen ≤ hb * 2 then some (publicProfile st e.1) else none)

structure DFReply where
  candidates : List String
  profiles : List DFRecord
deriving DecidableEq, Repr

/- QUERY-REF type=LIST (also need in the empty/ALL/* forms). -/
def dfListReply (st : DFState) (now hb : Nat) : DFReply :=
  let profiles := aliveProfiles st now hb
  { candidates := profiles.map (fun p => p.jid), profiles := profiles }

/- QUERY-REF type=DUMP. -/
def dfDumpReply (st : DFState) : DFReply :=
  { candidates := st.catalog.map Prod.fst,
    profiles := st.catalog.map (fun e => publicProfile st e.1) }

/- QUERY-REF with need=<capability>: case-insensitive index match, then the
   liveness filter in index order. -/
def dfNeedBranch (st : DFState) (need : String) (now hb : Nat) : DFReply :=
  let jids := st.cap2jids.foldl
    (fun acc e => if upperStr e.1 = need then acc ++ e.2 else acc) []
  let alive := jids.filterMap (fun j =>
    match alLookup st.catalog j with
    | some p => if now - p.last_seen ≤ hb * 2 then some j else none
    | none => none)
  { candidates := alive, profiles := alive.map (fun j => publicProfile st j) }

/- The need-dispatch of DFBehaviour.run: need is stripped and uppercased;
   the empty / ALL / * forms return all live profiles. -/
def pyWs (c : Char) : Bool :=
  c = ' ' || c = '\t' || c = '\n' || c = '\r' || c = '\x0b' || c = '\x0c'

def pyStrip (l : List Char) : List Char :=
  ((l.dropWhile pyWs).reverse.dropWhile pyWs).reverse

def dfNeedReply (st : DFState) (needRaw : String) (now hb : Nat) : DFReply :=
  let need := upperStr (String.mk (pyStrip needRaw.data))
  if need = "" ∨ need = "ALL" ∨ need = "*" then dfListReply st now hb
  else dfNeedBranch st need now hb

/- The capability-index invariant of the claim: cap2jids maps each capability
   to exactly the jids whose catalog record holds it. -/
def capIndexConsistent (st : DFState) : Prop :=
  ∀ c jid, jid ∈ (alLookup st.cap2jids c).getD [] ↔
    ∃ rec, alLookup st.catalog jid = some rec ∧ c ∈ rec.capabilities

/- Structural well-formedness of the DF state (unique keys, duplicate-free
   index lists), maintained by all catalog operations. -/
def dfWellFormed (st : DFState) : Prop :=
  capIndexConsistent st ∧
    (∀ e ∈ st.cap2jids, e.2.Nodup) ∧
    (st.cap2jids.map Prod.fst).Nodup ∧
    (st.catalog.map Prod.fst).Nodup

/- ===== ACL envelope (firststage/protocol/acl_messages.py) ===== -/

/- Python str.replace(p, r): replace all non-overlapping occurrences, left to
   right.  Defined with a fuel argument (the input length) so that it is
   structurally recursive; the nonempty-pattern guard makes the (unused)
   empty-pattern case the identity. -/
def replaceAllGo (p r : List Char) : Nat → List Char → List Char
  | _, [] => []
  | 0, t => t
  | n + 1, c :: rest =>
    if !p.isEmpty && p.isPrefixOf (c :: rest) then
      r ++ replaceAllGo p r n (rest.drop (p.length - 1))
    else c :: replaceAllGo p r n rest

def replaceAll (p r t : List Char) : List Char := replaceAllGo p r t.length t

/- re.sub(r"[ _]+", "-", s): each maximal run of spaces/underscores becomes
   a single hyphen (flag = inside a run). -/
def spaceOrUnderscore (c : Char) : Bool := c = ' ' || c = '_'

def subSpacesAux : Bool → List Char → List Char
  | _, [] => []
  | prev, c :: rest =>
    if spaceOrUnderscore c then
      if prev then subSpacesAux true rest else '-' :: subSpacesAux true rest
    else c :: subSpacesAux false rest

def subSpaces (l : List Char) : List Char := subSpacesAux false l

/- re.sub(r"-\x7b2,\x7d", "-", s): hyphen runs collapse to a single hyphen
   (a run of one is returned unchanged, so collapsing every run is the same
   function). -/
def collapseAux : Bool → List Char → List Char
  | _, [] => []
  | prev, c :: rest =>
    if c = '-' then
      if prev then collapseAux true rest else '-' :: collapseAux true rest
    else c :: collapseAux false rest

def collapseHy (l : List Char) : List Char := collapseAux false l

/- The kebab-repair table, applied in source order. -/
def replaceChain : List (String × String) :=
  [("ACCEPTPROPOSAL", "ACCEPT-PROPOSAL"),
   ("REJECTPROPOSAL", "REJECT-PROPOSAL"),
   ("INFORMIF", "INFORM-IF"),
   ("INFORMREF", "INFORM-REF"),
   ("QUERYIF", "QUERY-IF"),
   ("QUERYREF", "QUERY-REF"),
   ("REQUESTWHEN", "REQUEST-WHEN"),
   ("REQUESTWHENEVER", "REQUEST-WHENEVER")]

def applyChain (l : List Char) : List Char :=
  replaceChain.foldl (fun t pr => replaceAll pr.1.data pr.2.data t) l

/- normalize_performative: strip, collapse space/underscore runs to "-",
   uppercase, repair the kebab forms, collapse hyphen runs.  A falsy input
   (None or "") returns "". -/
def normalizeChars (l : List Char) : List Char :=
  collapseHy (applyChain ((subSpaces (pyStrip l)).map charUpper))

def normalizePerformative (s : String) : String :=
  if s = "" then "" else String.mk (normalizeChars s.data)

def VALID_PERFORMATIVES : List String :=
  ["ACCEPT-PROPOSAL", "AGREE", "CANCEL", "CFP", "CONFIRM", "DISCONFIRM",
   "FAILURE", "INFORM", "INFORM-IF", "INFORM-REF", "NOT-UNDERSTOOD",
   "PROPOSE", "QUERY-IF", "QUERY-REF", "REFUSE", "REJECT-PROPOSAL",
   "REQUEST", "REQUEST-WHEN", "REQUEST-WHENEVER", "SUBSCRIBE"]

def defaultProtocolFor (pf : String) : String :=
  if "QUERY-".data.isPrefixOf pf.data then "fipa-query"
  else if pf = "SUBSCRIBE" then "fipa-subscribe"
  else if pf = "CFP" ∨ pf = "PROPOSE" ∨ pf = "ACCEPT-PROPOSAL" ∨
      pf = "REJECT-PROPOSAL" then "fipa-contract-net"
  else "fipa-request"

structure AclMessage where
  performative : String
  sender : String
  receiver : String
  ontology : String
  protocol : String
  language : String
  timestamp : String
  conversation_id : Option String
  reply_with : Option String
  in_reply_to : Option String
  content : List (String × JVal)

/- The pydantic constructor: the performative validator normalizes and
   rejects unknown performatives; _ensure_protocol fills a blank protocol
   from the default table. -/
def mkAclMessage (performative sender receiver ontology protocol language
    timestamp : String) (conversation_id reply_with in_reply_to : Option String)
    (content : List (String × JVal)) : Option AclMessage :=
  let pf := normalizePerformative performative
  if pf ∈ VALID_PERFORMATIVES then
    some
      { performative := pf, sender := sender, receiver := receiver,
        ontology := ontology,
        protocol := if pyStrip protocol.data = [] then defaultProtocolFor pf else protocol,
        language := language, timestamp := timestamp,
        conversation_id := conversation_id, reply_with := reply_with,
        in_reply_to := in_reply_to, content := content }
  else none

def optStrJ : Option String → JVal
  | none => .null
  | some s => .str s

/- AclMessage.dumps: json.dumps(model_dump()). -/
def AclMessage.dumps (m : AclMessage) : JVal :=
  .obj
    [("performative", .str m.performative), ("sender", .str m.sender),
     ("receiver", .str m.receiver), ("ontology", .str m.ontology),
     ("protocol", .str m.protocol), ("language", .str m.language),
     ("timestamp", .str m.timestamp),
     ("conversation_id", optStrJ m.conversation_id),
     ("reply_with", optStrJ m.reply_with),
     ("in_reply_to", optStrJ m.in_reply_to),
     ("content", .obj m.content)]

def getField (fields : List (String × JVal)) (k : String) : Option JVal :=
  (fields.find? (fun e => e.1 == k)).map Prod.snd

def jStr? : JVal → Option String
  | .str s => some s
  | _ => none

def jObj? : JVal → Option (List (String × JVal))
  | .obj l => some l
  | _ => none

/- A required str field (missing or wrongly typed fails validation). -/
def reqStrField (fields : List (String × JVal)) (k : String) : Option String :=
  (getField fields k).bind jStr?

/- A str field with a pydantic default. -/
def defStrField (fields : List (String × JVal)) (k d : String) : Option String :=
  match getField fields k with
  | none => some d
  | some (.str s) => some s
  | some _ => none

/- An Optional[str] field (absent or null read as None). -/
def optStrField (fields : List (String × JVal)) (k : String) :
    Option (Option String) :=
  match getField fields k with
  | none => some none
  | some .null => some none
  | some (.str s) => some (some s)
  | some _ => none

/- AclMessage.loads(body) = AclMessage(**json.loads(body)): field extraction
   with pydantic defaults, then the validating constructor.  `nowTs` stands
   for the now_iso() default_factory of `timestamp`. -/
def AclMessage.loads (j : JVal) (nowTs : String) : Option AclMessage :=
  match j with
  | .obj fields =>
    match reqStrField fields "performative", reqStrField fields "sender",
        reqStrField fields "receiver", (getField fields "content").bind jObj? with
    | some pf, some sd, some rc, some ct =>
      match optStrField fields "conversation_id", optStrField fields "reply_with",
          optStrField fields "in_reply_to" with
      | some cid, some rw, some irt =>
        match defStrField fields "ontology" "MAS.Core",
            defStrField fields "protocol" "fipa-request",
            defStrField fields "language" "application/json",
            defStrField fields "timestamp" nowTs with
        | some ont, some prot, some lang, some ts =>
          mkAclMessage pf sd rc ont prot lang ts cid rw irt ct
        | _, _, _, _ => none
      | _, _, _ => none
    | _, _, _, _ => none
  | _ => none

/- make_acl from acl_messages.py: normalize first, then construct with the
   or-defaults (Python `or` treats "" like None). -/
def makeAcl (performative sender receiver : String)
    (content : List (String × JVal))
    (conversation_id reply_with in_reply_to : Option String)
    (protocol ontology language : Option String) (nowTs : String) :
    Option AclMessage :=
  let pfn := normalizePerformative performative
  let orD (o : Option String) (d : String) : String :=
    match o with
    | some s => if s = "" then d else s
    | none => d
  mkAclMessage pfn sender receiver (orD ontology "MAS.Core")
    (orD protocol (defaultProtocolFor pfn)) (orD language "application/json")
    nowTs conversation_id reply_with in_reply_to content

/- ===== Reply discriminators and concrete instances used in the claims ===== -/

def KBReply.isConflict : KBReply → Bool
  | .failure code _ => code == "FAILURE.CONFLICT"
  | _ => false

def KBReply.isUnauthorized : KBReply → Bool
  | .refuse code _ => code == "REFUSE.UNAUTHORIZED"
  | _ => false

/- A key with two stored versions and distinct etags. -/
def exKey : String := "session:s1:chat:frame:x"

def exRow (v : Nat) (e : String) : KBItem :=
  { key := exKey, version := v, etag := e,
    content_type := "application/json", value := .null, tags := [],
    session_id := some "s1", created_at := v,
    created_by := "coordinator@xmpp.pawelhaladyj.pl", deleted := false }

def exDb : List KBItem := [exRow 1 "etag-a", exRow 2 "etag-b"]

/- A STORE carrying the etag of version 1 (strictly below the latest). -/
def exStalePayload : KBPayload :=
  { mtype := some "STORE", key := some exKey, if_match := some "etag-a" }

/- A STORE carrying a token that matches no stored etag. -/
def exNoMatchPayload : KBPayload :=
  { mtype := some "STORE", key := some exKey, if_match := some "nope" }

/- A GET whose version field is the non-numeric string "v3". -/
def exBadVersionGet : KBPayload :=
  { mtype := some "GET", key := some exKey, version := some (.vstr "v3") }

/- A USER_MSG whose conversation id contains a KB sub-tag. -/
def exKbTagFrame : DispFrame :=
  { performative := some "REQUEST", ctype := some "USER_MSG",
    conv := some "sess-1-kbget-22" }

/- A plain USER_MSG on an existing conversation. -/
def exUserFrame : DispFrame :=
  { performative := some "REQUEST", ctype := some "USER_MSG",
    conv := some "sess-7" }

/- The claim's consumption condition for a matched expectation. -/
def consumeCond (exp : Expectation) (pf : String) : Prop :=
  (∃ s, exp.consume_on = some s ∧ pf ∈ s) ∨
    (exp.consume_on = none ∧ ¬ (1 < exp.allow_pf.card ∧ pf = "AGREE"))

/- A two-phase expectation book: allow AGREE and INFORM on (c1, r1). -/
def exBook : CorrBook :=
  CorrBook.register ([] : CorrBook) "c1" "r1" [] ["agree", "inform"] 30 "" 0

def exExp : Expectation :=
  { allow_from := ∅, allow_pf := {"AGREE", "INFORM"}, expires_at := 30,
    note := "", consume_on := some {"INFORM"} }

/- Concrete candidates and a concrete specialist oracle. -/
def exCandA : Candidate :=
  { jid := "b@x", name := "b", description := "",
    capabilities := ["ASK_EXPERT"], skills := [], status := "Ready" }

def exCandB : Candidate :=
  { jid := "a@x", name := "a", description := "", capabilities := [],
    skills := [], status := "online" }

def exAsk : String → Option String
  | "a@x" => none
  | "b@x" => some "ok"
  | _ => some ""

/- A DF catalog registered in non-alphabetical order. -/
def exDF : DFState :=
  upsertRecord
    (upsertRecord {} { jid := "b@x", capabilities := some ["ASK_EXPERT"] } 0)
    { jid := "a@x", capabilities := some ["ASK_EXPERT"] } 0

/- ======================================================================= -/
/- =====                         THEOREMS                            ===== -/
/- ======================================================================= -/

/- ----- Lexicographic-order lemmas ----- -/

theorem lexLe_refl (l : List Char) : lexLe l l = true := by
  induction l with
  | nil => rfl
  | cons c rest ih => simp [lexLe, ih]

theorem lexLe_total (a : List Char) : ∀ b, lexLe a b = true ∨ lexLe b a = true := by
  induction a with
  | nil => intro b; left; rfl
  | cons x xs ih =>
    intro b
    cases b with
    | nil => right; rfl
    | cons y ys =>
      by_cases hxy : x = y
      · subst hxy
        simpa [lexLe] using ih ys
      · rcases lt_or_gt_of_ne hxy with hlt | hgt
        · left; simp [lexLe, hxy, hlt]
        · right
          have hyx : ¬ y = x := fun h => hxy h.symm
          simp [lexLe, hyx, hgt]

theorem lexLe_trans (a : List Char) :
    ∀ b c, lexLe a b = true → lexLe b c = true → lexLe a c = true := by
  induction a with
  | nil => intro b c _ _; rfl
  | cons x xs ih =>
    intro b c hab hbc
    cases b with
    | nil => simp [lexLe] at hab
    | cons y ys =>
      cases c with
      | nil => simp [lexLe] at hbc
      | cons z zs =>
        by_cases hxy : x = y <;> by_cases hyz : y = z
        · subst hxy; subst hyz
          simp only [lexLe, if_pos rfl] at hab hbc ⊢
          exact ih ys zs hab hbc
        · subst hxy
          simp only [lexLe, if_pos rfl, if_neg hyz] at hbc ⊢
          exact hbc
        · subst hyz
          simp only [lexLe, if_pos rfl, if_neg hxy] at hab ⊢
          exact hab
        · simp only [lexLe, if_neg hxy, if_neg hyz, decide_eq_true_eq] at hab hbc
          have hxz : x < z := lt_trans hab hbc
          simp [lexLe, ne_of_lt hxz, hxz]

theorem strLe_refl (a : String) : strLe a a := lexLe_refl a.data

instance : IsTotal String strLe := ⟨fun a b => lexLe_total a.data b.data⟩

instance : IsTrans String strLe :=
  ⟨fun a b c hab hbc => lexLe_trans a.data b.data c.data hab hbc⟩

/- The head of the sorted jid list is a member and a lower bound. -/
theorem insertionSort_head_min (l : List String) (j : String)
    (hh : (List.insertionSort strLe l).head? = some j) :
    j ∈ l ∧ ∀ x ∈ l, strLe j x := by
  obtain ⟨rest, hrest⟩ : ∃ rest, List.insertionSort strLe l = j :: rest := by
    cases hs : List.insertionSort strLe l with
    | nil => rw [hs] at hh; cases hh
    | cons a t =>
      rw [hs] at hh
      cases hh
      exact ⟨t, rfl⟩
  have hperm := List.perm_insertionSort strLe l
  have hsorted := List.sorted_insertionSort strLe l
  constructor
  · exact hperm.mem_iff.mp (by rw [hrest]; exact List.mem_cons_self _ _)
  · intro x hx
    have hx' : x ∈ List.insertionSort strLe l := hperm.mem_iff.mpr hx
    rw [hrest] at hx' hsorted
    rcases List.mem_cons.mp hx' with h | h
    · subst h; exact strLe_refl x
    · exact List.rel_of_sorted_cons hsorted x h

/- ----- Association-list lemmas ----- -/

theorem alLookup_insert_self {β : Type} (l : List (String × β)) (k : String)
    (v : β) : alLookup (alInsert l k v) k = some v := by
  induction l with
  | nil => simp [alInsert, alLookup]
  | cons e rest ih =>
    obtain ⟨k', v'⟩ := e
    by_cases h : k' = k
    · simp [alInsert, h, alLookup]
    · simp [alInsert, h, alLookup, ih]

theorem alLookup_eq_none {β : Type} {l : List (String × β)} {k : String}
    (h : k ∉ l.map Prod.fst) : alLookup l k = none := by
  induction l with
  | nil => rfl
  | cons e rest ih =>
    obtain ⟨k', v'⟩ := e
    simp only [List.map_cons, List.mem_cons, not_or] at h
    simp only [alLookup]
    rw [if_neg (fun hk => h.1 hk.symm)]
    exact ih h.2

theorem alLookup_erase_self {β : Type} {l : List (String × β)} {k : String}
    (h : (l.map Prod.fst).Nodup) : alLookup (alErase l k) k = none := by
  induction l with
  | nil => rfl
  | cons e rest ih =>
    obtain ⟨k', v'⟩ := e
    simp only [List.map_cons, List.nodup_cons] at h
    by_cases hk : k' = k
    · subst hk
      simpa [alErase] using alLookup_eq_none h.1
    · simp [alErase, hk, alLookup, ih h.2]

theorem alLookup_isEmpty_false {β : Type} {l : List (String × β)} {k : String}
    {v : β} (h : alLookup l k = some v) : l.isEmpty = false := by
  cases l with
  | nil => simp [alLookup] at h
  | cons e rest => rfl

theorem alLookup_insert {β : Type} (l : List (String × β)) (k : String) (v : β)
    (k' : String) :
    alLookup (alInsert l k v) k' = if k = k' then some v else alLookup l k' := by
  induction l with
  | nil => simp [alInsert, alLookup]
  | cons e rest ih =>
    obtain ⟨k0, v0⟩ := e
    by_cases h0 : k0 = k
    · subst h0
      by_cases h1 : k0 = k'
      · simp [alInsert, alLookup, h1]
      · simp [alInsert, alLookup, h1]
    · by_cases h1 : k0 = k'
      · subst h1
        have hkk : ¬ k = k0 := fun h => h0 h.symm
        simp [alInsert, alLookup, h0, hkk]
      · simp [alInsert, alLookup, h0, h1, ih]

theorem alLookup_isSome_of_mem {β : Type} {l : List (String × β)} {k : String}
    (h : k ∈ l.map Prod.fst) : ∃ v, alLookup l k = some v := by
  induction l with
  | nil => simp at h
  | cons e rest ih =>
    obtain ⟨k0, v0⟩ := e
    by_cases h0 : k0 = k
    · exact ⟨v0, by simp [alLookup, h0]⟩
    · simp only [List.map_cons, List.mem_cons] at h
      rcases h with h | h

      · exact absurd h.symm h0
      · simpa [alLookup, h0] using ih h

theorem alInsert_keys {β : Type} (l : List (String × β)) (k : String) (v : β) :
    (alInsert l k v).map Prod.fst =
      if k ∈ l.map Prod.fst then l.map Prod.fst else l.map Prod.fst ++ [k] := by
  induction l with
  | nil => simp [alInsert]
  | cons e rest ih =>
    obtain ⟨k0, v0⟩ := e
    by_cases h0 : k0 = k
    · subst h0
      simp [alInsert]
    · simp only [alInsert, if_neg h0, List.map_cons, ih, List.mem_cons]
      have hkk : ¬ k = k0 := fun h => h0 h.symm
      by_cases hm : k ∈ rest.map Prod.fst
      · simp [hm, hkk]
      · simp [hm, hkk]

theorem alInsert_keys_nodup {β : Type} {l : List (String × β)} {k : String}
    {v : β} (h : (l.map Prod.fst).Nodup) :
    ((alInsert l k v).map Prod.fst).Nodup := by
  rw [alInsert_keys]
  by_cases hm : k ∈ l.map Prod.fst
  · simpa [hm] using h
  · simp only [hm, if_false]
    exact List.nodup_append.mpr ⟨h, List.nodup_singleton k,
      fun x hx hx' => by simp at hx'; subst hx'; exact hm hx⟩

theorem alErase_keys_sublist {β : Type} (l : List (String × β)) (k : String) :
    ((alErase l k).map Prod.fst).Sublist (l.map Prod.fst) := by
  induction l with
  | nil => simp [alErase]
  | cons e rest ih =>
    obtain ⟨k0, v0⟩ := e
    by_cases h0 : k0 = k
    · simp only [alErase, if_pos h0, List.map_cons]
      exact (List.sublist_cons_self _ _)
    · simp only [alErase, if_neg h0, List.map_cons]
      exact ih.cons₂ _

theorem alLookup_erase_ne {β : Type} (l : List (String × β)) (k k' : String)
    (hne : k ≠ k') : alLookup (alErase l k) k' = alLookup l k' := by
  induction l with
  | nil => rfl
  | cons e rest ih =>
    obtain ⟨k0, v0⟩ := e
    by_cases h0 : k0 = k
    · subst h0
      simp [alErase, alLookup, hne]
    · simp only [alErase, if_neg h0, alLookup, ih]

/- The fallback cascade of the code equals the claim's tier cascade. -/
theorem fallbackSelect_eq (cands : List Candidate) :
    fallbackSelect cands =
      (List.insertionSort strLe ((claimTier cands).map (fun c => c.jid))).head? := by
  have hfc : ((cands.filter (fun c => lowerStr c.status ∈ statusOkStrings)).filter
      (fun c => NEED_CAP ∈ c.capabilities)) =
      cands.filter
        (fun c => lowerStr c.status ∈ statusOkStrings ∧ NEED_CAP ∈ c.capabilities) := by
    rw [List.filter_filter]
    apply List.filter_congr
    intro a _
    by_cases h1 : lowerStr a.status ∈ statusOkStrings <;>
      by_cases h2 : NEED_CAP ∈ a.capabilities <;> simp [h1, h2]
  simp only [fallbackSelect, claimTier, hfc]

/- ----- C5: deterministic fallback selection ----- -/

/-- C5: on a nonempty normalized candidate list, the fallback chooses the
lexicographically smallest jid of the preferred tier — candidates with an
available status and ASK_EXPERT, else candidates with an available status,
else all candidates; being a pure function of the list, repeated invocation
returns the same jid. -/
theorem C5_theorem (candidates : List Candidate) (h : candidates ≠ []) :
    ∃ j, fallbackSelect candidates = some j ∧
      j ∈ (claimTier candidates).map (fun c => c.jid) ∧
      ∀ x ∈ (claimTier candidates).map (fun c => c.jid), strLe j x := by
  have htier : claimTier candidates ≠ [] := by
    simp only [claimTier]
    split_ifs with h1 h2
    · exact List.isEmpty_eq_false.mp (by simpa using h1)
    · exact List.isEmpty_eq_false.mp (by simpa using h2)
    · exact h
  have hmap : (claimTier candidates).map (fun c => c.jid) ≠ [] := by
    simpa [List.map_eq_nil_iff] using htier
  obtain ⟨j, rest, hj⟩ : ∃ j rest,
      List.insertionSort strLe ((claimTier candidates).map (fun c => c.jid)) =
        j :: rest := by
    cases hs : List.insertionSort strLe ((claimTier candidates).map (fun c => c.jid)) with
    | nil =>
      exfalso
      have hp := List.perm_insertionSort strLe
        ((claimTier candidates).map (fun c => c.jid))
      rw [hs] at hp
      exact hmap (List.length_eq_zero.mp (hp.length_eq.symm))
    | cons a t => exact ⟨a, t, rfl⟩
  refine ⟨j, ?_, ?_⟩
  · rw [fallbackSelect_eq, hj]
    rfl
  · exact insertionSort_head_min _ j (by rw [hj]; rfl)

/-- C5 witness: on the concrete pair (a ready ASK_EXPERT candidate "b@x" and
a capability-less "a@x"), the fallback picks "b@x", the smallest jid of the
capability tier. -/
theorem C5_witness :
    ([exCandA, exCandB] : List Candidate) ≠ [] ∧
    ∃ j, fallbackSelect [exCandA, exCandB] = some j ∧
      j ∈ (claimTier [exCandA, exCandB]).map (fun c => c.jid) ∧
      ∀ x ∈ (claimTier [exCandA, exCandB]).map (fun c => c.jid), strLe j x :=
  ⟨by decide, C5_theorem [exCandA, exCandB] (by decide)⟩

/- ----- C6: global retry budget ----- -/

theorem retryLoop_fst (ask : String → Option String) (R : Nat) :
    ∀ (jids : List String) (attempts : Nat), attempts < R →
      (retryLoop ask R jids attempts).1 =
        firstTruthy ask (jids.take (R - attempts)) := by
  intro jids
  induction jids with
  | nil => intro attempts _; simp [retryLoop, firstTruthy]
  | cons j rest ih =>
    intro attempts hlt
    simp only [retryLoop]
    cases hta : truthyAnswer (ask j) with
    | some a =>
      rw [show R - attempts = (R - attempts - 1) + 1 by omega, List.take_succ_cons]
      simp [firstTruthy, hta]
    | none =>
      by_cases hstop : R ≤ attempts + 1
      · rw [show R - attempts = 1 by omega]
        simp [firstTruthy, hta, hstop]
      · rw [if_neg hstop]
        have h1 : attempts + 1 < R := by omega
        rw [show R - attempts = (R - (attempts + 1)) + 1 by omega, List.take_succ_cons]
        simp only [firstTruthy, hta]
        exact ih (attempts + 1) h1

theorem retryLoop_snd (ask : String → Option String) (R : Nat) :
    ∀ (jids : List String) (attempts : Nat), attempts < R →
      (retryLoop ask R jids attempts).2 ≤ R := by
  intro jids
  induction jids with
  | nil => intro attempts hlt; simpa [retryLoop] using Nat.le_of_lt hlt
  | cons j rest ih =>
    intro attempts hlt
    simp only [retryLoop]
    cases hta : truthyAnswer (ask j) with
    | some a => simpa using hlt
    | none =>
      by_cases hstop : R ≤ attempts + 1
      · simpa [hstop] using hlt
      · rw [if_neg hstop]
        exact ih (attempts + 1) (by omega)

theorem truthyAnswer_ne_empty {o : Option String} {a : String}
    (h : truthyAnswer o = some a) : a ≠ "" := by
  match o with
  | none => simp [truthyAnswer] at h
  | some s =>
    simp only [truthyAnswer] at h
    by_cases hs : s = ""
    · simp [hs] at h
    · rw [if_neg hs] at h
      cases h
      exact hs

theorem firstTruthy_ne_empty (ask : String → Option String) :
    ∀ (l : List String) (a : String), firstTruthy ask l = some a → a ≠ "" := by
  intro l
  induction l with
  | nil => intro a h; simp [firstTruthy] at h
  | cons j rest ih =>
    intro a h
    simp only [firstTruthy] at h
    cases hta : truthyAnswer (ask j) with
    | some b =>
      rw [hta] at h
      cases h
      exact truthyAnswer_ne_empty hta
    | none =>
      rw [hta] at h
      exact ih a h

/-- C6: with a retry budget of at least one, the Coordinator's loop over
ordered_try = selected :: (remaining candidates in list order) makes at most
MAX_RETRIES attempts in total, its answer is the first non-empty answer among
the first MAX_RETRIES identities of the try list, and when such an answer
exists it is exactly the text sent to the Presenter (and is non-empty). -/
theorem C6_theorem (ask : String → Option String) (R : Nat) (hR : 1 ≤ R)
    (sel : String) (cands : List Candidate) :
    (retryLoop ask R (orderedTry sel cands) 0).1 =
      firstTruthy ask ((orderedTry sel cands).take R) ∧
    (retryLoop ask R (orderedTry sel cands) 0).2 ≤ R ∧
    ∀ a, (retryLoop ask R (orderedTry sel cands) 0).1 = some a →
      presenterText (retryLoop ask R (orderedTry sel cands) 0).1 = a ∧ a ≠ "" := by
  have h0 : 0 < R := hR
  have hfst := retryLoop_fst ask R (orderedTry sel cands) 0 h0
  rw [Nat.sub_zero] at hfst
  refine ⟨hfst, retryLoop_snd ask R _ 0 h0, ?_⟩
  intro a ha
  refine ⟨by rw [ha]; rfl, ?_⟩
  rw [hfst] at ha
  exact firstTruthy_ne_empty ask _ a ha

/-- C6 witness: with the default budget of 2 and an oracle where the selected
"a@x" stays silent and "b@x" answers "ok", the loop stops at attempt 2 with
"ok", which is the Presenter text. -/
theorem C6_witness :
    (retryLoop exAsk 2 (orderedTry "a@x" [exCandA, exCandB]) 0).1 =
      firstTruthy exAsk ((orderedTry "a@x" [exCandA, exCandB]).take 2) ∧
    (retryLoop exAsk 2 (orderedTry "a@x" [exCandA, exCandB]) 0).2 ≤ 2 ∧
    ∀ a, (retryLoop exAsk 2 (orderedTry "a@x" [exCandA, exCandB]) 0).1 = some a →
      presenterText (retryLoop exAsk 2 (orderedTry "a@x" [exCandA, exCandB]) 0).1 = a ∧
        a ≠ "" :=
  C6_theorem exAsk 2 (by decide) "a@x" [exCandA, exCandB]

/- ----- DF reply lemmas ----- -/

theorem alLookup_mem {β : Type} {l : List (String × β)} {k : String} {v : β}
    (h : alLookup l k = some v) : (k, v) ∈ l := by
  induction l with
  | nil => simp [alLookup] at h
  | cons e rest ih =>
    obtain ⟨k', v'⟩ := e
    by_cases hk : k' = k
    · subst hk
      simp only [alLookup, if_true, eq_self_iff_true, Option.some.injEq] at h
      subst h
      exact List.mem_cons_self _ _
    · simp only [alLookup, if_neg hk] at h
      exact List.mem_cons_of_mem _ (ih h)

theorem publicProfile_jid (st : DFState) (j : String)
    (hjid : ∀ e ∈ st.catalog, (e : String × DFRecord).2.jid = e.1) :
    (publicProfile st j).jid = j := by
  unfold publicProfile
  cases hl : alLookup st.catalog j with
  | none => rfl
  | some rec => simpa using hjid (j, rec) (alLookup_mem hl)

theorem filterMap_sublist_map {α β : Type} (g : α → Option β) (h : α → β)
    (hc : ∀ e, g e = none ∨ g e = some (h e)) (l : List α) :
    (l.filterMap g).Sublist (l.map h) := by
  induction l with
  | nil => simp
  | cons e rest ih =>
    rcases hc e with he | he
    · rw [List.map_cons, List.filterMap_cons, he]
      exact ih.cons _
    · rw [List.map_cons, List.filterMap_cons, he]
      exact ih.cons₂ _

/- ----- cap2jids index lemmas (for the C8 invariant) ----- -/

theorem filterMap_keys_sublist {α : Type} (f : (String × α) → Option (String × α))
    (hf : ∀ e v, f e = some v → v.1 = e.1) (l : List (String × α)) :
    ((l.filterMap f).map Prod.fst).Sublist (l.map Prod.fst) := by
  induction l with
  | nil => simp
  | cons e rest ih =>
    rw [List.filterMap_cons]
    cases hfe : f e with
    | none => exact ih.trans (List.sublist_cons_self _ _)
    | some v =>
      rw [List.map_cons, List.map_cons, hf e v hfe]
      exact ih.cons₂ _

theorem cleanCapIndex_keys_sublist (idx : List (String × List String))
    (j : String) (caps : List String) :
    ((cleanCapIndex idx j caps).map Prod.fst).Sublist (idx.map Prod.fst) := by
  apply filterMap_keys_sublist
  intro e v hfe
  simp only at hfe
  by_cases h2 : (if j ∈ e.2 ∧ e.1 ∉ caps then e.2.erase j else e.2).isEmpty = true
  · rw [if_pos h2] at hfe
    cases hfe
  · rw [if_neg h2] at hfe
    cases hfe
    rfl

theorem removeCapIndex_keys_sublist (idx : List (String × List String))
    (j : String) :
    ((removeCapIndex idx j).map Prod.fst).Sublist (idx.map Prod.fst) := by
  apply filterMap_keys_sublist
  intro e v hfe
  simp only at hfe
  by_cases h1 : j ∈ e.2
  · rw [if_pos h1] at hfe
    by_cases h2 : (e.2.erase j).isEmpty = true
    · rw [if_pos h2] at hfe
      cases hfe
    · rw [if_neg h2] at hfe
      cases hfe
      rfl
  · rw [if_neg h1] at hfe
    cases hfe
    rfl

theorem cleanCapIndex_cons (c0 : String) (L0 : List String)
    (rest : List (String × List String)) (j : String) (caps : List String) :
    cleanCapIndex ((c0, L0) :: rest) j caps =
      if (if j ∈ L0 ∧ c0 ∉ caps then L0.erase j else L0).isEmpty = true
      then cleanCapIndex rest j caps
      else (c0, if j ∈ L0 ∧ c0 ∉ caps then L0.erase j else L0) ::
        cleanCapIndex rest j caps := by
  simp only [cleanCapIndex, List.filterMap_cons]
  by_cases hemp : (if j ∈ L0 ∧ c0 ∉ caps then L0.erase j else L0).isEmpty = true
  · rw [if_pos hemp, if_pos hemp]
  · rw [if_neg hemp, if_neg hemp]

theorem cleanCapIndex_mem (idx : List (String × List String)) (j : String)
    (caps : List String) (hknd : (idx.map Prod.fst).Nodup)
    (hend : ∀ e ∈ idx, (e : String × List String).2.Nodup) (c x : String) :
    x ∈ (alLookup (cleanCapIndex idx j caps) c).getD [] ↔
      x ∈ (alLookup idx c).getD [] ∧ ¬ (x = j ∧ c ∉ caps) := by
  induction idx with
  | nil => simp [cleanCapIndex, alLookup]
  | cons e rest ih =>
    obtain ⟨c0, L0⟩ := e
    simp only [List.map_cons, List.nodup_cons] at hknd
    have hL0 : L0.Nodup := hend (c0, L0) (List.mem_cons_self _ _)
    have hrest : ∀ e ∈ rest, (e : String × List String).2.Nodup :=
      fun e he => hend e (List.mem_cons_of_mem _ he)
    have hnone0 : c0 = c → alLookup (cleanCapIndex rest j caps) c = none := by
      intro hc0
      subst hc0
      exact alLookup_eq_none
        (fun hm => hknd.1 ((cleanCapIndex_keys_sublist rest j caps).subset hm))
    rw [cleanCapIndex_cons]
    by_cases hcond : j ∈ L0 ∧ c0 ∉ caps
    · rw [if_pos hcond] at *
      by_cases hemp : (L0.erase j).isEmpty = true
      · rw [if_pos hemp]
        by_cases hc0 : c0 = c
        · rw [hnone0 hc0]
          subst hc0
          simp only [alLookup, eq_self_iff_true, if_true, Option.getD_some, Option.getD_none]
          constructor
          · intro hx
            cases hx
          · intro ⟨hx, hnx⟩
            exfalso
            have hLj : L0.erase j = [] := List.isEmpty_iff.mp hemp
            by_cases hxj : x = j
            · exact hnx ⟨hxj, hcond.2⟩
            · have : x ∈ L0.erase j := hL0.mem_erase_iff.mpr ⟨hxj, hx⟩
              rw [hLj] at this
              cases this
        · have hlook : alLookup ((c0, L0) :: rest) c = alLookup rest c := by
            simp [alLookup, hc0]
          rw [hlook]
          exact ih hknd.2 hrest
      · rw [if_neg hemp]
        by_cases hc0 : c0 = c
        · subst hc0
          simp only [alLookup, eq_self_iff_true, if_true, Option.getD_some]
          rw [hL0.mem_erase_iff]
          constructor
          · intro ⟨hxj, hx⟩
            exact ⟨hx, fun hh => hxj hh.1⟩
          · intro ⟨hx, hnx⟩
            exact ⟨fun hxj => hnx ⟨hxj, hcond.2⟩, hx⟩
        · simp only [alLookup, if_neg hc0]
          exact ih hknd.2 hrest
    · rw [if_neg hcond] at *
      by_cases hemp : L0.isEmpty = true
      · rw [if_pos hemp]
        by_cases hc0 : c0 = c
        · rw [hnone0 hc0]
          subst hc0
          have hL0nil : L0 = [] := List.isEmpty_iff.mp hemp
          simp [alLookup, hL0nil]
        · have hlook : alLookup ((c0, L0) :: rest) c = alLookup rest c := by
            simp [alLookup, hc0]
          rw [hlook]
          exact ih hknd.2 hrest
      · rw [if_neg hemp]
        by_cases hc0 : c0 = c
        · subst hc0
          simp only [alLookup, eq_self_iff_true, if_true, Option.getD_some]
          constructor
          · intro hx
            exact ⟨hx, fun hh => hcond ⟨hh.1 ▸ hx, hh.2⟩⟩
          · intro ⟨hx, _⟩
            exact hx
        · simp only [alLookup, if_neg hc0]
          exact ih hknd.2 hrest


theorem alLookup_append {β : Type} (l1 l2 : List (String × β)) (k : String) :
    alLookup (l1 ++ l2) k =
      match alLookup l1 k with
      | some v => some v
      | none => alLookup l2 k := by
  induction l1 with
  | nil => simp [alLookup]
  | cons e rest ih =>
    obtain ⟨k0, v0⟩ := e
    by_cases h0 : k0 = k
    · simp [alLookup, h0]
    · simp [alLookup, h0, ih]

theorem alInsert_mem {β : Type} {l : List (String × β)} {k : String} {v : β}
    {e : String × β} (h : e ∈ alInsert l k v) : e = (k, v) ∨ e ∈ l := by
  induction l with
  | nil => simpa [alInsert] using h
  | cons e0 rest ih =>
    obtain ⟨k0, v0⟩ := e0
    by_cases h0 : k0 = k
    · rw [alInsert, if_pos h0] at h
      rcases List.mem_cons.mp h with h | h
      · exact Or.inl h
      · exact Or.inr (List.mem_cons_of_mem _ h)
    · rw [alInsert, if_neg h0] at h
      rcases List.mem_cons.mp h with h | h
      · exact Or.inr (h ▸ List.mem_cons_self _ _)
      · rcases ih h with h | h
        · exact Or.inl h
        · exact Or.inr (List.mem_cons_of_mem _ h)

theorem alLookup_self_of_mem_nodup {β : Type} {l : List (String × β)}
    {k : String} {v : β} (hnd : (l.map Prod.fst).Nodup) (h : (k, v) ∈ l) :
    alLookup l k = some v := by
  induction l with
  | nil => cases h
  | cons e rest ih =>
    obtain ⟨k0, v0⟩ := e
    simp only [List.map_cons, List.nodup_cons] at hnd
    rcases List.mem_cons.mp h with h | h
    · cases h
      simp [alLookup]
    · have hk0 : ¬ k0 = k := by
        intro he
        subst he
        exact hnd.1 (List.mem_map.mpr ⟨(k0, v), h, rfl⟩)
      simp only [alLookup, if_neg hk0]
      exact ih hnd.2 h

theorem removeCapIndex_cons (c0 : String) (L0 : List String)
    (rest : List (String × List String)) (j : String) :
    removeCapIndex ((c0, L0) :: rest) j =
      if j ∈ L0 then
        (if (L0.erase j).isEmpty = true then removeCapIndex rest j
         else (c0, L0.erase j) :: removeCapIndex rest j)
      else (c0, L0) :: removeCapIndex rest j := by
  simp only [removeCapIndex, List.filterMap_cons]
  by_cases h1 : j ∈ L0
  · by_cases h2 : (L0.erase j).isEmpty = true
    · rw [if_pos h1, if_pos h2, if_pos h1, if_pos h2]
    · rw [if_pos h1, if_neg h2, if_pos h1, if_neg h2]
  · rw [if_neg h1, if_neg h1]

theorem removeCapIndex_mem (idx : List (String × List String)) (j : String)
    (hknd : (idx.map Prod.fst).Nodup)
    (hend : ∀ e ∈ idx, (e : String × List String).2.Nodup) (c x : String) :
    x ∈ (alLookup (removeCapIndex idx j) c).getD [] ↔
      x ∈ (alLookup idx c).getD [] ∧ x ≠ j := by
  induction idx with
  | nil => simp [removeCapIndex, alLookup]
  | cons e rest ih =>
    obtain ⟨c0, L0⟩ := e
    simp only [List.map_cons, List.nodup_cons] at hknd
    have hL0 : L0.Nodup := hend (c0, L0) (List.mem_cons_self _ _)
    have hrest : ∀ e ∈ rest, (e : String × List String).2.Nodup :=
      fun e he => hend e (List.mem_cons_of_mem _ he)
    have hnone0 : c0 = c → alLookup (removeCapIndex rest j) c = none := by
      intro hc0
      subst hc0
      exact alLookup_eq_none
        (fun hm => hknd.1 ((removeCapIndex_keys_sublist rest j).subset hm))
    rw [removeCapIndex_cons]
    by_cases h1 : j ∈ L0
    · rw [if_pos h1]
      by_cases h2 : (L0.erase j).isEmpty = true
      · rw [if_pos h2]
        by_cases hc0 : c0 = c
        · rw [hnone0 hc0]
          subst hc0
          simp only [alLookup, eq_self_iff_true, if_true, Option.getD_some,
            Option.getD_none]
          constructor
          · intro hx
            cases hx
          · intro ⟨hx, hxj⟩
            have : x ∈ L0.erase j := hL0.mem_erase_iff.mpr ⟨hxj, hx⟩
            rw [List.isEmpty_iff.mp h2] at this
            cases this
        · have hlook : alLookup ((c0, L0) :: rest) c = alLookup rest c := by
            simp [alLookup, hc0]
          rw [hlook]
          exact ih hknd.2 hrest
      · rw [if_neg h2]
        by_cases hc0 : c0 = c
        · subst hc0
          simp only [alLookup, eq_self_iff_true, if_true, Option.getD_some]
          rw [hL0.mem_erase_iff]
          exact ⟨fun ⟨a, b⟩ => ⟨b, a⟩, fun ⟨a, b⟩ => ⟨b, a⟩⟩
        · simp only [alLookup, if_neg hc0]
          exact ih hknd.2 hrest
    · rw [if_neg h1]
      by_cases hc0 : c0 = c
      · subst hc0
        simp only [alLookup, eq_self_iff_true, if_true, Option.getD_some]
        constructor
        · intro hx
          exact ⟨hx, fun hxj => h1 (hxj ▸ hx)⟩
        · intro ⟨hx, _⟩
          exact hx
      · simp only [alLookup, if_neg hc0]
        exact ih hknd.2 hrest

theorem cleanCapIndex_entries_nodup (idx : List (String × List String))
    (j : String) (caps : List String)
    (hend : ∀ e ∈ idx, (e : String × List String).2.Nodup) :
    ∀ e ∈ cleanCapIndex idx j caps, (e : String × List String).2.Nodup := by
  intro e he
  obtain ⟨a, ha, hfa⟩ := List.mem_filterMap.mp he
  simp only at hfa
  by_cases h2 : (if j ∈ a.2 ∧ a.1 ∉ caps then a.2.erase j else a.2).isEmpty = true
  · rw [if_pos h2] at hfa
    cases hfa
  · rw [if_neg h2] at hfa
    cases hfa
    by_cases hc : j ∈ a.2 ∧ a.1 ∉ caps
    · simpa [hc] using (hend _ ha).erase j
    · simpa [hc] using hend _ ha

theorem removeCapIndex_entries_nodup (idx : List (String × List String))
    (j : String)
    (hend : ∀ e ∈ idx, (e : String × List String).2.Nodup) :
    ∀ e ∈ removeCapIndex idx j, (e : String × List String).2.Nodup := by
  intro e he
  obtain ⟨a, ha, hfa⟩ := List.mem_filterMap.mp he
  simp only at hfa
  by_cases h1 : j ∈ a.2
  · rw [if_pos h1] at hfa
    by_cases h2 : (a.2.erase j).isEmpty = true
    · rw [if_pos h2] at hfa
      cases hfa
    · rw [if_neg h2] at hfa
      cases hfa
      exact (hend _ ha).erase j
  · rw [if_neg h1] at hfa
    cases hfa
    exact hend _ ha

theorem addCapStep_keys_nodup {acc : List (String × List String)}
    {j c : String} (hknd : (acc.map Prod.fst).Nodup) :
    ((addCapStep acc j c).map Prod.fst).Nodup := by
  cases hl : alLookup acc c with
  | some lst =>
    by_cases hj : j ∈ lst
    · simpa [addCapStep, hl, hj] using hknd
    · simpa [addCapStep, hl, hj] using alInsert_keys_nodup hknd
  | none =>
    simp only [addCapStep, hl]
    have hnm : c ∉ acc.map Prod.fst := by
      intro hm
      obtain ⟨v, hv⟩ := alLookup_isSome_of_mem hm
      rw [hl] at hv
      cases hv
    rw [List.map_append]
    exact List.nodup_append.mpr ⟨hknd, List.nodup_singleton _,
      fun x hx hx' => by simp at hx'; subst hx'; exact hnm hx⟩

theorem addCapStep_entries_nodup {acc : List (String × List String)}
    {j c : String} (hend : ∀ e ∈ acc, (e : String × List String).2.Nodup) :
    ∀ e ∈ addCapStep acc j c, (e : String × List String).2.Nodup := by
  intro e he
  cases hl : alLookup acc c with
  | some lst =>
    simp only [addCapStep, hl] at he
    by_cases hj : j ∈ lst
    · rw [if_pos hj] at he
      exact hend e he
    · rw [if_neg hj] at he
      rcases alInsert_mem he with h | h
      · subst h
        have hlst : lst.Nodup := hend _ (alLookup_mem hl)
        exact List.nodup_append.mpr ⟨hlst, List.nodup_singleton _,
          fun x hx hx' => by simp at hx'; subst hx'; exact hj hx⟩
      · exact hend e h
  | none =>
    simp only [addCapStep, hl] at he
    rcases List.mem_append.mp he with h | h
    · exact hend e h
    · simp at h
      subst h
      exact List.nodup_singleton _

theorem addCapStep_mem (acc : List (String × List String)) (j c : String)
    (c' x : String) :
    x ∈ (alLookup (addCapStep acc j c) c').getD [] ↔
      x ∈ (alLookup acc c').getD [] ∨ (x = j ∧ c' = c) := by
  by_cases hcc : c = c'
  · subst hcc
    cases hl : alLookup acc c with
    | some lst =>
      by_cases hj : j ∈ lst
      · have heq : alLookup (addCapStep acc j c) c = some lst := by
          simp [addCapStep, hl, hj]
        rw [heq]
        simp only [Option.getD_some]
        constructor
        · exact fun hx => Or.inl hx
        · rintro (hx | ⟨hxj, _⟩)
          · exact hx
          · exact hxj ▸ hj
      · have heq : alLookup (addCapStep acc j c) c = some (lst ++ [j]) := by
          simp [addCapStep, hl, hj, alLookup_insert]
        rw [heq]
        simp only [Option.getD_some, List.mem_append, List.mem_singleton]
        constructor
        · rintro (hx | hx)
          · exact Or.inl hx
          · exact Or.inr ⟨hx, by trivial⟩
        · rintro (hx | ⟨hxj, _⟩)
          · exact Or.inl hx
          · exact Or.inr hxj
    | none =>
      have heq : alLookup (addCapStep acc j c) c = some [j] := by
        simp [addCapStep, hl, alLookup_append, alLookup]
      rw [heq]
      simp only [Option.getD_some, Option.getD_none, List.mem_singleton]
      constructor
      · intro hx
        exact Or.inr ⟨hx, by trivial⟩
      · rintro (hx | ⟨hxj, _⟩)
        · cases hx
        · exact hxj
  · have heq : alLookup (addCapStep acc j c) c' = alLookup acc c' := by
      cases hl : alLookup acc c with
      | some lst =>
        by_cases hj : j ∈ lst
        · simp [addCapStep, hl, hj]
        · simp [addCapStep, hl, hj, alLookup_insert, hcc]
      | none =>
        cases hl' : alLookup acc c' with
        | some v => simp [addCapStep, hl, alLookup_append, hl']
        | none => simp [addCapStep, hl, alLookup_append, hl', alLookup, hcc]
    rw [heq]
    constructor
    · exact fun hx => Or.inl hx
    · rintro (hx | ⟨_, hcc'⟩)
      · exact hx
      · exact absurd hcc'.symm hcc

theorem addCapIndex_spec (j : String) :
    ∀ (caps : List String) (idx : List (String × List String)),
      (idx.map Prod.fst).Nodup →
      (∀ e ∈ idx, (e : String × List String).2.Nodup) →
      ((addCapIndex idx j caps).map Prod.fst).Nodup ∧
      (∀ e ∈ addCapIndex idx j caps, (e : String × List String).2.Nodup) ∧
      (∀ c x, x ∈ (alLookup (addCapIndex idx j caps) c).getD [] ↔
        x ∈ (alLookup idx c).getD [] ∨ (x = j ∧ c ∈ caps)) := by
  intro caps
  induction caps with
  | nil =>
    intro idx h1 h2
    exact ⟨h1, h2, by simp [addCapIndex]⟩
  | cons c0 caps ih =>
    intro idx h1 h2
    rw [show addCapIndex idx j (c0 :: caps) =
      addCapIndex (addCapStep idx j c0) j caps from rfl]
    obtain ⟨ka, ea, ma⟩ :=
      ih (addCapStep idx j c0) (addCapStep_keys_nodup h1)
        (addCapStep_entries_nodup h2)
    refine ⟨ka, ea, ?_⟩
    intro c x
    rw [ma c x, addCapStep_mem idx j c0 c x]
    constructor
    · rintro ((hx | ⟨hxj, hcc⟩) | ⟨hxj, hcs⟩)
      · exact Or.inl hx
      · exact Or.inr ⟨hxj, by rw [hcc]; exact List.mem_cons_self _ _⟩
      · exact Or.inr ⟨hxj, List.mem_cons_of_mem _ hcs⟩
    · rintro (hx | ⟨hxj, hcs⟩)
      · exact Or.inl (Or.inl hx)
      · rcases List.mem_cons.mp hcs with hc0 | hcs'
        · exact Or.inl (Or.inr ⟨hxj, hc0⟩)
        · exact Or.inr ⟨hxj, hcs'⟩

theorem map_publicProfile_jid (st : DFState)
    (hjid : ∀ e ∈ st.catalog, (e : String × DFRecord).2.jid = e.1)
    (l : List String) :
    (l.map (fun j => publicProfile st j)).map (fun p => p.jid) = l := by
  rw [List.map_map]
  calc (l.map ((fun p : DFRecord => p.jid) ∘ fun j => publicProfile st j)) =
      l.map id := List.map_congr_left (fun j _ => publicProfile_jid st j hjid)
    _ = l := List.map_id l

/-- C2 counterexample: in a catalog where "b@x" registered before "a@x", the
LIST reply (and the need=ASK_EXPERT reply) lists candidates in insertion
order ["b@x", "a@x"], which is not sorted by jid. -/
theorem C2_counterexample :
    (dfListReply exDF 0 30).candidates = ["b@x", "a@x"] ∧
    ¬ List.Sorted strLe (dfListReply exDF 0 30).candidates ∧
    ¬ List.Sorted strLe (dfNeedReply exDF "ASK_EXPERT" 0 30).candidates :=
  ⟨by decide, by decide, by decide⟩

/-- C2 (amended): in every QUERY-REF reply the candidates list equals the
profiles' jids position for position; LIST candidates follow catalog
insertion order (a sublist of the catalog's key sequence), and DUMP
candidates are exactly the catalog's key sequence; the lists are not sorted
by jid. -/
theorem C2_theorem (st : DFState) (now hb : Nat) (needRaw : String)
    (hjid : ∀ e ∈ st.catalog, (e : String × DFRecord).2.jid = e.1) :
    (dfListReply st now hb).candidates =
      (dfListReply st now hb).profiles.map (fun p => p.jid) ∧
    (dfListReply st now hb).candidates.Sublist (st.catalog.map Prod.fst) ∧
    (dfDumpReply st).candidates = st.catalog.map Prod.fst ∧
    (dfDumpReply st).profiles.map (fun p => p.jid) = (dfDumpReply st).candidates ∧
    (dfNeedReply st needRaw now hb).candidates =
      (dfNeedReply st needRaw now hb).profiles.map (fun p => p.jid) := by
  refine ⟨rfl, ?_, rfl, ?_, ?_⟩
  · show ((aliveProfiles st now hb).map (fun p => p.jid)).Sublist
      (st.catalog.map Prod.fst)
    unfold aliveProfiles
    rw [List.map_filterMap]
    apply filterMap_sublist_map
    intro e
    by_cases ha : now - e.2.last_seen ≤ hb * 2
    · right
      simp [ha, publicProfile_jid st e.1 hjid]
    · left
      simp [ha]
  · show (st.catalog.map (fun e => publicProfile st e.1)).map (fun p => p.jid) =
      st.catalog.map Prod.fst
    rw [List.map_map]
    apply List.map_congr_left
    intro e _
    exact publicProfile_jid st e.1 hjid
  · simp only [dfNeedReply]
    split
    · rfl
    · exact (map_publicProfile_jid st hjid _).symm

/-- C2 witness: the amended consistency facts instantiated on the concrete
two-entry catalog. -/
theorem C2_witness :
    (dfListReply exDF 0 30).candidates =
      (dfListReply exDF 0 30).profiles.map (fun p => p.jid) ∧
    (dfListReply exDF 0 30).candidates.Sublist (exDF.catalog.map Prod.fst) ∧
    (dfDumpReply exDF).candidates = exDF.catalog.map Prod.fst ∧
    (dfDumpReply exDF).profiles.map (fun p => p.jid) = (dfDumpReply exDF).candidates ∧
    (dfNeedReply exDF "ASK_EXPERT" 0 30).candidates =
      (dfNeedReply exDF "ASK_EXPERT" 0 30).profiles.map (fun p => p.jid) :=
  C2_theorem exDF 0 30 "ASK_EXPERT" (by decide)

/- ----- Correlation-book lemmas ----- -/

/- A matched frame that passed every guard reduces match_and_pop to the
   consumption decision. -/
theorem matchAndPop_guards (book : CorrBook) (conv irt : String)
    (from_bare performative : Option String) (now : Nat)
    (bucket : List (String × Expectation)) (exp : Expectation)
    (hirt : irt ≠ "") (hbk : alLookup book conv = some bucket)
    (hexp : alLookup bucket irt = some exp)
    (httl : ¬ exp.expires_at < now)
    (hfrom : ¬ (exp.allow_from ≠ ∅ ∧ (from_bare = none ∨ from_bare = some "" ∨
      from_bare.getD "" ∉ exp.allow_from)))
    (hpf : ¬ (exp.allow_pf ≠ ∅ ∧ upperStr (performative.getD "") ∉ exp.allow_pf)) :
    CorrBook.matchAndPop book conv (some irt) from_bare performative now =
      if (match exp.consume_on with
          | some s => (upperStr (performative.getD "") ∈ s : Bool)
          | none =>
            (¬ (1 < exp.allow_pf.card ∧
              upperStr (performative.getD "") ∈ ACK_PFS) : Bool)) = true
      then (true, CorrBook.putBucket book conv (alErase bucket irt))
      else (true, book) := by
  have hne : bucket.isEmpty = false := alLookup_isEmpty_false hexp
  simp only [CorrBook.matchAndPop]
  rw [if_neg (by simp [hirt])]
  simp only [Option.getD_some, hbk, hexp, hne, Bool.false_eq_true, if_false,
    if_neg httl, if_neg hfrom, if_neg hpf]

/- Popping (and bucket cleanup) removes the expectation from the book. -/
theorem lookupExp_pop_none (book : CorrBook) (conv irt : String)
    (bucket : List (String × Expectation))
    (hbook : (book.map Prod.fst).Nodup)
    (hbucket : (bucket.map Prod.fst).Nodup) :
    CorrBook.lookupExp (CorrBook.putBucket book conv (alErase bucket irt))
      conv irt = none := by
  unfold CorrBook.putBucket CorrBook.lookupExp
  by_cases he : (alErase bucket irt).isEmpty
  · simp [he, alLookup_erase_self hbook]
  · simp [he, alLookup_insert_self, alLookup_erase_self hbucket]

/- ----- C3: correlation-book consumption policy ----- -/

/-- C3: (a) register installs consume_on = set-containing-only-INFORM whenever
the uppercased allow_pf set contains both AGREE and INFORM; (b) a
match_and_pop that matches an installed expectation returns true, and removes
the expectation if and only if (consume_on is set and the performative is in
it) or (consume_on is unset and not (allow_pf is multi-phase and the
performative is AGREE)); (c) an AGREE matching a multi-phase expectation
installed by register returns true and leaves the whole book unchanged. -/
theorem C3_theorem :
    (∀ (book : CorrBook) (conv rw : String) (af apf : List String) (ttl : Nat)
        (note : String) (now : Nat),
      "AGREE" ∈ (apf.map upperStr).toFinset → "INFORM" ∈ (apf.map upperStr).toFinset →
      CorrBook.lookupExp (CorrBook.register book conv rw af apf ttl note now) conv rw =
        some { allow_from := af.toFinset, allow_pf := (apf.map upperStr).toFinset,
               expires_at := now + ttl, note := note,
               consume_on := some {"INFORM"} }) ∧
    (∀ (book : CorrBook) (conv irt : String)
        (from_bare performative : Option String) (now : Nat)
        (bucket : List (String × Expectation)) (exp : Expectation),
      irt ≠ "" → alLookup book conv = some bucket →
      alLookup bucket irt = some exp → ¬ exp.expires_at < now →
      ¬ (exp.allow_from ≠ ∅ ∧ (from_bare = none ∨ from_bare = some "" ∨
        from_bare.getD "" ∉ exp.allow_from)) →
      ¬ (exp.allow_pf ≠ ∅ ∧ upperStr (performative.getD "") ∉ exp.allow_pf) →
      (book.map Prod.fst).Nodup → (bucket.map Prod.fst).Nodup →
      (CorrBook.matchAndPop book conv (some irt) from_bare performative now).1
          = true ∧
      (CorrBook.lookupExp
          (CorrBook.matchAndPop book conv (some irt) from_bare performative now).2
          conv irt = none ↔
        consumeCond exp (upperStr (performative.getD "")))) ∧
    (∀ (book : CorrBook) (conv irt : String)
        (from_bare performative : Option String) (now : Nat)
        (bucket : List (String × Expectation)) (exp : Expectation),
      irt ≠ "" → alLookup book conv = some bucket →
      alLookup bucket irt = some exp → ¬ exp.expires_at < now →
      ¬ (exp.allow_from ≠ ∅ ∧ (from_bare = none ∨ from_bare = some "" ∨
        from_bare.getD "" ∉ exp.allow_from)) →
      ¬ (exp.allow_pf ≠ ∅ ∧ upperStr (performative.getD "") ∉ exp.allow_pf) →
      (exp.consume_on = none ∨ exp.consume_on = some {"INFORM"}) →
      1 < exp.allow_pf.card → upperStr (performative.getD "") = "AGREE" →
      CorrBook.matchAndPop book conv (some irt) from_bare performative now =
        (true, book)) := by
  refine ⟨?_, ?_, ?_⟩
  · intro book conv rw af apf ttl note now hA hI
    simp only [CorrBook.register, CorrBook.lookupExp]
    rw [if_pos ⟨hA, hI⟩]
    simp [alLookup_insert_self]
  · intro book conv irt from_bare performative now bucket exp hirt hbk hexp httl
      hfrom hpf hbooknd hbucketnd
    rw [matchAndPop_guards book conv irt from_bare performative now bucket exp
      hirt hbk hexp httl hfrom hpf]
    set pf := upperStr (performative.getD "") with hpfdef
    match hco : exp.consume_on with
    | some s =>
      by_cases hmem : pf ∈ s
      · rw [if_pos (by simp [hmem])]
        refine ⟨by simp, ?_⟩
        constructor
        · intro _
          exact Or.inl ⟨s, hco, hmem⟩
        · intro _
          exact lookupExp_pop_none book conv irt bucket hbooknd hbucketnd
      · rw [if_neg (by simp [hmem])]
        refine ⟨by simp, ?_⟩
        constructor
        · intro hnone
          exfalso
          have : CorrBook.lookupExp book conv irt = some exp := by
            simp [CorrBook.lookupExp, hbk, hexp]
          simp [this] at hnone
        · intro hc
          exfalso
          rcases hc with ⟨s', hs', hmem'⟩ | ⟨hn, _⟩
          · rw [hco] at hs'
            cases hs'
            exact hmem hmem'
          · rw [hco] at hn
            cases hn
    | none =>
      by_cases hml : 1 < exp.allow_pf.card ∧ pf = "AGREE"
      · have hcond :
            (¬ (1 < exp.allow_pf.card ∧ pf ∈ ACK_PFS) : Bool) = false := by
          simp [ACK_PFS, hml.1, hml.2]
        simp only [hcond, Bool.false_eq_true, if_false]
        refine ⟨by simp, ?_⟩
        constructor
        · intro hnone
          exfalso
          have hsome : CorrBook.lookupExp book conv irt = some exp := by
            simp [CorrBook.lookupExp, hbk, hexp]
          simp [hsome] at hnone
        · intro hc
          exfalso
          rcases hc with ⟨s', hs', _⟩ | ⟨_, hnot⟩
          · rw [hco] at hs'
            cases hs'
          · exact hnot hml
      · have hcond :
            (¬ (1 < exp.allow_pf.card ∧ pf ∈ ACK_PFS) : Bool) = true := by
          simp only [ACK_PFS, Finset.mem_singleton, decide_eq_true_eq]
          exact hml
        rw [hcond, if_pos rfl]
        refine ⟨by simp, ?_⟩
        constructor
        · intro _
          exact Or.inr ⟨hco, hml⟩
        · intro _
          exact lookupExp_pop_none book conv irt bucket hbooknd hbucketnd
  · intro book conv irt from_bare performative now bucket exp hirt hbk hexp httl
      hfrom hpf hco hcard hpfu
    rw [matchAndPop_guards book conv irt from_bare performative now bucket exp
      hirt hbk hexp httl hfrom hpf]
    rcases hco with hco | hco
    · have hcond :
          (match exp.consume_on with
           | some s => (upperStr (performative.getD "") ∈ s : Bool)
           | none =>
             (¬ (1 < exp.allow_pf.card ∧
               upperStr (performative.getD "") ∈ ACK_PFS) : Bool)) = false := by
        rw [hco]
        simp [ACK_PFS, hpfu, hcard]
      simp only [hcond, Bool.false_eq_true, if_false]
    · have hcond :
          (match exp.consume_on with
           | some s => (upperStr (performative.getD "") ∈ s : Bool)
           | none =>
             (¬ (1 < exp.allow_pf.card ∧
               upperStr (performative.getD "") ∈ ACK_PFS) : Bool)) = false := by
        rw [hco]
        simp [hpfu]
      simp only [hcond, Bool.false_eq_true, if_false]

/-- C3 witness: on the concrete two-phase book installed by register (allow
AGREE and INFORM), an in-TTL AGREE matches without consuming: the book is
returned unchanged. -/
theorem C3_witness :
    CorrBook.matchAndPop exBook "c1" (some "r1") (some "s@d") (some "AGREE") 5 =
      (true, exBook) :=
  C3_theorem.2.2 exBook "c1" "r1" (some "s@d") (some "AGREE") 5
    [("r1", exExp)] exExp (by decide) (by decide) (by decide) (by decide)
    (by decide) (by decide) (Or.inr (by decide)) (by decide) (by decide)

/- ----- C1: KB STORE with a non-"vN" if_match token ----- -/

/-- C1 counterexample: with versions 1 and 2 of a key stored under etags
"etag-a" and "etag-b", a STORE whose if_match is "etag-a" — the etag of a
version strictly below the latest — is answered with INFORM STORED (and a
row is inserted), not with FAILURE.CONFLICT as the claim requires. -/
theorem C1_counterexample :
    (handleStore exStalePayload exDb "coordinator@xmpp.pawelhaladyj.pl" "etag-c" 7).1 =
      KBReply.informStored exKey 3 "etag-c" ∧
    (handleStore exStalePayload exDb "coordinator@xmpp.pawelhaladyj.pl" "etag-c" 7).1.isConflict
      = false :=
  ⟨rfl, rfl⟩

/-- C1 (amended): for a STORE whose if_match token is nonempty and not of the
form "vN", the store conflicts if and only if no stored version of the key
(of any version, not only the latest) carries that etag; on conflict no row
is inserted, and otherwise the reply is INFORM STORED at version max+1. -/
theorem C1_theorem (p : KBPayload) (db : List KBItem) (allowed etg : String)
    (now : Nat) (tok : String) (hm : p.if_match = some tok) (hne : tok ≠ "")
    (hv : isVersionToken tok = false) (hk : keyValid (p.key.getD "") = true) :
    ((handleStore p db allowed etg now).1.isConflict = true ↔
      ¬ ∃ r ∈ db, r.key = p.key.getD "" ∧ r.etag = tok) ∧
    ((handleStore p db allowed etg now).1.isConflict = true →
      (handleStore p db allowed etg now).2 = db) ∧
    ((handleStore p db allowed etg now).1.isConflict = false →
      (handleStore p db allowed etg now).1 =
        KBReply.informStored (p.key.getD "") (maxVersion db (p.key.getD "") + 1) etg) := by
  have hfilter :
      (db.filter (fun r => r.key == p.key.getD "" && r.etag == tok)).isEmpty = true ↔
        ¬ ∃ r ∈ db, r.key = p.key.getD "" ∧ r.etag = tok := by
    rw [List.isEmpty_iff, List.filter_eq_nil_iff]
    simp
  by_cases hemp :
      (db.filter (fun r => r.key == p.key.getD "" && r.etag == tok)).isEmpty = true
  · have hres : handleStore p db allowed etg now =
        (.failure "FAILURE.CONFLICT" "ETag mismatch", db) := by
      simp [handleStore, hk, KBStorage.store, hm, hne, hv, hemp]
    rw [hres]
    refine ⟨?_, fun _ => rfl, ?_⟩
    · simpa [KBReply.isConflict] using hfilter.mp hemp
    · intro hfalse
      simp [KBReply.isConflict] at hfalse
  · have hres : handleStore p db allowed etg now =
        (.informStored (p.key.getD "") (maxVersion db (p.key.getD "") + 1) etg,
          db ++ [{ key := p.key.getD "",
                   version := maxVersion db (p.key.getD "") + 1, etag := etg,
                   content_type := p.content_type.getD "application/json",
                   value := p.value, tags := p.tags.getD [],
                   session_id := sessionIdOf (p.key.getD ""), created_at := now,
                   created_by := allowed, deleted := false }]) := by
      simp [handleStore, hk, KBStorage.store, hm, hne, hv, hemp]
    rw [hres]
    refine ⟨?_, ?_, fun _ => rfl⟩
    · constructor
      · intro habs
        simp [KBReply.isConflict] at habs
      · intro hno
        exact absurd (hfilter.mpr hno) hemp
    · intro habs
      simp [KBReply.isConflict] at habs

/-- C1 witness: on the concrete two-version store, a token matching no stored
etag is a conflict (the right-hand side of the amended iff holds). -/
theorem C1_witness :
    (handleStore exNoMatchPayload exDb "coordinator@xmpp.pawelhaladyj.pl" "etag-c" 7).1.isConflict
        = true ↔
      ¬ ∃ r ∈ exDb, r.key = exNoMatchPayload.key.getD "" ∧ r.etag = "nope" :=
  (C1_theorem exNoMatchPayload exDb "coordinator@xmpp.pawelhaladyj.pl" "etag-c" 7
    "nope" rfl (by decide) (by decide) (by decide)).1

/- ----- C4: KB whitelist ----- -/

/-- C4 counterexample: a message from an unauthorized sender whose body is
not valid JSON is answered with FAILURE.INVALID_JSON — the JSON parse runs
before the whitelist check — not with REFUSE.UNAUTHORIZED. -/
theorem C4_counterexample :
    kbRun "coordinator@xmpp.pawelhaladyj.pl" "intruder@xmpp.pawelhaladyj.pl/res"
        KBMsgBody.invalid [] "e" 0 =
      (KBReply.failure "FAILURE.INVALID_JSON" "Body is not valid JSON", []) ∧
    (kbRun "coordinator@xmpp.pawelhaladyj.pl" "intruder@xmpp.pawelhaladyj.pl/res"
        KBMsgBody.invalid [] "e" 0).1.isUnauthorized = false :=
  ⟨rfl, rfl⟩

/-- C4 (amended): for every inbound frame whose body parses as JSON and whose
sender's lowercased bare JID differs from the whitelisted Coordinator bare
JID, the KB replies REFUSE.UNAUTHORIZED and the store is left unchanged;
bodies that do not parse are answered FAILURE.INVALID_JSON regardless of
sender. -/
theorem C4_theorem (allowed sender : String) (p : KBPayload) (db : List KBItem)
    (etg : String) (now : Nat) (h : lowerStr (bareJid sender) ≠ allowed) :
    kbRun allowed sender (.parsed p) db etg now =
      (KBReply.refuse "REFUSE.UNAUTHORIZED" ("Only " ++ allowed), db) := by
  simp [kbRun, h]

/-- C4 witness: the concrete unauthorized sender with a parsed STORE body is
refused and the database is unchanged. -/
theorem C4_witness :
    kbRun "coordinator@xmpp.pawelhaladyj.pl" "intruder@xmpp.pawelhaladyj.pl/res"
        (.parsed exStalePayload) exDb "etag-c" 7 =
      (KBReply.refuse "REFUSE.UNAUTHORIZED" "Only coordinator@xmpp.pawelhaladyj.pl", exDb) :=
  C4_theorem "coordinator@xmpp.pawelhaladyj.pl" "intruder@xmpp.pawelhaladyj.pl/res"
    exStalePayload exDb "etag-c" 7 (by decide)

/- ----- C10: GET with an unusable version selector ----- -/

/-- C10: a GET whose version field is a non-digit string (or any non-integer
JSON value), with no as_of, does not fail: the version selector is ignored
and the request behaves exactly like a GET without a version — the highest
non-deleted version of the key, or FAILURE.NOT_FOUND when there is none. -/
theorem C10_theorem (p : KBPayload) (db : List KBItem)
    (hver : (∃ s, p.version = some (.vstr s) ∧ pyIsDigit s = false) ∨
      p.version = some .vother)
    (hao : p.as_of = none) (hk : keyValid (p.key.getD "") = true) :
    handleGet p db = handleGet { p with version := none } db ∧
    handleGet p db =
      (match latestRow (db.filter (fun r => r.key == p.key.getD "" && r.deleted == false)) with
       | some row => KBReply.informValue (p.key.getD "") row.version row.etag row.value
       | none => KBReply.failure "FAILURE.NOT_FOUND" "No value for key") := by
  have hv : vnumOf p.version = none := by
    rcases hver with ⟨s, hs, hd⟩ | ho
    · simp [vnumOf, hs, hd]
    · simp [vnumOf, ho]
  have hv0 : vnumOf (none : Option VersionField) = none := rfl
  constructor
  · simp only [handleGet, hv, hv0]
  · simp [handleGet, hv, hk, KBStorage.get, hao]

/-- C10 witness: on the concrete two-version store, a GET with version "v3"
returns version 2 (the latest non-deleted one). -/
theorem C10_witness :
    handleGet exBadVersionGet exDb = handleGet { exBadVersionGet with version := none } exDb :=
  (C10_theorem exBadVersionGet exDb (Or.inl ⟨"v3", rfl, by decide⟩) rfl (by decide)).1

/- ----- C9: dispatcher and duplicate USER_MSG ----- -/

/-- C9 counterexample: a REQUEST.USER_MSG whose conversation id contains a KB
sub-tag ("-kbget-") and whose queue exists is routed into that queue (the
KB-reply branch fires first), not silently discarded as the claim states. -/
theorem C9_counterexample :
    dispatchStep ["sess-1-kbget-22"] (some exKbTagFrame) "fresh" =
      (["sess-1-kbget-22"], DispOut.kbRouted "sess-1-kbget-22") ∧
    (dispatchStep ["sess-1-kbget-22"] (some exKbTagFrame) "fresh").2 ≠
      DispOut.userMsgIgnored "sess-1-kbget-22" := by
  exact ⟨rfl, by decide⟩

/-- C9 (amended): the dispatcher keeps the conversation-queue keys
duplicate-free (one queue and one ServeConversation per conversation id),
and a REQUEST.USER_MSG whose conversation id is non-empty, carries no KB
sub-tag, and already has a queue is silently discarded: no queue is added,
no task is spawned and the frame is not enqueued. -/
theorem C9_theorem :
    (∀ (queues : List String) (frame : Option DispFrame) (fresh : String),
      queues.Nodup → ((dispatchStep queues frame fresh).1).Nodup) ∧
    (∀ (queues : List String) (f : DispFrame) (fresh conv : String),
      f.conv = some conv → conv ≠ "" → hasKbTag conv = false →
      f.performative = some "REQUEST" → upperStr (f.ctype.getD "") = "USER_MSG" →
      conv ∈ queues →
      dispatchStep queues (some f) fresh = (queues, .userMsgIgnored conv)) := by
  have happ : ∀ (l : List String) (a : String), l.Nodup → a ∉ l → (l ++ [a]).Nodup :=
    fun l a hl ha => List.nodup_append.mpr ⟨hl, List.nodup_singleton a,
      fun x hx hx' => by simp at hx'; subst hx'; exact ha hx⟩
  constructor
  · intro queues frame fresh hnd
    match frame with
    | none => exact hnd
    | some f =>
      simp only [dispatchStep]
      split
      · split <;> exact hnd
      · split
        · split
          · split
            · next h => exact happ _ _ hnd h
            · exact hnd
          · split
            · next h => exact happ _ _ hnd h
            · exact hnd
        · split
          · exact hnd
          · split <;> exact hnd
  · intro queues f fresh conv hconv hne htag hpf htyp hmem
    simp only [dispatchStep, hconv, Option.getD_some]
    rw [if_neg (by simp [htag]), if_pos ⟨hpf, htyp⟩, if_neg (by simp [hne, hmem])]
    simp [hne]

/-- C9 witness: a duplicate USER_MSG on the live conversation "sess-7" is
ignored and the queue set is unchanged. -/
theorem C9_witness :
    dispatchStep ["sess-7"] (some exUserFrame) "fresh" =
      (["sess-7"], DispOut.userMsgIgnored "sess-7") :=
  C9_theorem.2 ["sess-7"] exUserFrame "fresh" "sess-7" rfl (by decide) (by decide)
    rfl (by decide) (by decide)


/- ===== DF well-formedness preservation (claim C8) ===== -/

theorem dfWellFormed_empty : dfWellFormed { catalog := [], cap2jids := [] } := by
  unfold dfWellFormed
  refine ⟨?_, ?_, ?_, ?_⟩
  · intro c x
    constructor
    · intro hx
      simp [alLookup] at hx
    · rintro ⟨r, hr, _⟩
      simp [alLookup] at hr
  · intro e he
    cases he
  · exact List.nodup_nil
  · exact List.nodup_nil

theorem dfWellFormed_set {st : DFState} (hwf : dfWellFormed st) (jid : String)
    (rec : DFRecord) :
    dfWellFormed
      { catalog := alInsert st.catalog jid rec,
        cap2jids := addCapIndex (cleanCapIndex st.cap2jids jid rec.capabilities)
          jid rec.capabilities } := by
  obtain ⟨hci, hend, hknd, hcnd⟩ := hwf
  have hcknd : ((cleanCapIndex st.cap2jids jid rec.capabilities).map
      Prod.fst).Nodup :=
    (cleanCapIndex_keys_sublist st.cap2jids jid rec.capabilities).nodup hknd
  have hcend : ∀ e ∈ cleanCapIndex st.cap2jids jid rec.capabilities,
      (e : String × List String).2.Nodup :=
    cleanCapIndex_entries_nodup st.cap2jids jid rec.capabilities hend
  obtain ⟨hknd', hend', hmem⟩ :=
    addCapIndex_spec jid rec.capabilities _ hcknd hcend
  unfold dfWellFormed
  refine ⟨?_, hend', hknd', alInsert_keys_nodup hcnd⟩
  intro c x
  show x ∈ (alLookup (addCapIndex
      (cleanCapIndex st.cap2jids jid rec.capabilities) jid rec.capabilities)
      c).getD [] ↔
    ∃ r, alLookup (alInsert st.catalog jid rec) x = some r ∧
      c ∈ r.capabilities
  rw [hmem c x,
    cleanCapIndex_mem st.cap2jids jid rec.capabilities hknd hend c x]
  simp only [alLookup_insert]
  by_cases hx : jid = x
  · subst hx
    simp only [eq_self_iff_true, if_true]
    by_cases hcap : c ∈ rec.capabilities
    · constructor
      · intro _
        exact ⟨rec, rfl, hcap⟩
      · intro _
        exact Or.inr ⟨trivial, hcap⟩
    · constructor
      · rintro (⟨hx1, hneg⟩ | ⟨_, hc⟩)
        · exact absurd ⟨trivial, hcap⟩ hneg
        · exact absurd hc hcap
      · rintro ⟨r, hr, hc⟩
        injection hr with h
        subst h
        exact absurd hc hcap
  · simp only [if_neg hx]
    rw [← hci c x]
    constructor
    · rintro (⟨h1, _⟩ | ⟨hxj, _⟩)
      · exact h1
      · exact absurd hxj.symm hx
    · intro h1
      exact Or.inl ⟨h1, fun hh => hx hh.1.symm⟩

theorem dfWellFormed_insert_same_caps {st : DFState} (hwf : dfWellFormed st)
    {jid : String} {r0 r1 : DFRecord} (hl : alLookup st.catalog jid = some r0)
    (hcaps : r1.capabilities = r0.capabilities) :
    dfWellFormed { st with catalog := alInsert st.catalog jid r1 } := by
  obtain ⟨hci, hend, hknd, hcnd⟩ := hwf
  unfold dfWellFormed
  refine ⟨?_, hend, hknd, alInsert_keys_nodup hcnd⟩
  intro c x
  show x ∈ (alLookup st.cap2jids c).getD [] ↔
    ∃ r, alLookup (alInsert st.catalog jid r1) x = some r ∧
      c ∈ r.capabilities
  rw [hci c x]
  simp only [alLookup_insert]
  by_cases hx : jid = x
  · subst hx
    simp only [eq_self_iff_true, if_true, hl]
    constructor
    · rintro ⟨r, hr, hc⟩
      injection hr with h
      subst h
      refine ⟨r1, rfl, ?_⟩
      rw [hcaps]
      exact hc
    · rintro ⟨r, hr, hc⟩
      injection hr with h
      subst h
      refine ⟨r0, rfl, ?_⟩
      rw [← hcaps]
      exact hc
  · simp only [if_neg hx]

theorem dfWellFormed_insert_new_empty {st : DFState} (hwf : dfWellFormed st)
    {jid : String} {r1 : DFRecord} (hl : alLookup st.catalog jid = none)
    (hcaps : r1.capabilities = []) :
    dfWellFormed { st with catalog := alInsert st.catalog jid r1 } := by
  obtain ⟨hci, hend, hknd, hcnd⟩ := hwf
  unfold dfWellFormed
  refine ⟨?_, hend, hknd, alInsert_keys_nodup hcnd⟩
  intro c x
  show x ∈ (alLookup st.cap2jids c).getD [] ↔
    ∃ r, alLookup (alInsert st.catalog jid r1) x = some r ∧
      c ∈ r.capabilities
  rw [hci c x]
  simp only [alLookup_insert]
  by_cases hx : jid = x
  · subst hx
    simp only [eq_self_iff_true, if_true, hl]
    constructor
    · rintro ⟨r, hr, _⟩
      cases hr
    · rintro ⟨r, hr, hc⟩
      injection hr with h
      subst h
      rw [hcaps] at hc
      cases hc
  · simp only [if_neg hx]

theorem dfWellFormed_upsert {st : DFState} (hwf : dfWellFormed st)
    (p : RegProfile) (now : Nat) : dfWellFormed (upsertRecord st p now) := by
  unfold upsertRecord
  exact dfWellFormed_set hwf p.jid _

theorem dfWellFormed_touch {st : DFState} (hwf : dfWellFormed st)
    (jid : String) (extra : HBExtra) (now : Nat)
    (hcap : extra.capabilities = none) :
    dfWellFormed (touchRecord st jid extra now) := by
  cases hl : alLookup st.catalog jid with
  | some p0 =>
    have heq : touchRecord st jid extra now =
        { st with catalog := (alInsert st.catalog jid
          { p0 with
              last_seen := now,
              status := extra.status.getD "online",
              name := extra.name.getD p0.name,
              capabilities := p0.capabilities }) } := by
      simp only [touchRecord, hl, hcap, Option.getD_some, Option.getD_none]
    rw [heq]
    exact dfWellFormed_insert_same_caps hwf hl rfl
  | none =>
    have heq : touchRecord st jid extra now =
        { st with catalog := (alInsert st.catalog jid
          { jid := jid,
            name := extra.name.getD "",
            vers := "",
            description := "",
            capabilities := [],
            status := extra.status.getD "online",
            last_seen := now }) } := by
      simp only [touchRecord, hl, hcap, Option.getD_some, Option.getD_none]
    rw [heq]
    exact dfWellFormed_insert_new_empty hwf hl rfl

theorem dfWellFormed_remove {st : DFState} (hwf : dfWellFormed st)
    (jid : String) : dfWellFormed (removeRecord st jid) := by
  obtain ⟨hci, hend, hknd, hcnd⟩ := hwf
  by_cases hs : (alLookup st.catalog jid).isSome = true
  · simp only [removeRecord]
    rw [if_pos hs]
    unfold dfWellFormed
    refine ⟨?_, removeCapIndex_entries_nodup st.cap2jids jid hend,
      (removeCapIndex_keys_sublist st.cap2jids jid).nodup hknd,
      (alErase_keys_sublist st.catalog jid).nodup hcnd⟩
    intro c x
    show x ∈ (alLookup (removeCapIndex st.cap2jids jid) c).getD [] ↔
      ∃ r, alLookup (alErase st.catalog jid) x = some r ∧ c ∈ r.capabilities
    rw [removeCapIndex_mem st.cap2jids jid hknd hend c x, hci c x]
    by_cases hx : x = jid
    · subst hx
      constructor
      · rintro ⟨_, hne⟩
        exact absurd rfl hne
      · rintro ⟨r, hr, _⟩
        rw [alLookup_erase_self hcnd] at hr
        cases hr
    · simp only [alLookup_erase_ne st.catalog jid x (fun h => hx h.symm)]
      constructor
      · rintro ⟨h1, _⟩
        exact h1
      · intro h1
        exact ⟨h1, hx⟩
  · simp only [removeRecord]
    rw [if_neg hs]
    exact ⟨hci, hend, hknd, hcnd⟩

theorem gcFold_wf (now hb tm : Nat) (entries : List (String × DFRecord)) :
    ∀ acc : DFState, dfWellFormed acc →
      (∀ e ∈ entries,
        alLookup acc.catalog (e : String × DFRecord).1 = some e.2) →
      (entries.map Prod.fst).Nodup →
      dfWellFormed (entries.foldl (gcBody now hb tm) acc) := by
  induction entries with
  | nil =>
    intro acc hwf _ _
    exact hwf
  | cons e0 rest ih =>
    intro acc hwf hlk hnd
    simp only [List.foldl_cons]
    simp only [List.map_cons, List.nodup_cons] at hnd
    obtain ⟨hnd1, hnd2⟩ := hnd
    have hwf' : dfWellFormed (gcBody now hb tm acc e0) := by
      simp only [gcBody]
      by_cases h1 : hb * tm < now - e0.2.last_seen
      · rw [if_pos h1]
        exact dfWellFormed_remove hwf e0.1
      · rw [if_neg h1]
        by_cases h2 : hb * 2 < now - e0.2.last_seen
        · rw [if_pos h2]
          exact dfWellFormed_insert_same_caps hwf
            (hlk e0 (List.mem_cons_self _ _)) rfl
        · rw [if_neg h2]
          exact hwf
    have hlk' : ∀ e ∈ rest,
        alLookup (gcBody now hb tm acc e0).catalog
          (e : String × DFRecord).1 = some e.2 := by
      intro e he
      have hne : e0.1 ≠ e.1 := by
        intro h
        apply hnd1
        rw [h]
        exact List.mem_map.mpr ⟨e, he, rfl⟩
      simp only [gcBody]
      by_cases h1 : hb * tm < now - e0.2.last_seen
      · rw [if_pos h1]
        simp only [removeRecord]
        by_cases hs : (alLookup acc.catalog e0.1).isSome = true
        · rw [if_pos hs]
          show alLookup (alErase acc.catalog e0.1) e.1 = some e.2
          rw [alLookup_erase_ne acc.catalog e0.1 e.1 hne]
          exact hlk e (List.mem_cons_of_mem _ he)
        · rw [if_neg hs]
          exact hlk e (List.mem_cons_of_mem _ he)
      · rw [if_neg h1]
        by_cases h2 : hb * 2 < now - e0.2.last_seen
        · rw [if_pos h2]
          show alLookup (alInsert acc.catalog e0.1
            { e0.2 with status := "offline" }) e.1 = some e.2
          rw [alLookup_insert, if_neg hne]
          exact hlk e (List.mem_cons_of_mem _ he)
        · rw [if_neg h2]
          exact hlk e (List.mem_cons_of_mem _ he)
    exact ih (gcBody now hb tm acc e0) hwf' hlk' hnd2

theorem dfWellFormed_gc {st : DFState} (hwf : dfWellFormed st)
    (now hb tm : Nat) : dfWellFormed (gcStep st now hb tm) := by
  have hcnd : (st.catalog.map Prod.fst).Nodup := hwf.2.2.2
  unfold gcStep
  exact gcFold_wf now hb tm st.catalog st hwf
    (fun e he => alLookup_self_of_mem_nodup hcnd he) hcnd

/-- C8 counterexample: a HEARTBEAT that carries a `capabilities` field
overwrites the catalog record's capabilities without reindexing cap2jids,
so the capability index no longer matches the catalog: after registering
"kb@x" with KB.STORE and touching it with capabilities=[OTHER.CAP], the
index still maps KB.STORE to "kb@x" although the record no longer holds
that capability. -/
theorem C8_counterexample :
    ¬ capIndexConsistent
      (touchRecord
        (upsertRecord { catalog := [], cap2jids := [] }
          { jid := "kb@x", capabilities := some ["KB.STORE"] } 0)
        "kb@x" { capabilities := some ["OTHER.CAP"] } 1) := by
  intro h
  obtain ⟨r, hr, hc⟩ := (h "KB.STORE" "kb@x").mp (by decide)
  have hlv : alLookup
      (touchRecord
        (upsertRecord { catalog := [], cap2jids := [] }
          { jid := "kb@x", capabilities := some ["KB.STORE"] } 0)
        "kb@x" { capabilities := some ["OTHER.CAP"] } 1).catalog "kb@x" =
      some { jid := "kb@x",
             name := "kb@x",
             vers := "0.0.0",
             description := "",
             capabilities := ["OTHER.CAP"],
             status := "online",
             last_seen := 1 } := by decide
  rw [hlv] at hr
  injection hr with hre
  rw [← hre] at hc
  exact absurd hc (by decide)

/-- C8 (amended): on a well-formed DF state, a REGISTER upsert, a HEARTBEAT
touch that carries no `capabilities` field, a DEREGISTER remove, and a TTL
garbage-collection pass all preserve well-formedness, whose first conjunct
is the capability-index invariant cap2jids[c] = the jids whose catalog
record holds c; a HEARTBEAT that does carry `capabilities` breaks the
invariant (see the counterexample). -/
theorem C8_theorem (st : DFState) (hwf : dfWellFormed st) :
    (∀ p now, dfWellFormed (upsertRecord st p now)) ∧
    (∀ jid extra now, (extra : HBExtra).capabilities = none →
      dfWellFormed (touchRecord st jid extra now)) ∧
    (∀ jid, dfWellFormed (removeRecord st jid)) ∧
    (∀ now hb tm, dfWellFormed (gcStep st now hb tm)) :=
  ⟨fun p now => dfWellFormed_upsert hwf p now,
   fun jid extra now hcap => dfWellFormed_touch hwf jid extra now hcap,
   fun jid => dfWellFormed_remove hwf jid,
   fun now hb tm => dfWellFormed_gc hwf now hb tm⟩

/-- C8 witness: the theorem applied to the empty DF state, yielding
well-formedness of the state after registering "kb@x" with KB.STORE. -/
theorem C8_witness :
    dfWellFormed (upsertRecord { catalog := [], cap2jids := [] }
      { jid := "kb@x", capabilities := some ["KB.STORE"] } 0) :=
  (C8_theorem { catalog := [], cap2jids := [] } dfWellFormed_empty).1
    { jid := "kb@x", capabilities := some ["KB.STORE"] } 0


/- ===== Character-level facts for normalize_performative (claim C7) ===== -/

theorem char_ofNat_toNat {n : Nat} (h1 : 65 ≤ n) (h2 : n ≤ 90) :
    (Char.ofNat n).toNat = n := by
  unfold Char.ofNat
  rw [dif_pos]
  · rfl
  · exact Or.inl (by omega)

theorem upper_toNat {c : Char} (h : 'a' ≤ c ∧ c ≤ 'z') :
    (charUpper c).toNat = c.toNat - 32 ∧ 65 ≤ (charUpper c).toNat ∧
      (charUpper c).toNat ≤ 90 := by
  have h1 : (97 : Nat) ≤ c.toNat := h.1
  have h2 : c.toNat ≤ 122 := h.2
  have ht : (charUpper c).toNat = c.toNat - 32 := by
    unfold charUpper
    rw [if_pos h]
    exact char_ofNat_toNat (by omega) (by omega)
  exact ⟨ht, by omega, by omega⟩

theorem ne_of_toNat_ne {a b : Char} (h : a.toNat ≠ b.toNat) : a ≠ b :=
  fun he => h (congrArg Char.toNat he)

theorem pyWs_eq_false_of_toNat {c : Char} (h1 : 65 ≤ c.toNat)
    (h2 : c.toNat ≤ 90) : pyWs c = false := by
  simp only [pyWs, Bool.or_eq_false_iff, decide_eq_false_iff_not]
  refine ⟨⟨⟨⟨⟨?_, ?_⟩, ?_⟩, ?_⟩, ?_⟩, ?_⟩
  · exact ne_of_toNat_ne (by rw [show (' ' : Char).toNat = 32 from rfl]; omega)
  · exact ne_of_toNat_ne (by rw [show ('\t' : Char).toNat = 9 from rfl]; omega)
  · exact ne_of_toNat_ne (by rw [show ('\n' : Char).toNat = 10 from rfl]; omega)
  · exact ne_of_toNat_ne (by rw [show ('\r' : Char).toNat = 13 from rfl]; omega)
  · exact ne_of_toNat_ne (by rw [show ('\x0b' : Char).toNat = 11 from rfl]; omega)
  · exact ne_of_toNat_ne (by rw [show ('\x0c' : Char).toNat = 12 from rfl]; omega)

theorem charUpper_pyWs {c : Char} (h : pyWs c = false) :
    pyWs (charUpper c) = false := by
  by_cases hl : 'a' ≤ c ∧ c ≤ 'z'
  · obtain ⟨-, hb1, hb2⟩ := upper_toNat hl
    exact pyWs_eq_false_of_toNat hb1 hb2
  · unfold charUpper
    rw [if_neg hl]
    exact h

theorem sOU_eq_false_of_toNat {c : Char} (h1 : 65 ≤ c.toNat)
    (h2 : c.toNat ≤ 90) : spaceOrUnderscore c = false := by
  simp only [spaceOrUnderscore, Bool.or_eq_false_iff, decide_eq_false_iff_not]
  exact ⟨ne_of_toNat_ne (by rw [show (' ' : Char).toNat = 32 from rfl]; omega),
    ne_of_toNat_ne (by rw [show ('_' : Char).toNat = 95 from rfl]; omega)⟩

theorem charUpper_sOU {c : Char} (h : spaceOrUnderscore c = false) :
    spaceOrUnderscore (charUpper c) = false := by
  by_cases hl : 'a' ≤ c ∧ c ≤ 'z'
  · obtain ⟨-, hb1, hb2⟩ := upper_toNat hl
    exact sOU_eq_false_of_toNat hb1 hb2
  · unfold charUpper
    rw [if_neg hl]
    exact h

theorem charUpper_eq_self {c : Char} (h : ¬ ('a' ≤ c ∧ c ≤ 'z')) :
    charUpper c = c := by
  unfold charUpper
  rw [if_neg h]

theorem charUpper_idem (c : Char) : charUpper (charUpper c) = charUpper c := by
  by_cases hl : 'a' ≤ c ∧ c ≤ 'z'
  · obtain ⟨-, hb1, hb2⟩ := upper_toNat hl
    have hnl : ¬ ('a' ≤ charUpper c ∧ charUpper c ≤ 'z') := by
      intro hcl
      have h97 : (97 : Nat) ≤ (charUpper c).toNat := hcl.1
      omega
    exact charUpper_eq_self hnl
  · have he : charUpper c = c := charUpper_eq_self hl
    rw [he, he]

/- ===== Generic list helpers for the string-rewriting argument ===== -/

theorem pre_append_cases {q a b : List Char} (h : q <+: a ++ b) :
    q <+: a ∨ ∃ q2, q = a ++ q2 ∧ q2 <+: b := by
  induction a generalizing q with
  | nil => exact Or.inr ⟨q, rfl, h⟩
  | cons x a2 ih =>
    cases q with
    | nil => exact Or.inl (List.nil_prefix)
    | cons y q2 =>
      rw [List.cons_append] at h
      obtain ⟨hyx, h2⟩ := List.cons_prefix_cons.mp h
      subst hyx
      rcases ih h2 with h1 | ⟨q3, hq, h3⟩
      · exact Or.inl (List.cons_prefix_cons.mpr ⟨rfl, h1⟩)
      · exact Or.inr ⟨q3, by rw [List.cons_append, hq], h3⟩

theorem sfx_append_cases {t a b : List Char} (h : t <:+ a ++ b) :
    t <:+ b ∨ ∃ s, s <:+ a ∧ t = s ++ b := by
  induction a with
  | nil => exact Or.inl h
  | cons x a2 ih =>
    rw [List.cons_append] at h
    rcases List.suffix_cons_iff.mp h with h1 | h1
    · exact Or.inr ⟨x :: a2, List.suffix_refl _, by rw [h1, List.cons_append]⟩
    · rcases ih h1 with h2 | ⟨s, hs1, hs2⟩
      · exact Or.inl h2
      · exact Or.inr ⟨s, hs1.trans (List.suffix_cons x a2), hs2⟩

theorem suffix_getLast? {u v : List Char} (h : u <:+ v) (hu : u ≠ []) :
    v.getLast? = u.getLast? := by
  obtain ⟨w, rfl⟩ := h
  exact List.getLast?_append_of_ne_nil w hu

theorem getLast?_cons_of_ne_nil {d : Char} {t : List Char} (h : t ≠ []) :
    (d :: t).getLast? = t.getLast? := by
  cases t with
  | nil => exact absurd rfl h
  | cons e u => exact List.getLast?_cons_cons

/- ===== Edge (leading/trailing) whitespace lemmas for pyStrip ===== -/

theorem dropWhile_head_not {l : List Char} {c : Char}
    (h : (l.dropWhile pyWs).head? = some c) : pyWs c = false := by
  induction l with
  | nil => cases h
  | cons d t ih =>
    rw [List.dropWhile_cons] at h
    by_cases hd : pyWs d = true
    · rw [if_pos hd] at h
      exact ih h
    · rw [if_neg hd] at h
      cases h
      simpa using hd

theorem dropWhile_ws_eq_self {l : List Char}
    (h : ∀ c, l.head? = some c → pyWs c = false) : l.dropWhile pyWs = l := by
  cases l with
  | nil => rfl
  | cons d t =>
    have hd := h d rfl
    rw [List.dropWhile_cons, if_neg (by simp [hd])]

theorem pyStrip_head {l : List Char} {c : Char}
    (h : (pyStrip l).head? = some c) : pyWs c = false := by
  unfold pyStrip at h
  rw [List.head?_reverse] at h
  have hBne : (l.dropWhile pyWs).reverse.dropWhile pyWs ≠ [] := by
    intro hnil
    rw [hnil] at h
    cases h
  have hsuf : (l.dropWhile pyWs).reverse.dropWhile pyWs <:+
      (l.dropWhile pyWs).reverse := List.dropWhile_suffix pyWs
  have heq := suffix_getLast? hsuf hBne
  rw [← heq, List.getLast?_reverse] at h
  exact dropWhile_head_not h

theorem pyStrip_last {l : List Char} {c : Char}
    (h : (pyStrip l).getLast? = some c) : pyWs c = false := by
  unfold pyStrip at h
  rw [List.getLast?_reverse] at h
  exact dropWhile_head_not h

theorem pyStrip_eq_self {L : List Char}
    (hh : ∀ c, L.head? = some c → pyWs c = false)
    (hl : ∀ c, L.getLast? = some c → pyWs c = false) : pyStrip L = L := by
  have h1 : L.dropWhile pyWs = L := dropWhile_ws_eq_self hh
  have h2 : L.reverse.dropWhile pyWs = L.reverse :=
    dropWhile_ws_eq_self (fun c hc => hl c (by rwa [List.head?_reverse] at hc))
  unfold pyStrip
  rw [h1, h2, List.reverse_reverse]

/- ===== subSpaces stage lemmas ===== -/

theorem subSpaces_cons (d : Char) (t : List Char) :
    subSpacesAux false (d :: t) =
      if spaceOrUnderscore d = true then '-' :: subSpacesAux true t
      else d :: subSpacesAux false t := by
  simp only [subSpacesAux]
  by_cases hd : spaceOrUnderscore d = true
  · rw [if_pos hd, if_pos hd, if_neg Bool.false_ne_true]
  · rw [if_neg hd, if_neg hd]

theorem subSpacesAux_sOU (b : Bool) (z : List Char) :
    ∀ c ∈ subSpacesAux b z, spaceOrUnderscore c = false := by
  induction z generalizing b with
  | nil =>
    intro c hc
    cases hc
  | cons d t ih =>
    intro c hc
    simp only [subSpacesAux] at hc
    by_cases hd : spaceOrUnderscore d = true
    · rw [if_pos hd] at hc
      cases b with
      | true =>
        rw [if_pos rfl] at hc
        exact ih true c hc
      | false =>
        rw [if_neg Bool.false_ne_true] at hc
        rcases List.mem_cons.mp hc with rfl | hc2
        · decide
        · exact ih true c hc2
    · rw [if_neg hd] at hc
      rcases List.mem_cons.mp hc with rfl | hc2
      · simpa using hd
      · exact ih false c hc2

theorem subSpacesAux_eq_self {z : List Char}
    (h : ∀ c ∈ z, spaceOrUnderscore c = false) :
    ∀ b, subSpacesAux b z = z := by
  induction z with
  | nil =>
    intro b
    rfl
  | cons d t ih =>
    intro b
    have hd : spaceOrUnderscore d = false := h d (List.mem_cons_self _ _)
    simp only [subSpacesAux]
    rw [if_neg (by simp [hd])]
    rw [ih (fun c hc => h c (List.mem_cons_of_mem _ hc)) false]

theorem subSpaces_head {z : List Char} {c : Char}
    (h : (subSpaces z).head? = some c) : c = '-' ∨ z.head? = some c := by
  cases z with
  | nil => cases h
  | cons d t =>
    rw [show subSpaces (d :: t) = subSpacesAux false (d :: t) from rfl,
      subSpaces_cons] at h
    by_cases hd : spaceOrUnderscore d = true
    · rw [if_pos hd] at h
      injection h with h2
      exact Or.inl h2.symm
    · rw [if_neg hd] at h
      exact Or.inr h

theorem subSpacesAux_false_nil {z : List Char}
    (h : subSpacesAux false z = []) : z = [] := by
  cases z with
  | nil => rfl
  | cons d t =>
    rw [subSpaces_cons] at h
    by_cases hd : spaceOrUnderscore d = true
    · rw [if_pos hd] at h
      cases h
    · rw [if_neg hd] at h
      cases h

theorem subSpacesAux_last {z : List Char} {c : Char} :
    ∀ b, (subSpacesAux b z).getLast? = some c → c = '-' ∨ z.getLast? = some c := by
  induction z with
  | nil =>
    intro b h
    cases h
  | cons d t ih =>
    intro b h
    simp only [subSpacesAux] at h
    by_cases hd : spaceOrUnderscore d = true
    · rw [if_pos hd] at h
      cases b with
      | true =>
        rw [if_pos rfl] at h
        rcases ih true h with h1 | h1
        · exact Or.inl h1
        · right
          have ht : t ≠ [] := by
            intro h0
            rw [h0] at h1
            cases h1
          rw [getLast?_cons_of_ne_nil ht]
          exact h1
      | false =>
        rw [if_neg Bool.false_ne_true] at h
        cases hst : subSpacesAux true t with
        | nil =>
          rw [hst] at h
          have h2 : (['-'] : List Char).getLast? = some '-' := rfl
          rw [h2] at h
          injection h with h3
          exact Or.inl h3.symm
        | cons e u =>
          rw [hst, List.getLast?_cons_cons, ← hst] at h
          rcases ih true h with h1 | h1
          · exact Or.inl h1
          · right
            have ht : t ≠ [] := by
              intro h0
              rw [h0] at h1
              cases h1
            rw [getLast?_cons_of_ne_nil ht]
            exact h1
    · rw [if_neg hd] at h
      cases hst : subSpacesAux false t with
      | nil =>
        have ht : t = [] := subSpacesAux_false_nil hst
        subst ht
        rw [hst] at h
        right
        exact h
      | cons e u =>
        rw [hst, List.getLast?_cons_cons, ← hst] at h
        rcases ih false h with h1 | h1
        · exact Or.inl h1
        · right
          have ht : t ≠ [] := by
            intro h0
            rw [h0] at h1
            cases h1
          rw [getLast?_cons_of_ne_nil ht]
          exact h1

theorem map_upper_eq_self {L : List Char} (h : ∀ c ∈ L, charUpper c = c) :
    L.map charUpper = L := by
  calc L.map charUpper = L.map id := List.map_congr_left h
  _ = L := List.map_id L

/- ===== replaceAll (Python str.replace) rewriting lemmas ===== -/

theorem replaceAllGo_cons (p r : List Char) (m : Nat) (d : Char)
    (rest : List Char) :
    replaceAllGo p r (m + 1) (d :: rest) =
      if (!p.isEmpty && p.isPrefixOf (d :: rest)) = true
      then r ++ replaceAllGo p r m (rest.drop (p.length - 1))
      else d :: replaceAllGo p r m rest := by
  simp only [replaceAllGo]

theorem replaceAllGo_eq_self {p r : List Char} (hp : p ≠ []) :
    ∀ (n : Nat) (t : List Char), ¬ p <:+: t → replaceAllGo p r n t = t := by
  intro n
  induction n with
  | zero =>
    intro t h
    cases t <;> rfl
  | succ m ih =>
    intro t h
    cases t with
    | nil => rfl
    | cons c rest =>
      have hnp : ¬ (!p.isEmpty && p.isPrefixOf (c :: rest)) = true := by
        intro hcond
        have hpre : p.isPrefixOf (c :: rest) = true :=
          (Bool.and_eq_true _ _).mp hcond |>.2
        exact h (List.isPrefixOf_iff_prefix.mp hpre).isInfix
      rw [replaceAllGo_cons, if_neg hnp]
      congr 1
      exact ih rest (fun hi => h (List.infix_cons_iff.mpr (Or.inr hi)))

theorem replaceAll_eq_self {p r t : List Char} (hp : p ≠ [])
    (h : ¬ p <:+: t) : replaceAll p r t = t :=
  replaceAllGo_eq_self hp t.length t h

theorem replaceAllGo_chars {p r : List Char} :
    ∀ (n : Nat) (t : List Char) (c : Char), c ∈ replaceAllGo p r n t →
      c ∈ t ∨ c ∈ r := by
  intro n
  induction n with
  | zero =>
    intro t c hc
    cases t with
    | nil => cases hc
    | cons d u => exact Or.inl hc
  | succ m ih =>
    intro t c hc
    cases t with
    | nil => cases hc
    | cons d rest =>
      rw [replaceAllGo_cons] at hc
      by_cases hcond : (!p.isEmpty && p.isPrefixOf (d :: rest)) = true
      · rw [if_pos hcond] at hc
        rcases List.mem_append.mp hc with h1 | h1
        · exact Or.inr h1
        · rcases ih _ c h1 with h2 | h2
          · exact Or.inl (List.mem_cons_of_mem _ (List.drop_subset _ _ h2))
          · exact Or.inr h2
      · rw [if_neg hcond] at hc
        rcases List.mem_cons.mp hc with h1 | h1
        · exact Or.inl (h1 ▸ List.mem_cons_self _ _)
        · rcases ih _ c h1 with h2 | h2
          · exact Or.inl (List.mem_cons_of_mem _ h2)
          · exact Or.inr h2

theorem replaceAllGo_ne_nil {p r : List Char} (hr : r ≠ []) :
    ∀ (n : Nat) (t : List Char), replaceAllGo p r n t = [] → t = [] := by
  intro n t h
  cases t with
  | nil => rfl
  | cons d rest =>
    cases n with
    | zero => exact absurd h (List.cons_ne_nil d rest)
    | succ m =>
      rw [replaceAllGo_cons] at h
      by_cases hcond : (!p.isEmpty && p.isPrefixOf (d :: rest)) = true
      · rw [if_pos hcond] at h
        rw [List.append_eq_nil] at h
        exact absurd h.1 hr
      · rw [if_neg hcond] at h
        exact absurd h (List.cons_ne_nil _ _)

theorem replaceAllGo_head {p r : List Char} (hr : r ≠ []) :
    ∀ (n : Nat) (t : List Char) (c : Char),
      (replaceAllGo p r n t).head? = some c →
      r.head? = some c ∨ t.head? = some c := by
  intro n t c h
  cases t with
  | nil =>
    cases n with
    | zero => cases h
    | succ m => cases h
  | cons d rest =>
    cases n with
    | zero => exact Or.inr h
    | succ m =>
      rw [replaceAllGo_cons] at h
      by_cases hcond : (!p.isEmpty && p.isPrefixOf (d :: rest)) = true
      · rw [if_pos hcond] at h
        left
        cases r with
        | nil => exact absurd rfl hr
        | cons e re => exact h
      · rw [if_neg hcond] at h
        exact Or.inr h

theorem replaceAllGo_last {p r : List Char} (hr : r ≠ []) :
    ∀ (n : Nat) (t : List Char) (c : Char),
      (replaceAllGo p r n t).getLast? = some c →
      r.getLast? = some c ∨ t.getLast? = some c := by
  intro n
  induction n with
  | zero =>
    intro t c h
    cases t with
    | nil => cases h
    | cons d rest => exact Or.inr h
  | succ m ih =>
    intro t c h
    cases t with
    | nil => cases h
    | cons d rest =>
      rw [replaceAllGo_cons] at h
      by_cases hcond : (!p.isEmpty && p.isPrefixOf (d :: rest)) = true
      · rw [if_pos hcond] at h
        cases hX : replaceAllGo p r m (rest.drop (p.length - 1)) with
        | nil =>
          rw [hX, List.append_nil] at h
          exact Or.inl h
        | cons e u =>
          rw [hX, List.getLast?_append_of_ne_nil _ (List.cons_ne_nil e u),
            ← hX] at h
          rcases ih _ c h with h1 | h1
          · exact Or.inl h1
          · right
            have hdr : rest.drop (p.length - 1) ≠ [] := by
              intro h0
              rw [h0] at h1
              cases h1
            have h2 : rest.getLast? = (rest.drop (p.length - 1)).getLast? :=
              suffix_getLast? (List.drop_suffix _ _) hdr
            have hrne : rest ≠ [] := by
              intro h0
              subst h0
              simp at hdr
            rw [getLast?_cons_of_ne_nil hrne, h2]
            exact h1
      · rw [if_neg hcond] at h
        cases hX : replaceAllGo p r m rest with
        | nil =>
          have hrest : rest = [] := replaceAllGo_ne_nil hr m rest hX
          subst hrest
          rw [hX] at h
          exact Or.inr h
        | cons e u =>
          rw [hX, List.getLast?_cons_cons, ← hX] at h
          rcases ih rest c h with h1 | h1
          · exact Or.inl h1
          · right
            have hrne : rest ≠ [] := by
              intro h0
              rw [h0] at h1
              cases h1
            rw [getLast?_cons_of_ne_nil hrne]
            exact h1

theorem suffix_replaceAllGo (p r : List Char) :
    ∀ (n : Nat) (t T : List Char), t.length ≤ n →
      T <:+ replaceAllGo p r n t →
      ∃ s n2 t2, s <:+ r ∧ t2 <:+ t ∧ t2.length ≤ n2 ∧
        T = s ++ replaceAllGo p r n2 t2 := by
  intro n
  induction n with
  | zero =>
    intro t T hlen h
    have ht : t = [] := List.length_eq_zero.mp (Nat.le_zero.mp hlen)
    subst ht
    have hT : T = [] := List.suffix_nil.mp h
    subst hT
    exact ⟨[], 0, [], List.nil_suffix, List.nil_suffix, Nat.le_refl 0, rfl⟩
  | succ m ih =>
    intro t T hlen h
    cases t with
    | nil =>
      have hT : T = [] := List.suffix_nil.mp h
      subst hT
      exact ⟨[], 0, [], List.nil_suffix, List.nil_suffix, Nat.le_refl 0, rfl⟩
    | cons d rest =>
      have hlr : rest.length ≤ m := by
        simp only [List.length_cons] at hlen
        omega
      by_cases hcond : (!p.isEmpty && p.isPrefixOf (d :: rest)) = true
      · rw [replaceAllGo_cons, if_pos hcond] at h
        rcases sfx_append_cases h with h1 | ⟨s, hs, hT⟩
        · have hdl : (rest.drop (p.length - 1)).length ≤ m := by
            have := List.length_drop (p.length - 1) rest
            omega
          rcases ih _ T hdl h1 with ⟨s, n2, t2, hs, ht2, hn2, hT⟩
          exact ⟨s, n2, t2, hs,
            (ht2.trans (List.drop_suffix _ _)).trans (List.suffix_cons d rest),
            hn2, hT⟩
        · refine ⟨s, m, rest.drop (p.length - 1), hs,
            (List.drop_suffix _ _).trans (List.suffix_cons d rest), ?_, hT⟩
          have := List.length_drop (p.length - 1) rest
          omega
      · rw [replaceAllGo_cons, if_neg hcond] at h
        rcases List.suffix_cons_iff.mp h with h1 | h1
        · refine ⟨[], m + 1, d :: rest, List.nil_suffix, List.suffix_refl _,
            hlen, ?_⟩
          rw [h1, replaceAllGo_cons, if_neg hcond]
          rfl
        · rcases ih rest T hlr h1 with ⟨s, n2, t2, hs, ht2, hn2, hT⟩
          exact ⟨s, n2, t2, hs, ht2.trans (List.suffix_cons d rest), hn2, hT⟩

theorem pre_replaceAllGo_core {p r q : List Char}
    (hC3 : ∀ s ∈ q.tails, s = [] ∨ ¬ s <+: r)
    (hC4 : ∃ ch ∈ r, ch ∉ q) :
    ∀ (n : Nat) (t q2 : List Char), q2 <:+ q →
      q2 <+: replaceAllGo p r n t → q2 <+: t := by
  intro n
  induction n with
  | zero =>
    intro t q2 _ h
    cases t with
    | nil =>
      have : q2 = [] := List.prefix_nil.mp h
      rw [this]
    | cons d rest => exact h
  | succ m ih =>
    intro t q2 hq2 h
    cases t with
    | nil =>
      have : q2 = [] := List.prefix_nil.mp h
      rw [this]
    | cons d rest =>
      by_cases hcond : (!p.isEmpty && p.isPrefixOf (d :: rest)) = true
      · rw [replaceAllGo_cons, if_pos hcond] at h
        rcases pre_append_cases h with h1 | ⟨q3, hq3, h2⟩
        · rcases hC3 q2 ((List.mem_tails _ _).mpr hq2) with h0 | h0
          · rw [h0]
            exact List.nil_prefix
          · exact absurd h1 h0
        · exfalso
          obtain ⟨ch, hch, hnch⟩ := hC4
          apply hnch
          have hm : ch ∈ q2 := by
            rw [hq3]
            exact List.mem_append.mpr (Or.inl hch)
          exact hq2.subset hm
      · rw [replaceAllGo_cons, if_neg hcond] at h
        cases q2 with
        | nil => exact List.nil_prefix
        | cons y q3 =>
          obtain ⟨hyd, h3⟩ := List.cons_prefix_cons.mp h
          subst hyd
          have hq3 : q3 <:+ q := by
            obtain ⟨w, hw⟩ := hq2
            refine ⟨w ++ [y], ?_⟩
            rw [List.append_assoc]
            exact hw
          exact List.cons_prefix_cons.mpr ⟨rfl, ih rest q3 hq3 h3⟩

theorem replaceAll_keeps_absent (p r q t : List Char) (hqne : q ≠ [])
    (hq : ¬ q <:+: t)
    (hC1 : ¬ q <:+: r)
    (hC2 : ∀ s ∈ r.tails, s = [] ∨ ¬ s <+: q)
    (hC3 : ∀ s ∈ q.tails, s = [] ∨ ¬ s <+: r)
    (hC4 : ∃ ch ∈ r, ch ∉ q) :
    ¬ q <:+: replaceAll p r t := by
  intro hinf
  obtain ⟨T, hpre, hsuf⟩ := List.infix_iff_prefix_suffix.mp hinf
  obtain ⟨s, n2, t2, hs, ht2, -, hT⟩ :=
    suffix_replaceAllGo p r t.length t T (Nat.le_refl _) hsuf
  rw [hT] at hpre
  rcases pre_append_cases hpre with h1 | ⟨q2, hq2, h2⟩
  · exact hC1 (List.infix_iff_prefix_suffix.mpr ⟨s, h1, hs⟩)
  · rcases hC2 s ((List.mem_tails _ _).mpr hs) with h0 | h0
    · subst h0
      have hqq : q = q2 := by simpa using hq2
      subst hqq
      have hcore := pre_replaceAllGo_core hC3 hC4 n2 t2 q (List.suffix_refl q) h2
      exact hq (hcore.isInfix.trans ht2.isInfix)
    · exact h0 ⟨q2, hq2.symm⟩

theorem replaceAll_removes (p r : List Char) (hpne : p ≠ [])
    (hC1 : ¬ p <:+: r)
    (hC2 : ∀ s ∈ r.tails, s = [] ∨ ¬ s <+: p)
    (hC3 : ∀ s ∈ p.tails, s = [] ∨ ¬ s <+: r)
    (hC4 : ∃ ch ∈ r, ch ∉ p) :
    ∀ t, ¬ p <:+: replaceAll p r t := by
  have hcore : ∀ (n : Nat) (t : List Char), t.length ≤ n →
      ¬ p <+: replaceAllGo p r n t := by
    intro n
    induction n with
    | zero =>
      intro t hlen h
      have ht : t = [] := List.length_eq_zero.mp (Nat.le_zero.mp hlen)
      subst ht
      exact hpne (List.prefix_nil.mp h)
    | succ m ih =>
      intro t hlen h
      cases t with
      | nil => exact hpne (List.prefix_nil.mp h)
      | cons d rest =>
        have hlr : rest.length ≤ m := by
          simp only [List.length_cons] at hlen
          omega
        by_cases hcond : (!p.isEmpty && p.isPrefixOf (d :: rest)) = true
        · rw [replaceAllGo_cons, if_pos hcond] at h
          rcases pre_append_cases h with h1 | ⟨q3, hq3, h2⟩
          · rcases hC3 p ((List.mem_tails _ _).mpr (List.suffix_refl p)) with h0 | h0
            · exact hpne h0
            · exact h0 h1
          · obtain ⟨ch, hch, hnch⟩ := hC4
            apply hnch
            rw [hq3]
            exact List.mem_append.mpr (Or.inl hch)
        · rw [replaceAllGo_cons, if_neg hcond] at h
          cases hp : p with
          | nil => exact hpne hp
          | cons y p2 =>
            rw [hp] at h
            obtain ⟨hyd, h3⟩ := List.cons_prefix_cons.mp h
            subst hyd
            have hp2 : p2 <:+ p := by
              rw [hp]
              exact ⟨[y], rfl⟩
            have h4 : p2 <+: rest := pre_replaceAllGo_core hC3 hC4 m rest p2 hp2 h3
            apply hcond
            rw [Bool.and_eq_true]
            constructor
            · rw [hp]
              rfl
            · rw [List.isPrefixOf_iff_prefix, hp]
              exact List.cons_prefix_cons.mpr ⟨rfl, h4⟩
  intro t hinf
  obtain ⟨T, hpre, hsuf⟩ := List.infix_iff_prefix_suffix.mp hinf
  obtain ⟨s, n2, t2, hs, ht2, hn2, hT⟩ :=
    suffix_replaceAllGo p r t.length t T (Nat.le_refl _) hsuf
  rw [hT] at hpre
  rcases pre_append_cases hpre with h1 | ⟨q2, hq2, h2⟩
  · exact hC1 (List.infix_iff_prefix_suffix.mpr ⟨s, h1, hs⟩)
  · rcases hC2 s ((List.mem_tails _ _).mpr hs) with h0 | h0
    · subst h0
      have hqq : p = q2 := by simpa using hq2
      subst hqq
      exact hcore n2 t2 hn2 h2
    · exact h0 ⟨q2, hq2.symm⟩

/- ===== collapseHy (hyphen-run collapsing) lemmas ===== -/

theorem collapseAux_cons (b : Bool) (d : Char) (t : List Char) :
    collapseAux b (d :: t) =
      if d = '-' then
        (if b = true then collapseAux true t else '-' :: collapseAux true t)
      else d :: collapseAux false t := by
  simp only [collapseAux]

theorem collapseAux_chars (b : Bool) (z : List Char) :
    ∀ c ∈ collapseAux b z, c ∈ z ∨ c = '-' := by
  induction z generalizing b with
  | nil =>
    intro c hc
    cases hc
  | cons d t ih =>
    intro c hc
    rw [collapseAux_cons] at hc
    by_cases hd : d = '-'
    · rw [if_pos hd] at hc
      cases b with
      | true =>
        rw [if_pos rfl] at hc
        rcases ih true c hc with h1 | h1
        · exact Or.inl (List.mem_cons_of_mem _ h1)
        · exact Or.inr h1
      | false =>
        rw [if_neg Bool.false_ne_true] at hc
        rcases List.mem_cons.mp hc with rfl | hc2
        · exact Or.inr rfl
        · rcases ih true c hc2 with h1 | h1
          · exact Or.inl (List.mem_cons_of_mem _ h1)
          · exact Or.inr h1
    · rw [if_neg hd] at hc
      rcases List.mem_cons.mp hc with rfl | hc2
      · exact Or.inl (List.mem_cons_self _ _)
      · rcases ih false c hc2 with h1 | h1
        · exact Or.inl (List.mem_cons_of_mem _ h1)
        · exact Or.inr h1

theorem collapseAux_true_head {z : List Char} {c : Char} :
    (collapseAux true z).head? = some c → c ≠ '-' := by
  induction z with
  | nil =>
    intro h
    cases h
  | cons d t ih =>
    intro h
    rw [collapseAux_cons] at h
    by_cases hd : d = '-'
    · rw [if_pos hd, if_pos rfl] at h
      exact ih h
    · rw [if_neg hd] at h
      injection h with h2
      rw [← h2]
      exact hd

theorem collapseAux_false_nil {z : List Char}
    (h : collapseAux false z = []) : z = [] := by
  cases z with
  | nil => rfl
  | cons d t =>
    rw [collapseAux_cons] at h
    by_cases hd : d = '-'
    · rw [if_pos hd, if_neg Bool.false_ne_true] at h
      cases h
    · rw [if_neg hd] at h
      cases h

theorem collapseAux_head {z : List Char} {c : Char}
    (h : (collapseAux false z).head? = some c) :
    c = '-' ∨ z.head? = some c := by
  cases z with
  | nil => cases h
  | cons d t =>
    rw [collapseAux_cons] at h
    by_cases hd : d = '-'
    · rw [if_pos hd, if_neg Bool.false_ne_true] at h
      injection h with h2
      exact Or.inl h2.symm
    · rw [if_neg hd] at h
      exact Or.inr h

theorem collapseAux_last {z : List Char} {c : Char} :
    ∀ b, (collapseAux b z).getLast? = some c → c = '-' ∨ z.getLast? = some c := by
  induction z with
  | nil =>
    intro b h
    cases h
  | cons d t ih =>
    intro b h
    rw [collapseAux_cons] at h
    by_cases hd : d = '-'
    · rw [if_pos hd] at h
      cases b with
      | true =>
        rw [if_pos rfl] at h
        rcases ih true h with h1 | h1
        · exact Or.inl h1
        · right
          have ht : t ≠ [] := by
            intro h0
            rw [h0] at h1
            cases h1
          rw [getLast?_cons_of_ne_nil ht]
          exact h1
      | false =>
        rw [if_neg Bool.false_ne_true] at h
        cases hst : collapseAux true t with
        | nil =>
          rw [hst] at h
          have h2 : (['-'] : List Char).getLast? = some '-' := rfl
          rw [h2] at h
          injection h with h3
          exact Or.inl h3.symm
        | cons e u =>
          rw [hst, List.getLast?_cons_cons, ← hst] at h
          rcases ih true h with h1 | h1
          · exact Or.inl h1
          · right
            have ht : t ≠ [] := by
              intro h0
              rw [h0] at h1
              cases h1
            rw [getLast?_cons_of_ne_nil ht]
            exact h1
    · rw [if_neg hd] at h
      cases hst : collapseAux false t with
      | nil =>
        have ht : t = [] := collapseAux_false_nil hst
        subst ht
        rw [hst] at h
        exact Or.inr h
      | cons e u =>
        rw [hst, List.getLast?_cons_cons, ← hst] at h
        rcases ih false h with h1 | h1
        · exact Or.inl h1
        · right
          have ht : t ≠ [] := by
            intro h0
            rw [h0] at h1
            cases h1
          rw [getLast?_cons_of_ne_nil ht]
          exact h1

theorem collapseAux_noDD (b : Bool) (z : List Char) :
    ¬ ['-', '-'] <:+: collapseAux b z := by
  induction z generalizing b with
  | nil =>
    intro h
    have := List.eq_nil_of_infix_nil h
    cases this
  | cons d t ih =>
    intro h
    rw [collapseAux_cons] at h
    by_cases hd : d = '-'
    · rw [if_pos hd] at h
      cases b with
      | true =>
        rw [if_pos rfl] at h
        exact ih true h
      | false =>
        rw [if_neg Bool.false_ne_true] at h
        rcases List.infix_cons_iff.mp h with h1 | h1
        · obtain ⟨-, h2⟩ := List.cons_prefix_cons.mp h1
          cases hct : (collapseAux true t).head? with
          | none =>
            have : collapseAux true t = [] := by
              cases hc2 : collapseAux true t
              · rfl
              · rw [hc2] at hct
                cases hct
            rw [this] at h2
            have := List.prefix_nil.mp h2
            cases this
          | some e =>
            have hne : e ≠ '-' := collapseAux_true_head hct
            apply hne
            cases hc2 : collapseAux true t with
            | nil =>
              rw [hc2] at hct
              cases hct
            | cons e2 u =>
              rw [hc2] at h2 hct
              injection hct with hct
              obtain ⟨h3, -⟩ := List.cons_prefix_cons.mp h2
              rw [← hct, ← h3]
        · exact ih true h1
    · rw [if_neg hd] at h
      rcases List.infix_cons_iff.mp h with h1 | h1
      · obtain ⟨h2, -⟩ := List.cons_prefix_cons.mp h1
        exact hd h2.symm
      · exact ih false h1

theorem collapseAux_eq_self {z : List Char} (h : ¬ ['-', '-'] <:+: z) :
    collapseAux false z = z ∧
      (z.head? ≠ some '-' → collapseAux true z = z) := by
  induction z with
  | nil => exact ⟨rfl, fun _ => rfl⟩
  | cons d t ih =>
    have hrest : ¬ ['-', '-'] <:+: t :=
      fun hi => h (List.infix_cons_iff.mpr (Or.inr hi))
    obtain ⟨ihf, iht⟩ := ih hrest
    constructor
    · rw [collapseAux_cons]
      by_cases hd : d = '-'
      · rw [if_pos hd, if_neg Bool.false_ne_true]
        have hth : t.head? ≠ some '-' := by
          intro hth
          apply h
          cases t with
          | nil => cases hth
          | cons e u =>
            injection hth with he
            subst he
            subst hd
            exact List.infix_cons_iff.mpr (Or.inl ⟨u, rfl⟩)
        rw [iht hth, hd]
      · rw [if_neg hd, ihf]
    · intro hdh
      rw [collapseAux_cons]
      have hd : ¬ d = '-' := fun he => hdh (by rw [he]; rfl)
      rw [if_neg hd, ihf]

theorem collapseHy_idem (z : List Char) :
    collapseHy (collapseHy z) = collapseHy z :=
  (collapseAux_eq_self (collapseAux_noDD false z)).1

theorem pre_collapseAux_false :
    ∀ (z q : List Char), '-' ∉ q → q <+: collapseAux false z → q <+: z := by
  intro z
  induction z with
  | nil =>
    intro q hq h
    exact h
  | cons d t ih =>
    intro q hq h
    rw [collapseAux_cons] at h
    by_cases hd : d = '-'
    · rw [if_pos hd, if_neg Bool.false_ne_true] at h
      cases q with
      | nil => exact List.nil_prefix
      | cons y q2 =>
        obtain ⟨hy, -⟩ := List.cons_prefix_cons.mp h
        exact absurd (hy ▸ List.mem_cons_self y q2) hq
    · rw [if_neg hd] at h
      cases q with
      | nil => exact List.nil_prefix
      | cons y q2 =>
        obtain ⟨hy, h2⟩ := List.cons_prefix_cons.mp h
        subst hy
        have hq2 : '-' ∉ q2 := fun hm => hq (List.mem_cons_of_mem _ hm)
        exact List.cons_prefix_cons.mpr ⟨rfl, ih q2 hq2 h2⟩

theorem pre_collapseAux_true :
    ∀ (z q : List Char), '-' ∉ q → q ≠ [] → q <+: collapseAux true z →
      q <:+: z := by
  intro z
  induction z with
  | nil =>
    intro q hq hne h
    exact absurd (List.prefix_nil.mp h) hne
  | cons d t ih =>
    intro q hq hne h
    rw [collapseAux_cons] at h
    by_cases hd : d = '-'
    · rw [if_pos hd, if_pos rfl] at h
      exact List.infix_cons_iff.mpr (Or.inr (ih q hq hne h))
    · rw [if_neg hd] at h
      cases q with
      | nil => exact absurd rfl hne
      | cons y q2 =>
        obtain ⟨hy, h2⟩ := List.cons_prefix_cons.mp h
        subst hy
        have hq2 : '-' ∉ q2 := fun hm => hq (List.mem_cons_of_mem _ hm)
        have h3 : q2 <+: t := pre_collapseAux_false t q2 hq2 h2
        exact (List.cons_prefix_cons.mpr ⟨rfl, h3⟩).isInfix

theorem suffix_collapseAux :
    ∀ (z : List Char) (b : Bool) (T : List Char), T <:+ collapseAux b z →
      ∃ b2 z2, z2 <:+ z ∧ T = collapseAux b2 z2 := by
  intro z
  induction z with
  | nil =>
    intro b T h
    have hT : T = [] := List.suffix_nil.mp h
    exact ⟨b, [], List.suffix_refl _, by rw [hT]; rfl⟩
  | cons d t ih =>
    intro b T h
    rw [collapseAux_cons] at h
    by_cases hd : d = '-'
    · rw [if_pos hd] at h
      cases b with
      | true =>
        rw [if_pos rfl] at h
        obtain ⟨b2, z2, hz, hT⟩ := ih true T h
        exact ⟨b2, z2, hz.trans (List.suffix_cons d t), hT⟩
      | false =>
        rw [if_neg Bool.false_ne_true] at h
        rcases List.suffix_cons_iff.mp h with h1 | h1
        · refine ⟨false, d :: t, List.suffix_refl _, ?_⟩
          rw [h1, collapseAux_cons, if_pos hd, if_neg Bool.false_ne_true]
        · obtain ⟨b2, z2, hz, hT⟩ := ih true T h1
          exact ⟨b2, z2, hz.trans (List.suffix_cons d t), hT⟩
    · rw [if_neg hd] at h
      rcases List.suffix_cons_iff.mp h with h1 | h1
      · refine ⟨false, d :: t, List.suffix_refl _, ?_⟩
        rw [h1, collapseAux_cons, if_neg hd]
      · obtain ⟨b2, z2, hz, hT⟩ := ih false T h1
        exact ⟨b2, z2, hz.trans (List.suffix_cons d t), hT⟩

theorem collapse_keeps_absent {q : List Char} (hq : '-' ∉ q) (hne : q ≠ [])
    {z : List Char} (h : ¬ q <:+: z) : ¬ q <:+: collapseHy z := by
  intro hinf
  obtain ⟨T, hpre, hsuf⟩ := List.infix_iff_prefix_suffix.mp hinf
  obtain ⟨b2, z2, hz, hT⟩ := suffix_collapseAux z false T hsuf
  rw [hT] at hpre
  cases b2 with
  | false =>
    have h2 := pre_collapseAux_false z2 q hq hpre
    exact h (h2.isInfix.trans hz.isInfix)
  | true =>
    have h2 := pre_collapseAux_true z2 q hq hne hpre
    exact h (h2.trans hz.isInfix)

/- ===== The kebab-repair chain: unrolled form and pattern absence ===== -/

theorem applyChain_eq (s : List Char) :
    applyChain s = replaceAll "REQUESTWHENEVER".data "REQUEST-WHENEVER".data (replaceAll "REQUESTWHEN".data "REQUEST-WHEN".data (replaceAll "QUERYREF".data "QUERY-REF".data (replaceAll "QUERYIF".data "QUERY-IF".data (replaceAll "INFORMREF".data "INFORM-REF".data (replaceAll "INFORMIF".data "INFORM-IF".data (replaceAll "REJECTPROPOSAL".data "REJECT-PROPOSAL".data (replaceAll "ACCEPTPROPOSAL".data "ACCEPT-PROPOSAL".data (s)))))))) := by
  simp only [applyChain, replaceChain, List.foldl_cons, List.foldl_nil]

theorem replaceAll_chars {p r t : List Char} {c : Char}
    (h : c ∈ replaceAll p r t) : c ∈ t ∨ c ∈ r :=
  replaceAllGo_chars t.length t c h

theorem replaceAll_head {p r t : List Char} {c : Char} (hr : r ≠ [])
    (h : (replaceAll p r t).head? = some c) :
    r.head? = some c ∨ t.head? = some c :=
  replaceAllGo_head hr t.length t c h

theorem replaceAll_last {p r t : List Char} {c : Char} (hr : r ≠ [])
    (h : (replaceAll p r t).getLast? = some c) :
    r.getLast? = some c ∨ t.getLast? = some c :=
  replaceAllGo_last hr t.length t c h

theorem chain_absent (s : List Char) :
    ∀ pr ∈ replaceChain, ¬ pr.1.data <:+: applyChain s := by
  intro pr hpr
  rw [applyChain_eq]
  have h1_1 : ¬ "ACCEPTPROPOSAL".data <:+: replaceAll "ACCEPTPROPOSAL".data "ACCEPT-PROPOSAL".data (s) :=
    replaceAll_removes "ACCEPTPROPOSAL".data "ACCEPT-PROPOSAL".data (by decide) (by decide)
      (by decide) (by decide) (by decide) (s)
  have h1_2 : ¬ "ACCEPTPROPOSAL".data <:+: replaceAll "REJECTPROPOSAL".data "REJECT-PROPOSAL".data (replaceAll "ACCEPTPROPOSAL".data "ACCEPT-PROPOSAL".data (s)) :=
    replaceAll_keeps_absent "REJECTPROPOSAL".data "REJECT-PROPOSAL".data "ACCEPTPROPOSAL".data
      (replaceAll "ACCEPTPROPOSAL".data "ACCEPT-PROPOSAL".data (s)) (by decide) h1_1
      (by decide) (by decide) (by decide) (by decide)
  have h1_3 : ¬ "ACCEPTPROPOSAL".data <:+: replaceAll "INFORMIF".data "INFORM-IF".data (replaceAll "REJECTPROPOSAL".data "REJECT-PROPOSAL".data (replaceAll "ACCEPTPROPOSAL".data "ACCEPT-PROPOSAL".data (s))) :=
    replaceAll_keeps_absent "INFORMIF".data "INFORM-IF".data "ACCEPTPROPOSAL".data
      (replaceAll "REJECTPROPOSAL".data "REJECT-PROPOSAL".data (replaceAll "ACCEPTPROPOSAL".data "ACCEPT-PROPOSAL".data (s))) (by decide) h1_2
      (by decide) (by decide) (by decide) (by decide)
  have h1_4 : ¬ "ACCEPTPROPOSAL".data <:+: replaceAll "INFORMREF".data "INFORM-REF".data (replaceAll "INFORMIF".data "INFORM-IF".data (replaceAll "REJECTPROPOSAL".data "REJECT-PROPOSAL".data (replaceAll "ACCEPTPROPOSAL".data "ACCEPT-PROPOSAL".data (s)))) :=
    replaceAll_keeps_absent "INFORMREF".data "INFORM-REF".data "ACCEPTPROPOSAL".data
      (replaceAll "INFORMIF".data "INFORM-IF".data (replaceAll "REJECTPROPOSAL".data "REJECT-PROPOSAL".data (replaceAll "ACCEPTPROPOSAL".data "ACCEPT-PROPOSAL".data (s)))) (by decide) h1_3
      (by decide) (by decide) (by decide) (by decide)
  have h1_5 : ¬ "ACCEPTPROPOSAL".data <:+: replaceAll "QUERYIF".data "QUERY-IF".data (replaceAll "INFORMREF".data "INFORM-REF".data (replaceAll "INFORMIF".data "INFORM-IF".data (replaceAll "REJECTPROPOSAL".data "REJECT-PROPOSAL".data (replaceAll "ACCEPTPROPOSAL".data "ACCEPT-PROPOSAL".data (s))))) :=
    replaceAll_keeps_absent "QUERYIF".data "QUERY-IF".data "ACCEPTPROPOSAL".data
      (replaceAll "INFORMREF".data "INFORM-REF".data (replaceAll "INFORMIF".data "INFORM-IF".data (replaceAll "REJECTPROPOSAL".data "REJECT-PROPOSAL".data (replaceAll "ACCEPTPROPOSAL".data "ACCEPT-PROPOSAL".data (s))))) (by decide) h1_4
      (by decide) (by decide) (by decide) (by decide)
  have h1_6 : ¬ "ACCEPTPROPOSAL".data <:+: replaceAll "QUERYREF".data "QUERY-REF".data (replaceAll "QUERYIF".data "QUERY-IF".data (replaceAll "INFORMREF".data "INFORM-REF".data (replaceAll "INFORMIF".data "INFORM-IF".data (replaceAll "REJECTPROPOSAL".data "REJECT-PROPOSAL".data (replaceAll "ACCEPTPROPOSAL".data "ACCEPT-PROPOSAL".data (s)))))) :=
    replaceAll_keeps_absent "QUERYREF".data "QUERY-REF".data "ACCEPTPROPOSAL".data
      (replaceAll "QUERYIF".data "QUERY-IF".data (replaceAll "INFORMREF".data "INFORM-REF".data (replaceAll "INFORMIF".data "INFORM-IF".data (replaceAll "REJECTPROPOSAL".data "REJECT-PROPOSAL".data (replaceAll "ACCEPTPROPOSAL".data "ACCEPT-PROPOSAL".data (s)))))) (by decide) h1_5
      (by decide) (by decide) (by decide) (by decide)
  have h1_7 : ¬ "ACCEPTPROPOSAL".data <:+: replaceAll "REQUESTWHEN".data "REQUEST-WHEN".data (replaceAll "QUERYREF".data "QUERY-REF".data (replaceAll "QUERYIF".data "QUERY-IF".data (replaceAll "INFORMREF".data "INFORM-REF".data (replaceAll "INFORMIF".data "INFORM-IF".data (replaceAll "REJECTPROPOSAL".data "REJECT-PROPOSAL".data (replaceAll "ACCEPTPROPOSAL".data "ACCEPT-PROPOSAL".data (s))))))) :=
    replaceAll_keeps_absent "REQUESTWHEN".data "REQUEST-WHEN".data "ACCEPTPROPOSAL".data
      (replaceAll "QUERYREF".data "QUERY-REF".data (replaceAll "QUERYIF".data "QUERY-IF".data (replaceAll "INFORMREF".data "INFORM-REF".data (replaceAll "INFORMIF".data "INFORM-IF".data (replaceAll "REJECTPROPOSAL".data "REJECT-PROPOSAL".data (replaceAll "ACCEPTPROPOSAL".data "ACCEPT-PROPOSAL".data (s))))))) (by decide) h1_6
      (by decide) (by decide) (by decide) (by decide)
  have h2_2 : ¬ "REJECTPROPOSAL".data <:+: replaceAll "REJECTPROPOSAL".data "REJECT-PROPOSAL".data (replaceAll "ACCEPTPROPOSAL".data "ACCEPT-PROPOSAL".data (s)) :=
    replaceAll_removes "REJECTPROPOSAL".data "REJECT-PROPOSAL".data (by decide) (by decide)
      (by decide) (by decide) (by decide) (replaceAll "ACCEPTPROPOSAL".data "ACCEPT-PROPOSAL".data (s))
  have h2_3 : ¬ "REJECTPROPOSAL".data <:+: replaceAll "INFORMIF".data "INFORM-IF".data (replaceAll "REJECTPROPOSAL".data "REJECT-PROPOSAL".data (replaceAll "ACCEPTPROPOSAL".data "ACCEPT-PROPOSAL".data (s))) :=
    replaceAll_keeps_absent "INFORMIF".data "INFORM-IF".data "REJECTPROPOSAL".data
      (replaceAll "REJECTPROPOSAL".data "REJECT-PROPOSAL".data (replaceAll "ACCEPTPROPOSAL".data "ACCEPT-PROPOSAL".data (s))) (by decide) h2_2
      (by decide) (by decide) (by decide) (by decide)
  have h2_4 : ¬ "REJECTPROPOSAL".data <:+: replaceAll "INFORMREF".data "INFORM-REF".data (replaceAll "INFORMIF".data "INFORM-IF".data (replaceAll "REJECTPROPOSAL".data "REJECT-PROPOSAL".data (replaceAll "ACCEPTPROPOSAL".data "ACCEPT-PROPOSAL".data (s)))) :=
    replaceAll_keeps_absent "INFORMREF".data "INFORM-REF".data "REJECTPROPOSAL".data
      (replaceAll "INFORMIF".data "INFORM-IF".data (replaceAll "REJECTPROPOSAL".data "REJECT-PROPOSAL".data (replaceAll "ACCEPTPROPOSAL".data "ACCEPT-PROPOSAL".data (s)))) (by decide) h2_3
      (by decide) (by decide) (by decide) (by decide)
  have h2_5 : ¬ "REJECTPROPOSAL".data <:+: replaceAll "QUERYIF".data "QUERY-IF".data (replaceAll "INFORMREF".data "INFORM-REF".data (replaceAll "INFORMIF".data "INFORM-IF".data (replaceAll "REJECTPROPOSAL".data "REJECT-PROPOSAL".data (replaceAll "ACCEPTPROPOSAL".data "ACCEPT-PROPOSAL".data (s))))) :=
    replaceAll_keeps_absent "QUERYIF".data "QUERY-IF".data "REJECTPROPOSAL".data
      (replaceAll "INFORMREF".data "INFORM-REF".data (replaceAll "INFORMIF".data "INFORM-IF".data (replaceAll "REJECTPROPOSAL".data "REJECT-PROPOSAL".data (replaceAll "ACCEPTPROPOSAL".data "ACCEPT-PROPOSAL".data (s))))) (by decide) h2_4
      (by decide) (by decide) (by decide) (by decide)
  have h2_6 : ¬ "REJECTPROPOSAL".data <:+: replaceAll "QUERYREF".data "QUERY-REF".data (replaceAll "QUERYIF".data "QUERY-IF".data (replaceAll "INFORMREF".data "INFORM-REF".data (replaceAll "INFORMIF".data "INFORM-IF".data (replaceAll "REJECTPROPOSAL".data "REJECT-PROPOSAL".data (replaceAll "ACCEPTPROPOSAL".data "ACCEPT-PROPOSAL".data (s)))))) :=
    replaceAll_keeps_absent "QUERYREF".data "QUERY-REF".data "REJECTPROPOSAL".data
      (replaceAll "QUERYIF".data "QUERY-IF".data (replaceAll "INFORMREF".data "INFORM-REF".data (replaceAll "INFORMIF".data "INFORM-IF".data (replaceAll "REJECTPROPOSAL".data "REJECT-PROPOSAL".data (replaceAll "ACCEPTPROPOSAL".data "ACCEPT-PROPOSAL".data (s)))))) (by decide) h2_5
      (by decide) (by decide) (by decide) (by decide)
  have h2_7 : ¬ "REJECTPROPOSAL".data <:+: replaceAll "REQUESTWHEN".data "REQUEST-WHEN".data (replaceAll "QUERYREF".data "QUERY-REF".data (replaceAll "QUERYIF".data "QUERY-IF".data (replaceAll "INFORMREF".data "INFORM-REF".data (replaceAll "INFORMIF".data "INFORM-IF".data (replaceAll "REJECTPROPOSAL".data "REJECT-PROPOSAL".data (replaceAll "ACCEPTPROPOSAL".data "ACCEPT-PROPOSAL".data (s))))))) :=
    replaceAll_keeps_absent "REQUESTWHEN".data "REQUEST-WHEN".data "REJECTPROPOSAL".data
      (replaceAll "QUERYREF".data "QUERY-REF".data (replaceAll "QUERYIF".data "QUERY-IF".data (replaceAll "INFORMREF".data "INFORM-REF".data (replaceAll "INFORMIF".data "INFORM-IF".data (replaceAll "REJECTPROPOSAL".data "REJECT-PROPOSAL".data (replaceAll "ACCEPTPROPOSAL".data "ACCEPT-PROPOSAL".data (s))))))) (by decide) h2_6
      (by decide) (by decide) (by decide) (by decide)
  have h3_3 : ¬ "INFORMIF".data <:+: replaceAll "INFORMIF".data "INFORM-IF".data (replaceAll "REJECTPROPOSAL".data "REJECT-PROPOSAL".data (replaceAll "ACCEPTPROPOSAL".data "ACCEPT-PROPOSAL".data (s))) :=
    replaceAll_removes "INFORMIF".data "INFORM-IF".data (by decide) (by decide)
      (by decide) (by decide) (by decide) (replaceAll "REJECTPROPOSAL".data "REJECT-PROPOSAL".data (replaceAll "ACCEPTPROPOSAL".data "ACCEPT-PROPOSAL".data (s)))
  have h3_4 : ¬ "INFORMIF".data <:+: replaceAll "INFORMREF".data "INFORM-REF".data (replaceAll "INFORMIF".data "INFORM-IF".data (replaceAll "REJECTPROPOSAL".data "REJECT-PROPOSAL".data (replaceAll "ACCEPTPROPOSAL".data "ACCEPT-PROPOSAL".data (s)))) :=
    replaceAll_keeps_absent "INFORMREF".data "INFORM-REF".data "INFORMIF".data
      (replaceAll "INFORMIF".data "INFORM-IF".data (replaceAll "REJECTPROPOSAL".data "REJECT-PROPOSAL".data (replaceAll "ACCEPTPROPOSAL".data "ACCEPT-PROPOSAL".data (s)))) (by decide) h3_3
      (by decide) (by decide) (by decide) (by decide)
  have h3_5 : ¬ "INFORMIF".data <:+: replaceAll "QUERYIF".data "QUERY-IF".data (replaceAll "INFORMREF".data "INFORM-REF".data (replaceAll "INFORMIF".data "INFORM-IF".data (replaceAll "REJECTPROPOSAL".data "REJECT-PROPOSAL".data (replaceAll "ACCEPTPROPOSAL".data "ACCEPT-PROPOSAL".data (s))))) :=
    replaceAll_keeps_absent "QUERYIF".data "QUERY-IF".data "INFORMIF".data
      (replaceAll "INFORMREF".data "INFORM-REF".data (replaceAll "INFORMIF".data "INFORM-IF".data (replaceAll "REJECTPROPOSAL".data "REJECT-PROPOSAL".data (replaceAll "ACCEPTPROPOSAL".data "ACCEPT-PROPOSAL".data (s))))) (by decide) h3_4
      (by decide) (by decide) (by decide) (by decide)
  have h3_6 : ¬ "INFORMIF".data <:+: replaceAll "QUERYREF".data "QUERY-REF".data (replaceAll "QUERYIF".data "QUERY-IF".data (replaceAll "INFORMREF".data "INFORM-REF".data (replaceAll "INFORMIF".data "INFORM-IF".data (replaceAll "REJECTPROPOSAL".data "REJECT-PROPOSAL".data (replaceAll "ACCEPTPROPOSAL".data "ACCEPT-PROPOSAL".data (s)))))) :=
    replaceAll_keeps_absent "QUERYREF".data "QUERY-REF".data "INFORMIF".data
      (replaceAll "QUERYIF".data "QUERY-IF".data (replaceAll "INFORMREF".data "INFORM-REF".data (replaceAll "INFORMIF".data "INFORM-IF".data (replaceAll "REJECTPROPOSAL".data "REJECT-PROPOSAL".data (replaceAll "ACCEPTPROPOSAL".data "ACCEPT-PROPOSAL".data (s)))))) (by decide) h3_5
      (by decide) (by decide) (by decide) (by decide)
  have h3_7 : ¬ "INFORMIF".data <:+: replaceAll "REQUESTWHEN".data "REQUEST-WHEN".data (replaceAll "QUERYREF".data "QUERY-REF".data (replaceAll "QUERYIF".data "QUERY-IF".data (replaceAll "INFORMREF".data "INFORM-REF".data (replaceAll "INFORMIF".data "INFORM-IF".data (replaceAll "REJECTPROPOSAL".data "REJECT-PROPOSAL".data (replaceAll "ACCEPTPROPOSAL".data "ACCEPT-PROPOSAL".data (s))))))) :=
    replaceAll_keeps_absent "REQUESTWHEN".data "REQUEST-WHEN".data "INFORMIF".data
      (replaceAll "QUERYREF".data "QUERY-REF".data (replaceAll "QUERYIF".data "QUERY-IF".data (replaceAll "INFORMREF".data "INFORM-REF".data (replaceAll "INFORMIF".data "INFORM-IF".data (replaceAll "REJECTPROPOSAL".data "REJECT-PROPOSAL".data (replaceAll "ACCEPTPROPOSAL".data "ACCEPT-PROPOSAL".data (s))))))) (by decide) h3_6
      (by decide) (by decide) (by decide) (by decide)
  have h4_4 : ¬ "INFORMREF".data <:+: replaceAll "INFORMREF".data "INFORM-REF".data (replaceAll "INFORMIF".data "INFORM-IF".data (replaceAll "REJECTPROPOSAL".data "REJECT-PROPOSAL".data (replaceAll "ACCEPTPROPOSAL".data "ACCEPT-PROPOSAL".data (s)))) :=
    replaceAll_removes "INFORMREF".data "INFORM-REF".data (by decide) (by decide)
      (by decide) (by decide) (by decide) (replaceAll "INFORMIF".data "INFORM-IF".data (replaceAll "REJECTPROPOSAL".data "REJECT-PROPOSAL".data (replaceAll "ACCEPTPROPOSAL".data "ACCEPT-PROPOSAL".data (s))))
  have h4_5 : ¬ "INFORMREF".data <:+: replaceAll "QUERYIF".data "QUERY-IF".data (replaceAll "INFORMREF".data "INFORM-REF".data (replaceAll "INFORMIF".data "INFORM-IF".data (replaceAll "REJECTPROPOSAL".data "REJECT-PROPOSAL".data (replaceAll "ACCEPTPROPOSAL".data "ACCEPT-PROPOSAL".data (s))))) :=
    replaceAll_keeps_absent "QUERYIF".data "QUERY-IF".data "INFORMREF".data
      (replaceAll "INFORMREF".data "INFORM-REF".data (replaceAll "INFORMIF".data "INFORM-IF".data (replaceAll "REJECTPROPOSAL".data "REJECT-PROPOSAL".data (replaceAll "ACCEPTPROPOSAL".data "ACCEPT-PROPOSAL".data (s))))) (by decide) h4_4
      (by decide) (by decide) (by decide) (by decide)
  have h4_6 : ¬ "INFORMREF".data <:+: replaceAll "QUERYREF".data "QUERY-REF".data (replaceAll "QUERYIF".data "QUERY-IF".data (replaceAll "INFORMREF".data "INFORM-REF".data (replaceAll "INFORMIF".data "INFORM-IF".data (replaceAll "REJECTPROPOSAL".data "REJECT-PROPOSAL".data (replaceAll "ACCEPTPROPOSAL".data "ACCEPT-PROPOSAL".data (s)))))) :=
    replaceAll_keeps_absent "QUERYREF".data "QUERY-REF".data "INFORMREF".data
      (replaceAll "QUERYIF".data "QUERY-IF".data (replaceAll "INFORMREF".data "INFORM-REF".data (replaceAll "INFORMIF".data "INFORM-IF".data (replaceAll "REJECTPROPOSAL".data "REJECT-PROPOSAL".data (replaceAll "ACCEPTPROPOSAL".data "ACCEPT-PROPOSAL".data (s)))))) (by decide) h4_5
      (by decide) (by decide) (by decide) (by decide)
  have h4_7 : ¬ "INFORMREF".data <:+: replaceAll "REQUESTWHEN".data "REQUEST-WHEN".data (replaceAll "QUERYREF".data "QUERY-REF".data (replaceAll "QUERYIF".data "QUERY-IF".data (replaceAll "INFORMREF".data "INFORM-REF".data (replaceAll "INFORMIF".data "INFORM-IF".data (replaceAll "REJECTPROPOSAL".data "REJECT-PROPOSAL".data (replaceAll "ACCEPTPROPOSAL".data "ACCEPT-PROPOSAL".data (s))))))) :=
    replaceAll_keeps_absent "REQUESTWHEN".data "REQUEST-WHEN".data "INFORMREF".data
      (replaceAll "QUERYREF".data "QUERY-REF".data (replaceAll "QUERYIF".data "QUERY-IF".data (replaceAll "INFORMREF".data "INFORM-REF".data (replaceAll "INFORMIF".data "INFORM-IF".data (replaceAll "REJECTPROPOSAL".data "REJECT-PROPOSAL".data (replaceAll "ACCEPTPROPOSAL".data "ACCEPT-PROPOSAL".data (s))))))) (by decide) h4_6
      (by decide) (by decide) (by decide) (by decide)
  have h5_5 : ¬ "QUERYIF".data <:+: replaceAll "QUERYIF".data "QUERY-IF".data (replaceAll "INFORMREF".data "INFORM-REF".data (replaceAll "INFORMIF".data "INFORM-IF".data (replaceAll "REJECTPROPOSAL".data "REJECT-PROPOSAL".data (replaceAll "ACCEPTPROPOSAL".data "ACCEPT-PROPOSAL".data (s))))) :=
    replaceAll_removes "QUERYIF".data "QUERY-IF".data (by decide) (by decide)
      (by decide) (by decide) (by decide) (replaceAll "INFORMREF".data "INFORM-REF".data (replaceAll "INFORMIF".data "INFORM-IF".data (replaceAll "REJECTPROPOSAL".data "REJECT-PROPOSAL".data (replaceAll "ACCEPTPROPOSAL".data "ACCEPT-PROPOSAL".data (s)))))
  have h5_6 : ¬ "QUERYIF".data <:+: replaceAll "QUERYREF".data "QUERY-REF".data (replaceAll "QUERYIF".data "QUERY-IF".data (replaceAll "INFORMREF".data "INFORM-REF".data (replaceAll "INFORMIF".data "INFORM-IF".data (replaceAll "REJECTPROPOSAL".data "REJECT-PROPOSAL".data (replaceAll "ACCEPTPROPOSAL".data "ACCEPT-PROPOSAL".data (s)))))) :=
    replaceAll_keeps_absent "QUERYREF".data "QUERY-REF".data "QUERYIF".data
      (replaceAll "QUERYIF".data "QUERY-IF".data (replaceAll "INFORMREF".data "INFORM-REF".data (replaceAll "INFORMIF".data "INFORM-IF".data (replaceAll "REJECTPROPOSAL".data "REJECT-PROPOSAL".data (replaceAll "ACCEPTPROPOSAL".data "ACCEPT-PROPOSAL".data (s)))))) (by decide) h5_5
      (by decide) (by decide) (by decide) (by decide)
  have h5_7 : ¬ "QUERYIF".data <:+: replaceAll "REQUESTWHEN".data "REQUEST-WHEN".data (replaceAll "QUERYREF".data "QUERY-REF".data (replaceAll "QUERYIF".data "QUERY-IF".data (replaceAll "INFORMREF".data "INFORM-REF".data (replaceAll "INFORMIF".data "INFORM-IF".data (replaceAll "REJECTPROPOSAL".data "REJECT-PROPOSAL".data (replaceAll "ACCEPTPROPOSAL".data "ACCEPT-PROPOSAL".data (s))))))) :=
    replaceAll_keeps_absent "REQUESTWHEN".data "REQUEST-WHEN".data "QUERYIF".data
      (replaceAll "QUERYREF".data "QUERY-REF".data (replaceAll "QUERYIF".data "QUERY-IF".data (replaceAll "INFORMREF".data "INFORM-REF".data (replaceAll "INFORMIF".data "INFORM-IF".data (replaceAll "REJECTPROPOSAL".data "REJECT-PROPOSAL".data (replaceAll "ACCEPTPROPOSAL".data "ACCEPT-PROPOSAL".data (s))))))) (by decide) h5_6
      (by decide) (by decide) (by decide) (by decide)
  have h6_6 : ¬ "QUERYREF".data <:+: replaceAll "QUERYREF".data "QUERY-REF".data (replaceAll "QUERYIF".data "QUERY-IF".data (replaceAll "INFORMREF".data "INFORM-REF".data (replaceAll "INFORMIF".data "INFORM-IF".data (replaceAll "REJECTPROPOSAL".data "REJECT-PROPOSAL".data (replaceAll "ACCEPTPROPOSAL".data "ACCEPT-PROPOSAL".data (s)))))) :=
    replaceAll_removes "QUERYREF".data "QUERY-REF".data (by decide) (by decide)
      (by decide) (by decide) (by decide) (replaceAll "QUERYIF".data "QUERY-IF".data (replaceAll "INFORMREF".data "INFORM-REF".data (replaceAll "INFORMIF".data "INFORM-IF".data (replaceAll "REJECTPROPOSAL".data "REJECT-PROPOSAL".data (replaceAll "ACCEPTPROPOSAL".data "ACCEPT-PROPOSAL".data (s))))))
  have h6_7 : ¬ "QUERYREF".data <:+: replaceAll "REQUESTWHEN".data "REQUEST-WHEN".data (replaceAll "QUERYREF".data "QUERY-REF".data (replaceAll "QUERYIF".data "QUERY-IF".data (replaceAll "INFORMREF".data "INFORM-REF".data (replaceAll "INFORMIF".data "INFORM-IF".data (replaceAll "REJECTPROPOSAL".data "REJECT-PROPOSAL".data (replaceAll "ACCEPTPROPOSAL".data "ACCEPT-PROPOSAL".data (s))))))) :=
    replaceAll_keeps_absent "REQUESTWHEN".data "REQUEST-WHEN".data "QUERYREF".data
      (replaceAll "QUERYREF".data "QUERY-REF".data (replaceAll "QUERYIF".data "QUERY-IF".data (replaceAll "INFORMREF".data "INFORM-REF".data (replaceAll "INFORMIF".data "INFORM-IF".data (replaceAll "REJECTPROPOSAL".data "REJECT-PROPOSAL".data (replaceAll "ACCEPTPROPOSAL".data "ACCEPT-PROPOSAL".data (s))))))) (by decide) h6_6
      (by decide) (by decide) (by decide) (by decide)
  have h7_7 : ¬ "REQUESTWHEN".data <:+: replaceAll "REQUESTWHEN".data "REQUEST-WHEN".data (replaceAll "QUERYREF".data "QUERY-REF".data (replaceAll "QUERYIF".data "QUERY-IF".data (replaceAll "INFORMREF".data "INFORM-REF".data (replaceAll "INFORMIF".data "INFORM-IF".data (replaceAll "REJECTPROPOSAL".data "REJECT-PROPOSAL".data (replaceAll "ACCEPTPROPOSAL".data "ACCEPT-PROPOSAL".data (s))))))) :=
    replaceAll_removes "REQUESTWHEN".data "REQUEST-WHEN".data (by decide) (by decide)
      (by decide) (by decide) (by decide) (replaceAll "QUERYREF".data "QUERY-REF".data (replaceAll "QUERYIF".data "QUERY-IF".data (replaceAll "INFORMREF".data "INFORM-REF".data (replaceAll "INFORMIF".data "INFORM-IF".data (replaceAll "REJECTPROPOSAL".data "REJECT-PROPOSAL".data (replaceAll "ACCEPTPROPOSAL".data "ACCEPT-PROPOSAL".data (s)))))))
  have h8_7 : ¬ "REQUESTWHENEVER".data <:+: replaceAll "REQUESTWHEN".data "REQUEST-WHEN".data (replaceAll "QUERYREF".data "QUERY-REF".data (replaceAll "QUERYIF".data "QUERY-IF".data (replaceAll "INFORMREF".data "INFORM-REF".data (replaceAll "INFORMIF".data "INFORM-IF".data (replaceAll "REJECTPROPOSAL".data "REJECT-PROPOSAL".data (replaceAll "ACCEPTPROPOSAL".data "ACCEPT-PROPOSAL".data (s))))))) := by
    intro hi
    exact h7_7
      (((by decide : "REQUESTWHEN".data <+: "REQUESTWHENEVER".data)).isInfix.trans hi)
  have hT8 : replaceAll "REQUESTWHENEVER".data "REQUEST-WHENEVER".data (replaceAll "REQUESTWHEN".data "REQUEST-WHEN".data (replaceAll "QUERYREF".data "QUERY-REF".data (replaceAll "QUERYIF".data "QUERY-IF".data (replaceAll "INFORMREF".data "INFORM-REF".data (replaceAll "INFORMIF".data "INFORM-IF".data (replaceAll "REJECTPROPOSAL".data "REJECT-PROPOSAL".data (replaceAll "ACCEPTPROPOSAL".data "ACCEPT-PROPOSAL".data (s)))))))) = replaceAll "REQUESTWHEN".data "REQUEST-WHEN".data (replaceAll "QUERYREF".data "QUERY-REF".data (replaceAll "QUERYIF".data "QUERY-IF".data (replaceAll "INFORMREF".data "INFORM-REF".data (replaceAll "INFORMIF".data "INFORM-IF".data (replaceAll "REJECTPROPOSAL".data "REJECT-PROPOSAL".data (replaceAll "ACCEPTPROPOSAL".data "ACCEPT-PROPOSAL".data (s))))))) :=
    replaceAll_eq_self (by decide) h8_7
  rw [hT8]
  simp only [replaceChain, List.mem_cons, List.not_mem_nil, or_false] at hpr
  rcases hpr with rfl | rfl | rfl | rfl | rfl | rfl | rfl | rfl
  · exact h1_7
  · exact h2_7
  · exact h3_7
  · exact h4_7
  · exact h5_7
  · exact h6_7
  · exact h7_7
  · exact h8_7

theorem applyChain_eq_self {z : List Char}
    (h : ∀ pr ∈ replaceChain, ¬ pr.1.data <:+: z) : applyChain z = z := by
  rw [applyChain_eq]
  rw [replaceAll_eq_self (by decide)
    (h ("ACCEPTPROPOSAL", "ACCEPT-PROPOSAL") (by decide))]
  rw [replaceAll_eq_self (by decide)
    (h ("REJECTPROPOSAL", "REJECT-PROPOSAL") (by decide))]
  rw [replaceAll_eq_self (by decide)
    (h ("INFORMIF", "INFORM-IF") (by decide))]
  rw [replaceAll_eq_self (by decide)
    (h ("INFORMREF", "INFORM-REF") (by decide))]
  rw [replaceAll_eq_self (by decide)
    (h ("QUERYIF", "QUERY-IF") (by decide))]
  rw [replaceAll_eq_self (by decide)
    (h ("QUERYREF", "QUERY-REF") (by decide))]
  rw [replaceAll_eq_self (by decide)
    (h ("REQUESTWHEN", "REQUEST-WHEN") (by decide))]
  rw [replaceAll_eq_self (by decide)
    (h ("REQUESTWHENEVER", "REQUEST-WHENEVER") (by decide))]

theorem applyChain_chars {s : List Char} {c : Char} (h : c ∈ applyChain s) :
    c ∈ s ∨ (spaceOrUnderscore c = false ∧ charUpper c = c) := by
  rw [applyChain_eq] at h
  rcases replaceAll_chars h with h | hr
  case inr =>
    right
    exact (by decide : ∀ x ∈ "REQUEST-WHENEVER".data,
      spaceOrUnderscore x = false ∧ charUpper x = x) c hr
  rcases replaceAll_chars h with h | hr
  case inr =>
    right
    exact (by decide : ∀ x ∈ "REQUEST-WHEN".data,
      spaceOrUnderscore x = false ∧ charUpper x = x) c hr
  rcases replaceAll_chars h with h | hr
  case inr =>
    right
    exact (by decide : ∀ x ∈ "QUERY-REF".data,
      spaceOrUnderscore x = false ∧ charUpper x = x) c hr
  rcases replaceAll_chars h with h | hr
  case inr =>
    right
    exact (by decide : ∀ x ∈ "QUERY-IF".data,
      spaceOrUnderscore x = false ∧ charUpper x = x) c hr
  rcases replaceAll_chars h with h | hr
  case inr =>
    right
    exact (by decide : ∀ x ∈ "INFORM-REF".data,
      spaceOrUnderscore x = false ∧ charUpper x = x) c hr
  rcases replaceAll_chars h with h | hr
  case inr =>
    right
    exact (by decide : ∀ x ∈ "INFORM-IF".data,
      spaceOrUnderscore x = false ∧ charUpper x = x) c hr
  rcases replaceAll_chars h with h | hr
  case inr =>
    right
    exact (by decide : ∀ x ∈ "REJECT-PROPOSAL".data,
      spaceOrUnderscore x = false ∧ charUpper x = x) c hr
  rcases replaceAll_chars h with h | hr
  case inr =>
    right
    exact (by decide : ∀ x ∈ "ACCEPT-PROPOSAL".data,
      spaceOrUnderscore x = false ∧ charUpper x = x) c hr
  exact Or.inl h

set_option maxHeartbeats 1600000 in
theorem applyChain_head {s : List Char} {c : Char}
    (h : (applyChain s).head? = some c) :
    pyWs c = false ∨ s.head? = some c := by
  rw [applyChain_eq] at h
  rcases replaceAll_head (by decide) h with hr | h
  case inl =>
    left
    rw [show ("REQUEST-WHENEVER".data.head? : Option Char) = some 'R' from rfl] at hr
    injection hr with hr
    rw [← hr]
    decide
  rcases replaceAll_head (by decide) h with hr | h
  case inl =>
    left
    rw [show ("REQUEST-WHEN".data.head? : Option Char) = some 'R' from rfl] at hr
    injection hr with hr
    rw [← hr]
    decide
  rcases replaceAll_head (by decide) h with hr | h
  case inl =>
    left
    rw [show ("QUERY-REF".data.head? : Option Char) = some 'Q' from rfl] at hr
    injection hr with hr
    rw [← hr]
    decide
  rcases replaceAll_head (by decide) h with hr | h
  case inl =>
    left
    rw [show ("QUERY-IF".data.head? : Option Char) = some 'Q' from rfl] at hr
    injection hr with hr
    rw [← hr]
    decide
  rcases replaceAll_head (by decide) h with hr | h
  case inl =>
    left
    rw [show ("INFORM-REF".data.head? : Option Char) = some 'I' from rfl] at hr
    injection hr with hr
    rw [← hr]
    decide
  rcases replaceAll_head (by decide) h with hr | h
  case inl =>
    left
    rw [show ("INFORM-IF".data.head? : Option Char) = some 'I' from rfl] at hr
    injection hr with hr
    rw [← hr]
    decide
  rcases replaceAll_head (by decide) h with hr | h
  case inl =>
    left
    rw [show ("REJECT-PROPOSAL".data.head? : Option Char) = some 'R' from rfl] at hr
    injection hr with hr
    rw [← hr]
    decide
  rcases replaceAll_head (by decide) h with hr | h
  case inl =>
    left
    rw [show ("ACCEPT-PROPOSAL".data.head? : Option Char) = some 'A' from rfl] at hr
    injection hr with hr
    rw [← hr]
    decide
  exact Or.inr h

set_option maxHeartbeats 1600000 in
theorem applyChain_last {s : List Char} {c : Char}
    (h : (applyChain s).getLast? = some c) :
    pyWs c = false ∨ s.getLast? = some c := by
  rw [applyChain_eq] at h
  rcases replaceAll_last (by decide) h with hr | h
  case inl =>
    left
    rw [show ("REQUEST-WHENEVER".data.getLast? : Option Char) = some 'R' from rfl] at hr
    injection hr with hr
    rw [← hr]
    decide
  rcases replaceAll_last (by decide) h with hr | h
  case inl =>
    left
    rw [show ("REQUEST-WHEN".data.getLast? : Option Char) = some 'N' from rfl] at hr
    injection hr with hr
    rw [← hr]
    decide
  rcases replaceAll_last (by decide) h with hr | h
  case inl =>
    left
    rw [show ("QUERY-REF".data.getLast? : Option Char) = some 'F' from rfl] at hr
    injection hr with hr
    rw [← hr]
    decide
  rcases replaceAll_last (by decide) h with hr | h
  case inl =>
    left
    rw [show ("QUERY-IF".data.getLast? : Option Char) = some 'F' from rfl] at hr
    injection hr with hr
    rw [← hr]
    decide
  rcases replaceAll_last (by decide) h with hr | h
  case inl =>
    left
    rw [show ("INFORM-REF".data.getLast? : Option Char) = some 'F' from rfl] at hr
    injection hr with hr
    rw [← hr]
    decide
  rcases replaceAll_last (by decide) h with hr | h
  case inl =>
    left
    rw [show ("INFORM-IF".data.getLast? : Option Char) = some 'F' from rfl] at hr
    injection hr with hr
    rw [← hr]
    decide
  rcases replaceAll_last (by decide) h with hr | h
  case inl =>
    left
    rw [show ("REJECT-PROPOSAL".data.getLast? : Option Char) = some 'L' from rfl] at hr
    injection hr with hr
    rw [← hr]
    decide
  rcases replaceAll_last (by decide) h with hr | h
  case inl =>
    left
    rw [show ("ACCEPT-PROPOSAL".data.getLast? : Option Char) = some 'L' from rfl] at hr
    injection hr with hr
    rw [← hr]
    decide
  exact Or.inr h


/- ===== normalizeChars: invariants of the output and idempotence ===== -/

set_option maxHeartbeats 1600000 in
theorem normalizeChars_head {l : List Char} {c : Char}
    (h : (normalizeChars l).head? = some c) : pyWs c = false := by
  unfold normalizeChars at h
  rcases collapseAux_head h with rfl | h1
  · decide
  · rcases applyChain_head h1 with h2 | h2
    · exact h2
    · rw [List.head?_map] at h2
      cases hW : (subSpaces (pyStrip l)).head? with
      | none =>
        rw [hW] at h2
        cases h2
      | some d =>
        rw [hW, Option.map_some'] at h2
        have h2b := Option.some.inj h2
        have hres : pyWs (charUpper d) = false := by
          rcases subSpaces_head hW with rfl | h3
          · decide
          · exact charUpper_pyWs (pyStrip_head h3)
        exact h2b ▸ hres

set_option maxHeartbeats 1600000 in
theorem normalizeChars_last {l : List Char} {c : Char}
    (h : (normalizeChars l).getLast? = some c) : pyWs c = false := by
  unfold normalizeChars at h
  rcases collapseAux_last false h with rfl | h1
  · decide
  · rcases applyChain_last h1 with h2 | h2
    · exact h2
    · rw [List.getLast?_map] at h2
      cases hW : (subSpaces (pyStrip l)).getLast? with
      | none =>
        rw [hW] at h2
        cases h2
      | some d =>
        rw [hW, Option.map_some'] at h2
        have h2b := Option.some.inj h2
        have hres : pyWs (charUpper d) = false := by
          rcases subSpacesAux_last false hW with rfl | h3
          · decide
          · exact charUpper_pyWs (pyStrip_last h3)
        exact h2b ▸ hres

set_option maxHeartbeats 1600000 in
theorem normalizeChars_chars {l : List Char} :
    ∀ c ∈ normalizeChars l, spaceOrUnderscore c = false ∧ charUpper c = c := by
  intro c hc
  unfold normalizeChars at hc
  rcases collapseAux_chars false _ c hc with h1 | rfl
  · rcases applyChain_chars h1 with h2 | h2
    · obtain ⟨d, hd, rfl⟩ := List.mem_map.mp h2
      have hsd := subSpacesAux_sOU false (pyStrip l) d hd
      exact ⟨charUpper_sOU hsd, charUpper_idem d⟩
    · exact h2
  · exact ⟨by decide, by decide⟩

theorem chain_absent_L (l : List Char) :
    ∀ pr ∈ replaceChain, ¬ pr.1.data <:+: normalizeChars l := by
  intro pr hpr
  unfold normalizeChars
  apply collapse_keeps_absent
  · exact (by decide : ∀ pr ∈ replaceChain, ('-' : Char) ∉ pr.1.data) pr hpr
  · exact (by decide : ∀ pr ∈ replaceChain,
      (pr : String × String).1.data ≠ []) pr hpr
  · exact chain_absent _ pr hpr

set_option maxHeartbeats 1600000 in
theorem normalizeChars_idem (l : List Char) :
    normalizeChars (normalizeChars l) = normalizeChars l := by
  have hh : ∀ c, (normalizeChars l).head? = some c → pyWs c = false :=
    fun c h => normalizeChars_head h
  have hl : ∀ c, (normalizeChars l).getLast? = some c → pyWs c = false :=
    fun c h => normalizeChars_last h
  have hchars := normalizeChars_chars (l := l)
  show collapseHy (applyChain
    ((subSpaces (pyStrip (normalizeChars l))).map charUpper)) = normalizeChars l
  rw [pyStrip_eq_self hh hl]
  rw [show subSpaces (normalizeChars l) =
    subSpacesAux false (normalizeChars l) from rfl]
  rw [subSpacesAux_eq_self (fun c hc => (hchars c hc).1) false]
  rw [map_upper_eq_self (fun c hc => (hchars c hc).2)]
  rw [applyChain_eq_self (chain_absent_L l)]
  exact collapseHy_idem _

set_option maxHeartbeats 1600000 in
theorem normalizePerformative_idem (s : String) :
    normalizePerformative (normalizePerformative s) =
      normalizePerformative s := by
  by_cases hs : s = ""
  · subst hs
    rfl
  · have h1 : normalizePerformative s = String.mk (normalizeChars s.data) := by
      unfold normalizePerformative
      rw [if_neg hs]
    by_cases ht : String.mk (normalizeChars s.data) = ""
    · rw [h1, ht]
      rfl
    · have hgen : ∀ X : List Char, (String.mk X).data = X := fun X => rfl
      have hdata := hgen (normalizeChars s.data)
      have h2 : normalizePerformative (String.mk (normalizeChars s.data)) =
          String.mk (normalizeChars (String.mk (normalizeChars s.data)).data) := by
        unfold normalizePerformative
        rw [if_neg ht]
      calc normalizePerformative (normalizePerformative s)
          = normalizePerformative (String.mk (normalizeChars s.data)) := by
            rw [h1]
        _ = String.mk
            (normalizeChars (String.mk (normalizeChars s.data)).data) := h2
        _ = String.mk (normalizeChars (normalizeChars s.data)) := by rw [hdata]
        _ = String.mk (normalizeChars s.data) :=
            congrArg String.mk (normalizeChars_idem s.data)
        _ = normalizePerformative s := h1.symm

/- ===== ACL round-trip (claim C7) ===== -/

theorem norm_valid :
    ∀ pf ∈ VALID_PERFORMATIVES, normalizePerformative pf = pf := by decide

theorem defaultProtocolFor_strip (pf : String) :
    ¬ pyStrip (defaultProtocolFor pf).data = [] := by
  unfold defaultProtocolFor
  split_ifs with h1 h2 h3
  · decide
  · decide
  · decide
  · decide

theorem loads_dumps (m : AclMessage) (ts : String)
    (hpf : normalizePerformative m.performative = m.performative)
    (hv : m.performative ∈ VALID_PERFORMATIVES)
    (hprot : ¬ pyStrip m.protocol.data = []) :
    AclMessage.loads (AclMessage.dumps m) ts = some m := by
  obtain ⟨pf, sd, rc, ont, prot, lang, tst, cid, rw1, irt, ct⟩ := m
  simp only at hpf hv hprot
  cases cid <;> cases rw1 <;> cases irt <;>
    simp [AclMessage.loads, AclMessage.dumps, reqStrField, getField,
      optStrField, defStrField, jObj?, jStr?, optStrJ, mkAclMessage,
      List.find?, hpf, hv, hprot]

/-- C7: every AclMessage built by the validating constructor (hence by
make_acl, which calls it) is reproduced field-for-field by
AclMessage.loads ∘ AclMessage.dumps, and normalize_performative is
idempotent on every string. -/
theorem C7_theorem :
    (∀ pf sd rc ont prot lang tst cid rw1 irt ct m ts,
      mkAclMessage pf sd rc ont prot lang tst cid rw1 irt ct = some m →
      AclMessage.loads (AclMessage.dumps m) ts = some m) ∧
    (∀ s, normalizePerformative (normalizePerformative s) =
      normalizePerformative s) := by
  constructor
  · intro pf sd rc ont prot lang tst cid rw1 irt ct m ts hm
    simp only [mkAclMessage] at hm
    by_cases hv : normalizePerformative pf ∈ VALID_PERFORMATIVES
    · rw [if_pos hv] at hm
      injection hm with hm
      subst hm
      apply loads_dumps
      · exact normalizePerformative_idem pf
      · exact hv
      · show ¬ pyStrip (if pyStrip prot.data = [] then
          defaultProtocolFor (normalizePerformative pf) else prot).data = []
        by_cases hp : pyStrip prot.data = []
        · rw [if_pos hp]
          exact defaultProtocolFor_strip _
        · rw [if_neg hp]
          exact hp
    · rw [if_neg hv] at hm
      cases hm
  · exact normalizePerformative_idem

/-- C7 witness: the REQUEST message built by mkAclMessage with default
protocol round-trips through dumps/loads, and normalization of
"Request_When" is idempotent. -/
theorem C7_witness :
    AclMessage.loads
      (AclMessage.dumps
        { performative := "REQUEST"
          sender := "a@x"
          receiver := "b@x"
          ontology := "MAS.Core"
          protocol := "fipa-request"
          language := "application/json"
          timestamp := "t0"
          conversation_id := none
          reply_with := none
          in_reply_to := none
          content := [] }) "t1" =
      some ({ performative := "REQUEST"
              sender := "a@x"
              receiver := "b@x"
              ontology := "MAS.Core"
              protocol := "fipa-request"
              language := "application/json"
              timestamp := "t0"
              conversation_id := none
              reply_with := none
              in_reply_to := none
              content := [] } : AclMessage) ∧
    normalizePerformative (normalizePerformative "Request_When") =
      normalizePerformative "Request_When" :=
  ⟨C7_theorem.1 "request" "a@x" "b@x" "MAS.Core" "" "application/json" "t0"
      none none none [] _ "t1" (by rfl),
    C7_theorem.2 "Request_When"⟩

end MasPoc
